import Mathlib

/-!
# gobwas socket adapter of neffos: embedding and verified properties

The development embeds `src/gobwas/socket.go` and `src/gobwas/upgrader.go`.

* `Socket`, `newSocket`, `Socket.ReadData` (loop body `Socket.ReadDataIter`,
  loop `Socket.ReadDataLoop`), `Socket.write`, `Socket.WriteBinary`,
  `Socket.WriteText`, `Socket.WriteOp`, `Socket.NetConn`, `Socket.Request`
  and `Upgrader` are translated from the Go source, statement by statement.
* The collaborators that the source calls but does not contain (the byte
  stream `net.Conn`, the frame decoder `wsutil.Reader` with its header check
  and its handling of fragmented messages, the control frame handler,
  `wsutil.WriteMessage`, `time.AfterFunc`, `sync.Mutex`, the HTTP upgrader)
  are modelled at the level of whole frames on a stream with an explicit
  clock; each such definition says so in its doc comment.

Go values are embedded as follows: `error` is `Option Err` (`none` is `nil`),
a `[]byte` result that may be `nil` is `Option Bytes`, `time.Duration` and
`time.Time` are integers on one clock, and a call that never returns is a
separate outcome rather than a missing result.

The decoder is modelled with the header check that `newSocket` leaves on
(`SkipHeaderCheck: false`) and with fragmented messages: a frame carries its
FIN bit, `Reader.NextFrame` rejects headers as `ws.CheckHeader` does, and
`ReadAll` and `Discard` read on through the continuation frames of a message.
What a decoder does after it has rejected a text message as ill-formed UTF-8
is not modelled.
-/

namespace gobwas

/-- Byte strings (`[]byte`); a byte is a natural number. -/
abbrev Bytes := List Nat

/-- Go `error` values that occur: `io.EOF`, `io.ErrUnexpectedEOF`, the deadline
error of `net.Conn`, the decoder's invalid UTF-8 error, the protocol error with
which the decoder rejects a frame header, the error with which the control
responder reports a close frame, and any other error, identified by a code. -/
inductive Err where
  | EOF
  | ErrUnexpectedEOF
  | ErrDeadlineExceeded
  | ErrInvalidUTF8
  | ProtocolError
  | ClosedError
  | other (code : Nat)
  deriving DecidableEq

/-- Modelled from the spec: the frame opcode `continuation` of the RFC-compliant
wire format, value `0x0` (constant `gobwas.OpContinuation`, declared outside
src/). -/
def OpContinuation : Nat := 0x0

/-- Modelled from the spec: the frame opcode `text`, value `0x1`
(`gobwas.OpText`). -/
def OpText : Nat := 0x1

/-- Modelled from the spec: the frame opcode `binary`, value `0x2`
(`gobwas.OpBinary`). -/
def OpBinary : Nat := 0x2

/-- Modelled from the spec: the frame opcode `close`, value `0x8`
(`gobwas.OpClose`). -/
def OpClose : Nat := 0x8

/-- Modelled from the spec: the frame opcode `ping`, value `0x9`
(`gobwas.OpPing`). -/
def OpPing : Nat := 0x9

/-- Modelled from the spec: the frame opcode `pong`, value `0xa`
(`gobwas.OpPong`). -/
def OpPong : Nat := 0xa

/-- Modelled from the spec: `OpCode.IsControl`, the control frames (ping, pong,
close) are the opcodes with bit `0x8` set. -/
def IsControl (c : Nat) : Bool := c &&& 0x8 != 0

/-- Modelled from the spec: `OpCode.IsReserved`, the opcodes that the wire format
reserves: `0x3` to `0x7` and `0xb` to `0xf`. -/
def IsReserved (c : Nat) : Bool := (0x3 ≤ c && c ≤ 0x7) || (0xb ≤ c && c ≤ 0xf)

/-- Modelled from the spec: the largest payload of a control frame
(`MaxControlFramePayloadSize`). -/
def MaxControlFramePayloadSize : Nat := 125

/-- The mark of a frame that is not the last one of its message (FIN bit
clear), see `Frame`. -/
def More : Nat := 0x10

/-- The side of the connection (`gobwas.State`): accepting or initiating. -/
inductive State where
  | StateServerSide
  | StateClientSide
  deriving DecidableEq

/-- A frame header as `NextFrame` returns it: opcode and payload length. -/
structure Header where
  OpCode : Nat
  Length : Nat
  deriving DecidableEq

/-- A frame: opcode and payload. The opcode of the wire format has four bits.
On the inbound stream the FIN bit of the header is carried with the opcode: a
frame that is not the last one of its message (FIN bit clear) has `More` on
top of its opcode, so `⟨OpText, p⟩` is a complete text message and
`⟨More + OpText, p⟩` followed by `⟨OpContinuation, q⟩` is a text message in
two fragments. The frames that the Socket writes are complete messages.
Masking is below the level of this model. -/
structure Frame where
  OpCode : Nat
  Payload : Bytes
  deriving DecidableEq

/-- The FIN bit of the header of an inbound frame: the frame is the last one of
its message. -/
def Frame.Fin (f : Frame) : Bool := decide (f.OpCode < More)

/-- The four-bit opcode of the header of an inbound frame. -/
def Frame.op (f : Frame) : Nat := f.OpCode % More

/-- What the peer delivers: frames with the instant at which each becomes
readable, and how the stream ends after them: `some (t, e)` when from instant
`t` on a header read reports `e` (`io.EOF` for a stream closed by the peer),
`none` when the peer stays silent. -/
structure Inbound where
  frames : List (Int × Frame)
  ending : Option (Int × Err)
  deriving DecidableEq

/-- Modelled from the spec: the raw duplex byte stream (`net.Conn`) with read
and write deadlines. `now` is the clock, `inbound` what the peer still
delivers, `wire` the frames written to the peer, `writeErr` a transport failure
that makes every write fail. `resync` says what a header read sees when it
starts inside the unread payload of the previous frame: the byte-level codec
decides that, so it is left open. -/
structure Conn where
  now : Int
  inbound : Inbound
  resync : Bytes → Inbound → Inbound
  readDeadline : Option Int
  writeDeadline : Option Int
  writeErr : Option Err
  wire : List Frame

/-- Effects in the order in which they happen on one Socket. `NextFrame` is the
return of the header read of socket.go:90; the header reads that the decoder
makes on its own while it reads a fragmented message leave no action. -/
inductive Action where
  | Lock
  | Unlock
  | SetReadDeadline (t : Int)
  | SetWriteDeadline (t : Int)
  | AfterFunc (d : Int)
  | Stop
  | NextFrame
  | Write (op : Nat) (body : Bytes)
  deriving DecidableEq

/-- Modelled from the spec: where the decoder stands in a message. `OpCode` is
the opcode of the message (that of its first frame), `unread` the payload
bytes of the frame under the cursor that nothing has read yet, `more` the
fragmentation state: the frame under the cursor is not the last one of its
message. -/
structure Cursor where
  OpCode : Nat
  unread : Bytes
  more : Bool
  deriving DecidableEq

/-- Modelled from the spec: `wsutil.Reader`, the stateful frame decoder, with the
fields that `newSocket` sets. `cur` is the cursor of the decoder; it is `none`
between two messages, when nothing read so far is left to consume. -/
structure Reader where
  State : State
  CheckUTF8 : Bool
  SkipHeaderCheck : Bool
  cur : Option Cursor

/-- The original upgrade request (`*http.Request`). -/
structure Request where
  URL : String
  deriving DecidableEq

/-- The response sink of the upgrade (`http.ResponseWriter`). -/
structure ResponseWriter where
  id : Nat
  deriving DecidableEq

/-- A pending `time.AfterFunc(delay, ...)` of `ReadData`: the instant at which it
fires and the `delayTime` its function passes to `WriteOp`. -/
structure Timer where
  due : Int
  delay : Int
  deriving DecidableEq

/-- The `Socket` struct of socket.go. `mu` is the mutex (`true`: held). The
control handler of the source is a closure over `UnderlyingConn` and `state`
only and is the function `Socket.controlHandler` below. `timer` (the armed
one-shot timer, if any) and `trace` (the effects so far) are the state of the
runtime that belongs to this Socket. -/
structure Socket where
  UnderlyingConn : Conn
  request : Request
  reader : Reader
  state : State
  mu : Bool
  pingPeriod : Int
  timer : Option Timer
  trace : List Action

/-! ## The stream -/

/-- Modelled from the spec: `net.Conn.SetReadDeadline`. The deadline stays in
force for all later reads until it is set again. -/
def Conn.SetReadDeadline (c : Conn) (t : Int) : Conn :=
  { c with readDeadline := some t }

/-- Modelled from the spec: `net.Conn.SetWriteDeadline`. -/
def Conn.SetWriteDeadline (c : Conn) (t : Int) : Conn :=
  { c with writeDeadline := some t }

/-- A deadline `d` has passed at instant `t`. -/
def expired (deadline : Option Int) (t : Int) : Bool :=
  match deadline with
  | some d => decide (d ≤ t)
  | none => false

/-- Modelled from the spec: writing one complete frame to the stream. It fails
with the deadline error when the write deadline has passed, with the transport
error when there is one, and otherwise puts the frame on the wire. -/
def Conn.Write (c : Conn) (f : Frame) : Option Err × Conn :=
  if expired c.writeDeadline c.now then (some Err.ErrDeadlineExceeded, c)
  else
    match c.writeErr with
    | some e => (some e, c)
    | none => (none, { c with wire := c.wire ++ [f] })

/-- Modelled from the spec: `wsutil.WriteMessage(conn, state, op, body)` encodes
`body` as one complete frame of the given opcode and writes it. -/
def WriteMessage (c : Conn) (_state : State) (op : Nat) (body : Bytes) : Option Err × Conn :=
  c.Write { OpCode := op, Payload := body }

/-! ## UTF-8 -/

/-- State of the UTF-8 check: `need` continuation bytes are still due and the
next one has to lie in `[lo, hi]`. -/
structure UTF8State where
  need : Nat
  lo : Nat
  hi : Nat
  deriving DecidableEq

/-- One byte of the UTF-8 check (RFC 3629); `none` rejects. -/
def utf8Step (st : UTF8State) (b : Nat) : Option UTF8State :=
  match st.need with
  | 0 =>
    if b ≤ 0x7F then some ⟨0, 0x80, 0xBF⟩
    else if 0xC2 ≤ b ∧ b ≤ 0xDF then some ⟨1, 0x80, 0xBF⟩
    else if b = 0xE0 then some ⟨2, 0xA0, 0xBF⟩
    else if b = 0xED then some ⟨2, 0x80, 0x9F⟩
    else if 0xE1 ≤ b ∧ b ≤ 0xEF then some ⟨2, 0x80, 0xBF⟩
    else if b = 0xF0 then some ⟨3, 0x90, 0xBF⟩
    else if 0xF1 ≤ b ∧ b ≤ 0xF3 then some ⟨3, 0x80, 0xBF⟩
    else if b = 0xF4 then some ⟨3, 0x80, 0x8F⟩
    else none
  | n + 1 => if st.lo ≤ b ∧ b ≤ st.hi then some ⟨n, 0x80, 0xBF⟩ else none

/-- Runs the UTF-8 check over a byte string from a given state. -/
def utf8Run : UTF8State → Bytes → Bool
  | st, [] => st.need == 0
  | st, b :: bs =>
    match utf8Step st b with
    | some st1 => utf8Run st1 bs
    | none => false

/-- Modelled from the spec: text frames are validated as well-formed UTF-8 at
decode time (`CheckUTF8`). -/
def validUTF8 (p : Bytes) : Bool := utf8Run ⟨0, 0x80, 0xBF⟩ p

/-! ## The write path (socket.go:150-175) -/

/-- Appends an effect to the trace. -/
def Socket.record (s : Socket) (a : Action) : Socket :=
  { s with trace := s.trace ++ [a] }

/-- Replaces the stream state. -/
def Socket.withConn (s : Socket) (c : Conn) : Socket :=
  { s with UnderlyingConn := c }

/-- The clock read by `time.Now()`. -/
def Socket.now (s : Socket) : Int := s.UnderlyingConn.now

/-- The function `write` of socket.go:164-175. `none`: `s.mu.Lock()` never returns
because the mutex is held. -/
def Socket.write (s : Socket) (body : Bytes) (op : Nat) (timeout : Int) :
    Option (Option Err × Socket) :=
  if s.mu then none
  else
    let s1 := ({ s with mu := true } : Socket).record Action.Lock
    let s2 :=
      if timeout > 0 then
        (s1.withConn (s1.UnderlyingConn.SetWriteDeadline (s1.now + timeout))).record
          (Action.SetWriteDeadline (s1.now + timeout))
      else s1
    let r := WriteMessage s2.UnderlyingConn s2.state op body
    let s3 := (s2.withConn r.2).record (Action.Write op body)
    let s4 := ({ s3 with mu := false } : Socket).record Action.Unlock
    some (r.1, s4)

/-- The method `WriteBinary` of socket.go:151-153. -/
def Socket.WriteBinary (s : Socket) (body : Bytes) (timeout : Int) :
    Option (Option Err × Socket) :=
  s.write body OpBinary timeout

/-- The method `WriteText` of socket.go:156-158. -/
def Socket.WriteText (s : Socket) (body : Bytes) (timeout : Int) :
    Option (Option Err × Socket) :=
  s.write body OpText timeout

/-- The method `WriteOp` of socket.go:160-162. -/
def Socket.WriteOp (s : Socket) (body : Bytes) (op : Nat) (timeout : Int) :
    Option (Option Err × Socket) :=
  s.write body op timeout

/-! ## Construction (socket.go:35-73, upgrader.go:19-28) -/

/-- The function `newSocket` of socket.go:35-63. The closure `controlHandler`,
which the source also installs as the reader's `OnIntermediate` hook, is
determined by `underline` and `state` and is not stored: it is the function
`Socket.controlHandler`. -/
def newSocket (underline : Conn) (request : Request) (client : Bool)
    (pingPeriod : Int) : Socket :=
  let state := if client then State.StateClientSide else State.StateServerSide
  let reader : Reader :=
    { State := state, CheckUTF8 := true, SkipHeaderCheck := false, cur := none }
  { UnderlyingConn := underline
    request := request
    state := state
    reader := reader
    mu := false
    pingPeriod := pingPeriod
    timer := none
    trace := [] }

/-- The method `NetConn` of socket.go:66-68. -/
def Socket.NetConn (s : Socket) : Conn := s.UnderlyingConn

/-- The method `Request` of socket.go:71-73. -/
def Socket.Request (s : Socket) : Request := s.request

/-- What `upgrader.Upgrade(r, w)` returns, as far as `Upgrader` looks at it:
the stream and the error. -/
structure UpgradeResult where
  conn : Conn
  err : Option Err

/-- Modelled from the spec: the external HTTP-upgrade collaborator
(`gobwas.HTTPUpgrader`), which turns the request and response sink into a raw
stream or fails. -/
structure HTTPUpgrader where
  Upgrade : Request → ResponseWriter → UpgradeResult

/-- The function `Upgrader` of upgrader.go:19-28. The result pair is the Go
result `(neffos.Socket, error)`; `none` is `nil`. -/
def Upgrader (upgrader : HTTPUpgrader) (pingPeriod : Int) :
    ResponseWriter → Request → Option Socket × Option Err :=
  fun w r =>
    let res := upgrader.Upgrade r w
    if res.err ≠ none then (none, res.err)
    else (some (newSocket res.conn r false pingPeriod), none)

/-! ## The keepalive timer -/

/-- Modelled from the spec: `time.AfterFunc(d, f)` of socket.go:85-87 arms a
one-shot timer that is due at `now + d`; the function it runs is the keepalive
ping of `Socket.fire`. -/
def Socket.AfterFunc (s : Socket) (d : Int) : Timer × Socket :=
  (⟨s.now + d, d⟩, ({ s with timer := some ⟨s.now + d, d⟩ } : Socket).record (Action.AfterFunc d))

/-- Modelled from the spec: `Timer.Stop` disarms the timer. -/
def Socket.Stop (s : Socket) : Socket :=
  ({ s with timer := none } : Socket).record Action.Stop

/-- The timer falls due while the caller is blocked until `upTo` (`none`:
forever). -/
def Timer.dueBy (tm : Timer) (upTo : Option Int) : Bool :=
  match upTo with
  | none => true
  | some t => decide (tm.due ≤ t)

/-- What happens to an armed timer while the caller is blocked until `upTo`
(`none`: forever). If it falls due by then, it fires once at its instant and
runs the function of socket.go:85-87: `s.WriteOp([]byte(""), gobwas.OpPing,
delayTime)`, whose result is dropped. -/
def Socket.fire (s : Socket) (upTo : Option Int) : Socket :=
  match s.timer with
  | none => s
  | some tm =>
    if tm.dueBy upTo = false then s
    else
      let s1 := ({ s with timer := none } : Socket).withConn
        { s.UnderlyingConn with now := max s.now tm.due }
      match s1.WriteOp [] OpPing tm.delay with
      | some r => r.2
      | none => s1

/-! ## The frame decoder -/

/-- The stream as the next header read sees it. After a frame whose payload was
left unread, the read starts inside that payload (`Conn.resync`). -/
def Socket.pending (s : Socket) : Inbound :=
  match s.reader.cur with
  | none => s.UnderlyingConn.inbound
  | some c =>
    if c.unread = [] then s.UnderlyingConn.inbound
    else s.UnderlyingConn.resync c.unread s.UnderlyingConn.inbound

/-- Modelled from the spec: the fragmentation state of the decoder. It is
inside a message whose last frame it has not seen yet. -/
def Socket.fragmented (s : Socket) : Bool :=
  match s.reader.cur with
  | some c => c.more
  | none => false

/-- Modelled from the spec: the cursor once the payload under it has been
consumed. The decoder stays inside a fragmented message and is between two
messages otherwise. -/
def Socket.consumed (s : Socket) : Option Cursor :=
  match s.reader.cur with
  | some c => if c.more = true then some { c with unread := [] } else none
  | none => none

/-- Modelled from the spec: the Socket once the payload under the cursor has
been consumed. -/
def Socket.consume (s : Socket) : Socket :=
  { s with reader := { s.reader with cur := s.consumed } }

/-- Modelled from the spec: the opcode of the message that a frame read next
belongs to, which is that of the message in progress, or the frame's own when
it begins a message. -/
def Socket.opCode (s : Socket) (f : Frame) : Nat :=
  match s.reader.cur with
  | some c => if c.more = true then c.OpCode else f.op
  | none => f.op

/-- What a blocking header read comes back with, and when. -/
inductive Await where
  | frame (t : Int) (f : Frame) (rest : Inbound)
  | fail (t : Int) (e : Err)
  | never

/-- Modelled from the spec: a header read on a stream with a read deadline. A
read that starts at `now` waits for the next frame, or for the end of the
stream; it fails with the deadline error at the deadline when that comes
first, and at once when the deadline has already passed. Without a deadline
and with a silent peer it never returns. -/
def await (now : Int) (deadline : Option Int) (i : Inbound) : Await :=
  match i.frames with
  | (a, f) :: rest =>
    if expired deadline (max now a) then
      Await.fail (max now (deadline.getD now)) Err.ErrDeadlineExceeded
    else Await.frame (max now a) f ⟨rest, i.ending⟩
  | [] =>
    match i.ending with
    | some (a, e) =>
      if expired deadline (max now a) then
        Await.fail (max now (deadline.getD now)) Err.ErrDeadlineExceeded
      else Await.fail (max now a) e
    | none =>
      match deadline with
      | some d => Await.fail (max now d) Err.ErrDeadlineExceeded
      | none => Await.never

/-- Modelled from the spec: `ws.CheckHeader`, the validation of a frame header
that the decoder performs unless `SkipHeaderCheck` is set. It rejects a
reserved opcode, a control frame that is too long or not final, a data frame
that begins a message while another message is in progress, and a
continuation frame outside a message. Its checks of the reserved bits and of
the masking are below the level of this model. -/
def CheckHeader (f : Frame) (fragmented : Bool) : Option Err :=
  if IsReserved f.op = true then some Err.ProtocolError
  else if IsControl f.op = true ∧
      (MaxControlFramePayloadSize < f.Payload.length ∨ f.Fin = false) then
    some Err.ProtocolError
  else if fragmented = true ∧ IsControl f.op = false ∧ f.op ≠ OpContinuation then
    some Err.ProtocolError
  else if fragmented = false ∧ f.op = OpContinuation then some Err.ProtocolError
  else none

/-- Modelled from the spec: the control responder
`wsutil.ControlFrameHandler(underline, state)` of socket.go:41 on a control
frame with opcode `op` and payload `p`. A ping is answered with one pong frame
carrying the same payload and a pong is only consumed. A close frame, which
reaches the responder only from inside a fragmented message because line 104
of `ReadData` returns on it otherwise, is answered with a close frame and
reported as an error. The responder is bound to the stream and the side, so
its frames go to the stream directly, not through `Socket.write`. -/
def Socket.answer (s : Socket) (op : Nat) (p : Bytes) : Option Err × Socket :=
  if op = OpPing then
    ((s.UnderlyingConn.Write ⟨OpPong, p⟩).1,
      (s.withConn (s.UnderlyingConn.Write ⟨OpPong, p⟩).2).record (Action.Write OpPong p))
  else if op = OpClose then
    (some ((s.UnderlyingConn.Write ⟨OpClose, p⟩).1.getD Err.ClosedError),
      (s.withConn (s.UnderlyingConn.Write ⟨OpClose, p⟩).2).record (Action.Write OpClose p))
  else (none, s)

/-- Modelled from the spec: what `Reader.NextFrame` does with the header of frame
`f` that it has read at instant `t`, `rest` being the stream behind the
frame. A header that fails the check is returned with the protocol error; its
payload stays on the stream and the decoder stays where it was. A control
frame that arrives inside a fragmented message goes to `OnIntermediate`, which
`newSocket` sets to the control handler. Any other frame becomes the frame
under the cursor. -/
def Socket.deliver (s : Socket) (t : Int) (f : Frame) (rest : Inbound) :
    Option (Header × Option Err) × Socket :=
  if s.reader.SkipHeaderCheck = false ∧ CheckHeader f s.fragmented ≠ none then
    (some (⟨f.op, f.Payload.length⟩, CheckHeader f s.fragmented),
      s.consume.withConn
        { s.UnderlyingConn with
          now := t
          inbound := if f.Payload = [] then rest else s.UnderlyingConn.resync f.Payload rest })
  else if s.fragmented = true ∧ IsControl f.op = true then
    (some (⟨f.op, f.Payload.length⟩,
        ((s.consume.withConn { s.UnderlyingConn with now := t, inbound := rest }).answer
          f.op f.Payload).1),
      ((s.consume.withConn { s.UnderlyingConn with now := t, inbound := rest }).answer
          f.op f.Payload).2)
  else
    (some (⟨f.op, f.Payload.length⟩, none),
      ({ s with reader := { s.reader with cur := some ⟨s.opCode f, f.Payload, !f.Fin⟩ } } :
        Socket).withConn { s.UnderlyingConn with now := t, inbound := rest })

/-- Modelled from the spec: `Reader.NextFrame` reads the next frame header from
the stream. The result is the Go pair `(hdr, err)`; `none` when the read never
returns. While the read blocks, an armed keepalive timer may fire. The end of
the stream inside a fragmented message is reported as `io.ErrUnexpectedEOF`. -/
def Socket.NextFrame (s : Socket) : Option (Header × Option Err) × Socket :=
  match await s.now s.UnderlyingConn.readDeadline s.pending with
  | Await.never => (none, s.fire none)
  | Await.fail t e =>
    (some (⟨0, 0⟩,
        some (if e = Err.EOF ∧ s.fragmented = true then Err.ErrUnexpectedEOF else e)),
      (s.fire (some t)).withConn { (s.fire (some t)).UnderlyingConn with now := t })
  | Await.frame t f rest => (s.fire (some t)).deliver t f rest

/-- Modelled from the spec: a byte string can still be continued to well-formed
UTF-8 (the UTF-8 check of the decoder rejects a fragment as soon as it cannot). -/
def utf8Begins : UTF8State → Bytes → Bool
  | _, [] => true
  | st, b :: bs =>
    match utf8Step st b with
    | some st1 => utf8Begins st1 bs
    | none => false

/-- How reading the decoder to the end of the message comes out: it never
returns, the loop bound of the embedding ran out (which `ReadAll` and `Discard`
exclude, see `ReadAll_spec` and `Discard_spec`), or it returns the bytes read
and an error. -/
inductive Drained where
  | never
  | out
  | done (b : Bytes) (err : Option Err)
  deriving DecidableEq

/-- Modelled from the spec: reading the decoder to the end of the current
message, at most `n` frames of it. The payload under the cursor is consumed;
while the message is fragmented the decoder reads the next header itself, with
`NextFrame`. With `keep` the bytes are collected and, for a text message under
`CheckUTF8`, rejected when they are not well-formed UTF-8; without `keep` they
are dropped. -/
def Socket.drain (keep : Bool) : Nat → Bytes → Socket → Drained × Socket
  | 0, _, s => (Drained.out, s)
  | n + 1, acc, s =>
    match s.reader.cur with
    | none => (Drained.done acc none, s)
    | some c =>
      if c.more = false then
        if keep = true ∧ s.reader.CheckUTF8 = true ∧ c.OpCode = OpText ∧
            validUTF8 (acc ++ c.unread) = false then
          (Drained.done [] (some Err.ErrInvalidUTF8),
            { s with reader := { s.reader with cur := none } })
        else
          (Drained.done (if keep = true then acc ++ c.unread else []) none,
            { s with reader := { s.reader with cur := none } })
      else if keep = true ∧ s.reader.CheckUTF8 = true ∧ c.OpCode = OpText ∧
          utf8Begins ⟨0, 0x80, 0xBF⟩ (acc ++ c.unread) = false then
        (Drained.done [] (some Err.ErrInvalidUTF8), s.consume)
      else
        match s.consume.NextFrame.1 with
        | none => (Drained.never, s.consume.NextFrame.2)
        | some r =>
          if r.2 ≠ none then (Drained.done [] r.2, s.consume.NextFrame.2)
          else
            Socket.drain keep n (if keep = true then acc ++ c.unread else acc)
              s.consume.NextFrame.2

/-- Modelled from the spec: `ioutil.ReadAll(s.reader)` reads the decoder to
completion and yields the full payload of the current message, the fragments
of a fragmented message joined. The result is the Go pair `(b, err)`. -/
def Socket.ReadAll (s : Socket) : Drained × Socket :=
  s.drain true (s.UnderlyingConn.inbound.frames.length + 1) []

/-- Modelled from the spec: `Reader.Discard` drops what is left of the current
message. -/
def Socket.Discard (s : Socket) : Drained × Socket :=
  s.drain false (s.UnderlyingConn.inbound.frames.length + 1) []

/-- The call `s.controlHandler(hdr, s.reader)` of socket.go:109: the control
responder reads the payload under the cursor and answers. (When the header
read has handed the frame to the responder already, as it does for a control
frame inside a fragmented message, nothing is left under the cursor; what the
responder reads then for a frame with a payload is not modelled.) -/
def Socket.controlHandler (s : Socket) (hdr : Header) : Option Err × Socket :=
  match s.reader.cur with
  | none => (none, s)
  | some c =>
    ((s.answer hdr.OpCode c.unread).1, (s.answer hdr.OpCode c.unread).2.consume)

/-! ## The read path (socket.go:76-130) -/

/-- The outcome of a `ReadData` call: the Go result `(payload, kind, err)`, or
the call never returns, or the loop bound of the embedding ran out (which
`ReadData` excludes, see `ReadData_returns`). -/
inductive Result where
  | ret (b : Option Bytes) (kind : Nat) (err : Option Err)
  | blocked
  | exhausted
  deriving DecidableEq

/-- How one pass through the `for` loop of `ReadData` ends: `continue`, or the
call is over. -/
inductive Step where
  | next
  | done (r : Result)
  deriving DecidableEq

/-- Lines 80-88 of socket.go, the head of the loop body: the read deadline is
set when `timeout > 0`, the keepalive timer is armed when `delayTime > 0`.
The first component is the local variable `delayTimer` afterwards. -/
def Socket.arm (s : Socket) (timeout delayTime : Int) (delayTimer : Option Timer) :
    Option Timer × Socket :=
  let s1 :=
    if timeout > 0 then
      (s.withConn (s.UnderlyingConn.SetReadDeadline (s.now + timeout))).record
        (Action.SetReadDeadline (s.now + timeout))
    else s
  if delayTime > 0 then (some (s1.AfterFunc delayTime).1, (s1.AfterFunc delayTime).2)
  else (delayTimer, s1)

/-- Lines 92-95 of socket.go: `if delayTimer != nil { delayTimer.Stop();
delayTimer = nil }`. -/
def Socket.disarm (s : Socket) (delayTimer : Option Timer) : Option Timer × Socket :=
  if delayTimer ≠ none then (none, s.Stop) else (delayTimer, s)

/-- Lines 97-129 of socket.go: what the loop body does with the pair
`(hdr, err)` that `NextFrame` returned. -/
def Socket.dispatch (s : Socket) (hdr : Header) (err : Option Err) : Step × Socket :=
  if err ≠ none then
    if err = some Err.EOF then
      (Step.done (Result.ret none 0 (some Err.ErrUnexpectedEOF)), s)
    else (Step.done (Result.ret none 0 err), s)
  else if hdr.OpCode = OpClose then
    (Step.done (Result.ret none 0 (some Err.ErrUnexpectedEOF)), s)
  else if IsControl hdr.OpCode = true then
    if (s.controlHandler hdr).1 ≠ none then
      (Step.done (Result.ret none 0 (s.controlHandler hdr).1), (s.controlHandler hdr).2)
    else (Step.next, (s.controlHandler hdr).2)
  else if hdr.OpCode &&& OpBinary = 0 ∧ hdr.OpCode &&& OpText = 0 then
    (match s.Discard.1 with
      | Drained.done _ none => Step.next
      | Drained.done _ (some e) => Step.done (Result.ret none 0 (some e))
      | Drained.never => Step.done Result.blocked
      | Drained.out => Step.done Result.exhausted,
      s.Discard.2)
  else
    (match s.ReadAll.1 with
      | Drained.done b none => Step.done (Result.ret (some b) hdr.OpCode none)
      | Drained.done _ (some e) => Step.done (Result.ret none 0 (some e))
      | Drained.never => Step.done Result.blocked
      | Drained.out => Step.done Result.exhausted,
      s.ReadAll.2)

/-- One pass through the body of the `for` loop of socket.go:79-130: `arm`,
the header read of line 90, `disarm`, `dispatch`. `delayTimer` is the local
variable of that name. The action `NextFrame` marks the return of the header
read of line 90. -/
def Socket.ReadDataIter (s : Socket) (timeout delayTime : Int)
    (delayTimer : Option Timer) : Step × Option Timer × Socket :=
  let armed := s.arm timeout delayTime delayTimer
  let read := armed.2.NextFrame
  match read.1 with
  | none => (Step.done Result.blocked, armed.1, read.2)
  | some r =>
    let stopped := (read.2.record Action.NextFrame).disarm armed.1
    ((stopped.2.dispatch r.1 r.2).1, stopped.1, (stopped.2.dispatch r.1 r.2).2)

/-- The `for` loop of socket.go:79-130, at most `n` passes. -/
def Socket.ReadDataLoop (timeout delayTime : Int) :
    Nat → Option Timer → Socket → Result × Socket
  | 0, _, s => (Result.exhausted, s)
  | n + 1, delayTimer, s =>
    match (s.ReadDataIter timeout delayTime delayTimer).1 with
    | Step.done r => (r, (s.ReadDataIter timeout delayTime delayTimer).2.2)
    | Step.next =>
      Socket.ReadDataLoop timeout delayTime n
        (s.ReadDataIter timeout delayTime delayTimer).2.1
        (s.ReadDataIter timeout delayTime delayTimer).2.2

/-- The method `ReadData` of socket.go:76-130. Every pass that continues has
consumed a frame, so one pass more than there are frames on the stream is
enough. -/
def Socket.ReadData (s : Socket) (timeout : Int) : Result × Socket :=
  Socket.ReadDataLoop timeout s.pingPeriod (s.pending.frames.length + 1) none s

/-- The caller lets time pass until instant `t` between two calls. -/
def Socket.wait (s : Socket) (t : Int) : Socket :=
  s.withConn { s.UnderlyingConn with now := max s.now t }

/-- Successive `ReadData` calls on one Socket, one per timeout of the list; the
results in call order and the Socket afterwards. -/
def Socket.ReadMany (s : Socket) : List Int → List Result × Socket
  | [] => ([], s)
  | timeout :: ts =>
    ((s.ReadData timeout).1 :: ((s.ReadData timeout).2.ReadMany ts).1,
      ((s.ReadData timeout).2.ReadMany ts).2)

/-- A stream on which nothing has happened yet: the peer delivers `frames` and
then `ending`, no deadline is set, writes work, nothing is on the wire. -/
def Conn.fresh (now : Int) (frames : List (Int × Frame)) (ending : Option (Int × Err))
    (resync : Bytes → Inbound → Inbound) : Conn :=
  { now := now
    inbound := ⟨frames, ending⟩
    resync := resync
    readDeadline := none
    writeDeadline := none
    writeErr := none
    wire := [] }

/-! ## Auxiliary notions for the statements -/

/-- A frame that `ReadData` hands to the caller unharmed: binary, or text with
a well-formed UTF-8 payload. -/
def Frame.isMessage (f : Frame) : Prop :=
  f.OpCode = OpBinary ∨ (f.OpCode = OpText ∧ validUTF8 f.Payload = true)

/-- The read deadline in force during a `ReadData(timeout)` call. -/
def Socket.deadline (s : Socket) (timeout : Int) : Option Int :=
  if timeout > 0 then some (s.UnderlyingConn.now + timeout) else s.UnderlyingConn.readDeadline

/-- Actions of the write path: what a keepalive ping or a pong leaves in the
trace. -/
def Action.isWritePath : Action → Bool
  | Action.Lock => true
  | Action.Unlock => true
  | Action.SetWriteDeadline _ => true
  | Action.Write _ _ => true
  | _ => false

/-- The pong frames in a list of frames. -/
def pongs (w : List Frame) : List Frame := w.filter (fun f => f.OpCode = OpPong)

/-- The ping frames in a list of frames. -/
def pings (w : List Frame) : List Frame := w.filter (fun f => f.OpCode = OpPing)

/-- The outcome of the header read of a Socket whose deadline is armed. -/
def Socket.awaited (s : Socket) : Await :=
  await s.UnderlyingConn.now s.UnderlyingConn.readDeadline s.pending

/-- A Socket as `newSocket` makes it on a fresh stream at instant 0 on which
the peer delivers `frames` and then `ending`; the accepting side. -/
def freshSocket (frames : List (Int × Frame)) (ending : Option (Int × Err))
    (pingPeriod : Int) : Socket :=
  newSocket (Conn.fresh 0 frames ending (fun _ i => i)) ⟨"/ws"⟩ false pingPeriod

/-- What no step of the read path changes between a state `s` and a later state
`t`: the configuration of the Socket and of the decoder, the mutex, the read
deadline, and the trace up to actions of the write path. -/
structure Socket.Kept (s t : Socket) : Prop where
  pingPeriod : t.pingPeriod = s.pingPeriod
  mu : t.mu = s.mu
  check : t.reader.SkipHeaderCheck = s.reader.SkipHeaderCheck
  utf8 : t.reader.CheckUTF8 = s.reader.CheckUTF8
  resync : t.UnderlyingConn.resync = s.UnderlyingConn.resync
  readDeadline : t.UnderlyingConn.readDeadline = s.UnderlyingConn.readDeadline
  writeErr : t.UnderlyingConn.writeErr = s.UnderlyingConn.writeErr
  trace : ∃ w, t.trace = s.trace ++ w ∧ ∀ x ∈ w, x.isWritePath = true

/-- What a step of the read path leaves as it is while no keepalive timer is
armed: still no timer, the same write deadline, no further ping on the wire. -/
structure Socket.Quiet (s t : Socket) : Prop where
  timer : t.timer = none
  writeDeadline : t.UnderlyingConn.writeDeadline = s.UnderlyingConn.writeDeadline
  pings : pings t.UnderlyingConn.wire = pings s.UnderlyingConn.wire

/-- No timer is armed in the actions `w`. -/
def noAfterFunc (w : List Action) : Prop := ∀ d, Action.AfterFunc d ∉ w

/-- The actions of one pass of the `ReadData` loop with the given `timeout` and
keepalive interval, as the code orders them: the read deadline is set when
`timeout > 0`; the timer is armed exactly when the interval is positive;
while the header read blocks nothing happens but writes (the keepalive ping);
when the header read returns, the timer, if one was armed, is stopped at once;
what follows are writes (pong frames). `returned` says whether the header read
came back. -/
def passTrace (timeout delayTime : Int) (returned : Bool) (w : List Action) : Prop :=
  ∃ (now : Int) (mid post : List Action),
    (∀ x ∈ mid, x.isWritePath = true) ∧ (∀ x ∈ post, x.isWritePath = true) ∧
    w = (if timeout > 0 then [Action.SetReadDeadline (now + timeout)] else []) ++
      (if delayTime > 0 then [Action.AfterFunc delayTime] else []) ++ mid ++
      (if returned = true then
        [Action.NextFrame] ++ (if delayTime > 0 then [Action.Stop] else []) ++ post
      else [])

/-- The Socket at line 97 of socket.go: the header read of the pass has
returned and the timer, if one was armed, has been stopped. -/
def Socket.stopped (s : Socket) (timeout delayTime : Int) (delayTimer : Option Timer) :
    Socket :=
  (((s.arm timeout delayTime delayTimer).2.NextFrame.2.record Action.NextFrame).disarm
    (s.arm timeout delayTime delayTimer).1).2

/-- No call of a series of `ReadData` calls with the timeouts `ts` times out
before its frame has arrived: the calls start at instant `now` with the read
deadline `deadline` in force, the i-th call waits for the i-th frame of
`frames`, and a call with `timeout > 0` sets a new deadline. -/
def inTime : Int → Option Int → List Int → List (Int × Frame) → Bool
  | now, deadline, t :: ts, (a, _) :: frames =>
    !expired (if t > 0 then some (now + t) else deadline) (max now a) &&
      inTime (max now a) (if t > 0 then some (now + t) else deadline) ts frames
  | _, _, _, _ => true

/-- The write deadline in force when the control handler answers a frame that
arrives at instant `a` during a `ReadData` call begun at `s.now` with no timer
armed and the mutex free: if the keepalive timer fired while the header read
waited, the deadline that its ping set, one interval after it fired; otherwise
the deadline that was there before. -/
def Socket.pongDeadline (s : Socket) (a : Int) : Option Int :=
  if s.pingPeriod > 0 ∧ s.now + s.pingPeriod ≤ max s.now a then
    some (s.now + s.pingPeriod + s.pingPeriod)
  else s.UnderlyingConn.writeDeadline

/-! # Theorems

## What the keepalive timer leaves alone -/

theorem write_frame (s : Socket) (body : Bytes) (op : Nat) (timeout : Int)
    (r : Option Err × Socket) (h : s.write body op timeout = some r) :
    r.2.reader = s.reader ∧ r.2.request = s.request ∧ r.2.state = s.state ∧
    r.2.pingPeriod = s.pingPeriod ∧ r.2.timer = s.timer ∧ r.2.mu = false ∧
    r.2.UnderlyingConn.inbound = s.UnderlyingConn.inbound ∧
    r.2.UnderlyingConn.resync = s.UnderlyingConn.resync ∧
    r.2.UnderlyingConn.readDeadline = s.UnderlyingConn.readDeadline ∧
    r.2.UnderlyingConn.writeErr = s.UnderlyingConn.writeErr ∧
    r.2.UnderlyingConn.now = s.UnderlyingConn.now := by
  unfold Socket.write at h
  by_cases hm : s.mu = true
  · simp [hm] at h
  · simp only [hm] at h
    simp only [Bool.false_eq_true, if_false, Option.some.injEq] at h
    subst h
    by_cases ht : timeout > 0 <;>
      simp [ht, WriteMessage, Conn.Write, Socket.record, Socket.withConn,
        Conn.SetWriteDeadline, Socket.now] <;>
      split <;> try split
    all_goals simp

theorem fire_frame (s : Socket) (upTo : Option Int) :
    (s.fire upTo).reader = s.reader ∧ (s.fire upTo).request = s.request ∧
    (s.fire upTo).state = s.state ∧ (s.fire upTo).pingPeriod = s.pingPeriod ∧
    (s.fire upTo).UnderlyingConn.inbound = s.UnderlyingConn.inbound ∧
    (s.fire upTo).UnderlyingConn.resync = s.UnderlyingConn.resync ∧
    (s.fire upTo).UnderlyingConn.readDeadline = s.UnderlyingConn.readDeadline ∧
    (s.fire upTo).UnderlyingConn.writeErr = s.UnderlyingConn.writeErr := by
  unfold Socket.fire
  cases hT : s.timer with
  | none => simp
  | some tm =>
    by_cases hd : tm.dueBy upTo = false
    · simp [hd]
    · simp only [hd, if_false]
      cases hw : Socket.WriteOp (({ s with timer := none } : Socket).withConn
          { s.UnderlyingConn with now := max s.now tm.due }) [] OpPing tm.delay with
      | none => simp [Socket.withConn]
      | some r =>
        have h := write_frame _ _ _ _ r hw
        simp [Socket.withConn] at h
        simp [h]

@[simp] theorem fire_reader (s : Socket) (u : Option Int) : (s.fire u).reader = s.reader :=
  (fire_frame s u).1

@[simp] theorem fire_request (s : Socket) (u : Option Int) : (s.fire u).request = s.request :=
  (fire_frame s u).2.1

@[simp] theorem fire_state (s : Socket) (u : Option Int) : (s.fire u).state = s.state :=
  (fire_frame s u).2.2.1

@[simp] theorem fire_pingPeriod (s : Socket) (u : Option Int) :
    (s.fire u).pingPeriod = s.pingPeriod :=
  (fire_frame s u).2.2.2.1

@[simp] theorem fire_inbound (s : Socket) (u : Option Int) :
    (s.fire u).UnderlyingConn.inbound = s.UnderlyingConn.inbound :=
  (fire_frame s u).2.2.2.2.1

@[simp] theorem fire_resync (s : Socket) (u : Option Int) :
    (s.fire u).UnderlyingConn.resync = s.UnderlyingConn.resync :=
  (fire_frame s u).2.2.2.2.2.1

@[simp] theorem fire_readDeadline (s : Socket) (u : Option Int) :
    (s.fire u).UnderlyingConn.readDeadline = s.UnderlyingConn.readDeadline :=
  (fire_frame s u).2.2.2.2.2.2.1

@[simp] theorem fire_writeErr (s : Socket) (u : Option Int) :
    (s.fire u).UnderlyingConn.writeErr = s.UnderlyingConn.writeErr :=
  (fire_frame s u).2.2.2.2.2.2.2


/-! ## The stages of the loop body -/

@[simp] theorem arm_reader (s : Socket) (t d : Int) (dt : Option Timer) :
    (s.arm t d dt).2.reader = s.reader := by
  unfold Socket.arm
  by_cases h1 : t > 0 <;> by_cases h2 : d > 0 <;>
    simp [h1, h2, Socket.AfterFunc, Socket.record, Socket.withConn]

@[simp] theorem arm_pingPeriod (s : Socket) (t d : Int) (dt : Option Timer) :
    (s.arm t d dt).2.pingPeriod = s.pingPeriod := by
  unfold Socket.arm
  by_cases h1 : t > 0 <;> by_cases h2 : d > 0 <;>
    simp [h1, h2, Socket.AfterFunc, Socket.record, Socket.withConn]

@[simp] theorem arm_inbound (s : Socket) (t d : Int) (dt : Option Timer) :
    (s.arm t d dt).2.UnderlyingConn.inbound = s.UnderlyingConn.inbound := by
  unfold Socket.arm
  by_cases h1 : t > 0 <;> by_cases h2 : d > 0 <;>
    simp [h1, h2, Socket.AfterFunc, Socket.record, Socket.withConn, Conn.SetReadDeadline]

@[simp] theorem arm_resync (s : Socket) (t d : Int) (dt : Option Timer) :
    (s.arm t d dt).2.UnderlyingConn.resync = s.UnderlyingConn.resync := by
  unfold Socket.arm
  by_cases h1 : t > 0 <;> by_cases h2 : d > 0 <;>
    simp [h1, h2, Socket.AfterFunc, Socket.record, Socket.withConn, Conn.SetReadDeadline]

@[simp] theorem arm_now (s : Socket) (t d : Int) (dt : Option Timer) :
    (s.arm t d dt).2.UnderlyingConn.now = s.UnderlyingConn.now := by
  unfold Socket.arm
  by_cases h1 : t > 0 <;> by_cases h2 : d > 0 <;>
    simp [h1, h2, Socket.AfterFunc, Socket.record, Socket.withConn, Conn.SetReadDeadline]

@[simp] theorem arm_readDeadline (s : Socket) (t d : Int) (dt : Option Timer) :
    (s.arm t d dt).2.UnderlyingConn.readDeadline =
      if t > 0 then some (s.UnderlyingConn.now + t) else s.UnderlyingConn.readDeadline := by
  unfold Socket.arm
  by_cases h1 : t > 0 <;> by_cases h2 : d > 0 <;>
    simp [h1, h2, Socket.AfterFunc, Socket.record, Socket.withConn, Conn.SetReadDeadline,
      Socket.now]

@[simp] theorem arm_pending (s : Socket) (t d : Int) (dt : Option Timer) :
    (s.arm t d dt).2.pending = s.pending := by
  simp [Socket.pending]


@[simp] theorem disarm_reader (s : Socket) (dt : Option Timer) :
    (s.disarm dt).2.reader = s.reader := by
  unfold Socket.disarm
  split <;> simp [Socket.Stop, Socket.record]

@[simp] theorem disarm_conn (s : Socket) (dt : Option Timer) :
    (s.disarm dt).2.UnderlyingConn = s.UnderlyingConn := by
  unfold Socket.disarm
  split <;> simp [Socket.Stop, Socket.record]

@[simp] theorem disarm_pingPeriod (s : Socket) (dt : Option Timer) :
    (s.disarm dt).2.pingPeriod = s.pingPeriod := by
  unfold Socket.disarm
  split <;> simp [Socket.Stop, Socket.record]

@[simp] theorem disarm_fst (s : Socket) (dt : Option Timer) : (s.disarm dt).1 = none := by
  unfold Socket.disarm
  split <;> simp_all

@[simp] theorem disarm_timer (s : Socket) (dt : Option Timer) :
    (s.disarm dt).2.timer = if dt ≠ none then none else s.timer := by
  unfold Socket.disarm
  split <;> simp_all [Socket.Stop, Socket.record]


theorem write_effect (s : Socket) (body : Bytes) (op : Nat) (timeout : Int)
    (r : Option Err × Socket) (h : s.write body op timeout = some r) :
    (r.2.UnderlyingConn.wire = s.UnderlyingConn.wire ∨
      r.2.UnderlyingConn.wire = s.UnderlyingConn.wire ++ [⟨op, body⟩]) ∧
    r.2.UnderlyingConn.writeDeadline =
      (if timeout > 0 then some (s.UnderlyingConn.now + timeout)
        else s.UnderlyingConn.writeDeadline) ∧
    (∃ w, r.2.trace = s.trace ++ w ∧ ∀ x ∈ w, x.isWritePath = true) := by
  unfold Socket.write at h
  by_cases hm : s.mu = true
  · simp [hm] at h
  · simp only [hm] at h
    simp only [Bool.false_eq_true, if_false, Option.some.injEq] at h
    subst h
    by_cases ht : timeout > 0
    · refine ⟨?_, ?_, ?_⟩
      · simp only [ht, if_true, WriteMessage, Conn.Write, Socket.record, Socket.withConn,
          Conn.SetWriteDeadline]
        split <;> try split
        all_goals simp
      · simp only [ht, if_true, WriteMessage, Conn.Write, Socket.record, Socket.withConn,
          Conn.SetWriteDeadline, Socket.now]
        split <;> try split
        all_goals simp
      · refine ⟨[Action.Lock, Action.SetWriteDeadline (s.UnderlyingConn.now + timeout),
          Action.Write op body, Action.Unlock], ?_, ?_⟩
        · simp [ht, Socket.record, Socket.withConn, Socket.now]
        · intro x hx
          simp at hx
          rcases hx with rfl | rfl | rfl | rfl <;> rfl
    · refine ⟨?_, ?_, ?_⟩
      · simp only [ht, if_false, WriteMessage, Conn.Write, Socket.record, Socket.withConn]
        split <;> try split
        all_goals simp
      · simp only [ht, if_false, WriteMessage, Conn.Write, Socket.record, Socket.withConn]
        split <;> try split
        all_goals simp
      · refine ⟨[Action.Lock, Action.Write op body, Action.Unlock], ?_, ?_⟩
        · simp [ht, Socket.record, Socket.withConn]
        · intro x hx
          simp at hx
          rcases hx with rfl | rfl | rfl <;> rfl

theorem fire_idle (s : Socket) (u : Option Int) (h : s.timer = none) : s.fire u = s := by
  simp [Socket.fire, h]

theorem fire_wire (s : Socket) (u : Option Int) :
    (s.fire u).UnderlyingConn.wire = s.UnderlyingConn.wire ∨
    (s.fire u).UnderlyingConn.wire = s.UnderlyingConn.wire ++ [⟨OpPing, []⟩] := by
  unfold Socket.fire
  cases hT : s.timer with
  | none => simp
  | some tm =>
    by_cases hd : tm.dueBy u = false
    · simp [hd]
    · simp only [hd, if_false]
      cases hw : Socket.WriteOp (({ s with timer := none } : Socket).withConn
          { s.UnderlyingConn with now := max s.now tm.due }) [] OpPing tm.delay with
      | none => simp [Socket.withConn]
      | some r =>
        have h := (write_effect _ _ _ _ r hw).1
        simpa [Socket.withConn] using h


@[simp] theorem arm_wire (s : Socket) (t d : Int) (dt : Option Timer) :
    (s.arm t d dt).2.UnderlyingConn.wire = s.UnderlyingConn.wire := by
  unfold Socket.arm
  by_cases h1 : t > 0 <;> by_cases h2 : d > 0 <;>
    simp [h1, h2, Socket.AfterFunc, Socket.record, Socket.withConn, Conn.SetReadDeadline]

@[simp] theorem arm_writeDeadline (s : Socket) (t d : Int) (dt : Option Timer) :
    (s.arm t d dt).2.UnderlyingConn.writeDeadline = s.UnderlyingConn.writeDeadline := by
  unfold Socket.arm
  by_cases h1 : t > 0 <;> by_cases h2 : d > 0 <;>
    simp [h1, h2, Socket.AfterFunc, Socket.record, Socket.withConn, Conn.SetReadDeadline]

@[simp] theorem arm_writeErr (s : Socket) (t d : Int) (dt : Option Timer) :
    (s.arm t d dt).2.UnderlyingConn.writeErr = s.UnderlyingConn.writeErr := by
  unfold Socket.arm
  by_cases h1 : t > 0 <;> by_cases h2 : d > 0 <;>
    simp [h1, h2, Socket.AfterFunc, Socket.record, Socket.withConn, Conn.SetReadDeadline]

@[simp] theorem arm_timer (s : Socket) (t d : Int) (dt : Option Timer) :
    (s.arm t d dt).2.timer =
      if d > 0 then some ⟨s.UnderlyingConn.now + d, d⟩ else s.timer := by
  unfold Socket.arm
  by_cases h1 : t > 0 <;> by_cases h2 : d > 0 <;>
    simp [h1, h2, Socket.AfterFunc, Socket.record, Socket.withConn, Conn.SetReadDeadline,
      Socket.now]

@[simp] theorem arm_fst (s : Socket) (t d : Int) (dt : Option Timer) :
    (s.arm t d dt).1 = if d > 0 then some ⟨s.UnderlyingConn.now + d, d⟩ else dt := by
  unfold Socket.arm
  by_cases h1 : t > 0 <;> by_cases h2 : d > 0 <;>
    simp [h1, h2, Socket.AfterFunc, Socket.record, Socket.withConn, Conn.SetReadDeadline,
      Socket.now]

@[simp] theorem arm_trace (s : Socket) (t d : Int) (dt : Option Timer) :
    (s.arm t d dt).2.trace =
      s.trace ++ (if t > 0 then [Action.SetReadDeadline (s.UnderlyingConn.now + t)] else []) ++
        (if d > 0 then [Action.AfterFunc d] else []) := by
  unfold Socket.arm
  by_cases h1 : t > 0 <;> by_cases h2 : d > 0 <;>
    simp [h1, h2, Socket.AfterFunc, Socket.record, Socket.withConn, Conn.SetReadDeadline,
      Socket.now]


@[simp] theorem disarm_trace (s : Socket) (dt : Option Timer) :
    (s.disarm dt).2.trace = s.trace ++ (if dt ≠ none then [Action.Stop] else []) := by
  unfold Socket.disarm
  split <;> simp_all [Socket.Stop, Socket.record]

theorem Kept_refl (s : Socket) : s.Kept s :=
  ⟨rfl, rfl, rfl, rfl, rfl, rfl, rfl, [], by simp, by simp⟩

theorem Kept_trans {s t u : Socket} (h1 : s.Kept t) (h2 : t.Kept u) : s.Kept u := by
  obtain ⟨w1, hw1, hp1⟩ := h1.trace
  obtain ⟨w2, hw2, hp2⟩ := h2.trace
  refine ⟨h2.pingPeriod.trans h1.pingPeriod, h2.mu.trans h1.mu, h2.check.trans h1.check,
    h2.utf8.trans h1.utf8, h2.resync.trans h1.resync, h2.readDeadline.trans h1.readDeadline,
    h2.writeErr.trans h1.writeErr, w1 ++ w2, by rw [hw2, hw1, List.append_assoc], ?_⟩
  intro x hx
  rcases List.mem_append.mp hx with hx | hx
  · exact hp1 x hx
  · exact hp2 x hx

theorem Quiet_refl (s : Socket) (h : s.timer = none) : s.Quiet s := ⟨h, rfl, rfl⟩

theorem Quiet_trans {s t u : Socket} (h1 : s.Quiet t) (h2 : t.Quiet u) : s.Quiet u :=
  ⟨h2.timer, h2.writeDeadline.trans h1.writeDeadline, h2.pings.trans h1.pings⟩

theorem fire_mu (s : Socket) (u : Option Int) : (s.fire u).mu = s.mu := by
  unfold Socket.fire
  cases hT : s.timer with
  | none => simp
  | some tm =>
    by_cases hd : tm.dueBy u = false
    · simp [hd]
    · simp only [hd, if_false]
      cases hw : Socket.WriteOp (({ s with timer := none } : Socket).withConn
          { s.UnderlyingConn with now := max s.now tm.due }) [] OpPing tm.delay with
      | none => simp [Socket.withConn]
      | some r =>
        have h := (write_frame _ _ _ _ r hw).2.2.2.2.2.1
        have hm : s.mu = false := by
          by_contra hne
          have hm2 : s.mu = true := by simpa using hne
          simp [Socket.WriteOp, Socket.write, Socket.withConn, hm2] at hw
        simp [h, hm]

theorem fire_trace (s : Socket) (u : Option Int) :
    ∃ w, (s.fire u).trace = s.trace ++ w ∧ ∀ x ∈ w, x.isWritePath = true := by
  unfold Socket.fire
  cases hT : s.timer with
  | none => exact ⟨[], by simp, by simp⟩
  | some tm =>
    by_cases hd : tm.dueBy u = false
    · simp only [hd, if_true]
      exact ⟨[], by simp, by simp⟩
    · simp only [hd, if_false]
      cases hw : Socket.WriteOp (({ s with timer := none } : Socket).withConn
          { s.UnderlyingConn with now := max s.now tm.due }) [] OpPing tm.delay with
      | none => exact ⟨[], by simp [Socket.withConn], by simp⟩
      | some r =>
        obtain ⟨w, h1, h2⟩ := (write_effect _ _ _ _ r hw).2.2
        exact ⟨w, by simpa [Socket.withConn] using h1, h2⟩

theorem fire_kept (s : Socket) (u : Option Int) : s.Kept (s.fire u) :=
  ⟨fire_pingPeriod s u, fire_mu s u, by simp, by simp, fire_resync s u, fire_readDeadline s u,
    fire_writeErr s u, fire_trace s u⟩

@[simp] theorem fire_fragmented (s : Socket) (u : Option Int) :
    (s.fire u).fragmented = s.fragmented := by
  simp [Socket.fragmented]

@[simp] theorem fire_consumed (s : Socket) (u : Option Int) :
    (s.fire u).consumed = s.consumed := by
  simp [Socket.consumed]

@[simp] theorem fire_opCode (s : Socket) (u : Option Int) (f : Frame) :
    (s.fire u).opCode f = s.opCode f := by
  simp [Socket.opCode]

@[simp] theorem fire_pending (s : Socket) (u : Option Int) : (s.fire u).pending = s.pending := by
  simp [Socket.pending]

@[simp] theorem arm_fragmented (s : Socket) (t d : Int) (dt : Option Timer) :
    (s.arm t d dt).2.fragmented = s.fragmented := by
  simp [Socket.fragmented]

@[simp] theorem arm_mu (s : Socket) (t d : Int) (dt : Option Timer) :
    (s.arm t d dt).2.mu = s.mu := by
  unfold Socket.arm
  by_cases h1 : t > 0 <;> by_cases h2 : d > 0 <;>
    simp [h1, h2, Socket.AfterFunc, Socket.record, Socket.withConn]

@[simp] theorem arm_awaited (s : Socket) (t d : Int) (dt : Option Timer) :
    (s.arm t d dt).2.awaited = await s.UnderlyingConn.now (s.deadline t) s.pending := by
  simp [Socket.awaited, Socket.deadline]

/-! ## The frame decoder -/

theorem NextFrame_eq (s : Socket) :
    s.NextFrame =
      match s.awaited with
      | Await.never => (none, s.fire none)
      | Await.fail t e =>
        (some (⟨0, 0⟩,
            some (if e = Err.EOF ∧ s.fragmented = true then Err.ErrUnexpectedEOF else e)),
          (s.fire (some t)).withConn { (s.fire (some t)).UnderlyingConn with now := t })
      | Await.frame t f rest => (s.fire (some t)).deliver t f rest := by
  unfold Socket.NextFrame Socket.awaited Socket.now
  split <;> simp_all

theorem Write_frame (c : Conn) (f : Frame) :
    (c.Write f).2.inbound = c.inbound ∧ (c.Write f).2.now = c.now ∧
    (c.Write f).2.resync = c.resync ∧ (c.Write f).2.readDeadline = c.readDeadline ∧
    (c.Write f).2.writeDeadline = c.writeDeadline ∧ (c.Write f).2.writeErr = c.writeErr ∧
    ((c.Write f).2.wire = c.wire ∨ (c.Write f).2.wire = c.wire ++ [f]) := by
  unfold Conn.Write
  split
  · exact ⟨rfl, rfl, rfl, rfl, rfl, rfl, Or.inl rfl⟩
  · split
    · exact ⟨rfl, rfl, rfl, rfl, rfl, rfl, Or.inl rfl⟩
    · exact ⟨rfl, rfl, rfl, rfl, rfl, rfl, Or.inr rfl⟩

theorem reply_kept (s : Socket) (op : Nat) (p : Bytes) :
    s.Kept ((s.withConn (s.UnderlyingConn.Write ⟨op, p⟩).2).record (Action.Write op p)) := by
  obtain ⟨_, _, h3, h4, _, h6, _⟩ := Write_frame s.UnderlyingConn ⟨op, p⟩
  exact ⟨rfl, rfl, rfl, rfl, h3, h4, h6, [Action.Write op p], rfl,
    by simp [Action.isWritePath]⟩

theorem answer_kept (s : Socket) (op : Nat) (p : Bytes) : s.Kept (s.answer op p).2 := by
  unfold Socket.answer
  by_cases hp : op = OpPing
  · rw [if_pos hp]
    exact reply_kept s OpPong p
  · rw [if_neg hp]
    by_cases hc : op = OpClose
    · rw [if_pos hc]
      exact reply_kept s OpClose p
    · rw [if_neg hc]
      exact Kept_refl s

theorem pongs_append_ping (w : List Frame) (p : Bytes) :
    pongs (w ++ [⟨OpPing, p⟩]) = pongs w := by
  simp [pongs, OpPong, OpPing]

theorem pings_append (w : List Frame) (f : Frame) (h : f.OpCode ≠ OpPing) :
    pings (w ++ [f]) = pings w := by
  simp [pings, h]

theorem reply_frame (s : Socket) (op : Nat) (p : Bytes) (hop : op ≠ OpPing) :
    ((s.withConn (s.UnderlyingConn.Write ⟨op, p⟩).2).record (Action.Write op p)).timer =
      s.timer ∧
    ((s.withConn (s.UnderlyingConn.Write ⟨op, p⟩).2).record (Action.Write op p)).reader =
      s.reader ∧
    ((s.withConn (s.UnderlyingConn.Write ⟨op, p⟩).2).record
      (Action.Write op p)).UnderlyingConn.inbound = s.UnderlyingConn.inbound ∧
    ((s.withConn (s.UnderlyingConn.Write ⟨op, p⟩).2).record
      (Action.Write op p)).UnderlyingConn.now = s.UnderlyingConn.now ∧
    ((s.withConn (s.UnderlyingConn.Write ⟨op, p⟩).2).record
      (Action.Write op p)).UnderlyingConn.writeDeadline = s.UnderlyingConn.writeDeadline ∧
    pings ((s.withConn (s.UnderlyingConn.Write ⟨op, p⟩).2).record
      (Action.Write op p)).UnderlyingConn.wire = pings s.UnderlyingConn.wire := by
  obtain ⟨h1, h2, _, _, h5, _, h7⟩ := Write_frame s.UnderlyingConn ⟨op, p⟩
  refine ⟨rfl, rfl, h1, h2, h5, ?_⟩
  rcases h7 with h7 | h7
  · exact congrArg pings h7
  · exact (congrArg pings h7).trans (pings_append _ _ hop)

theorem answer_frame (s : Socket) (op : Nat) (p : Bytes) :
    (s.answer op p).2.timer = s.timer ∧ (s.answer op p).2.reader = s.reader ∧
    (s.answer op p).2.UnderlyingConn.inbound = s.UnderlyingConn.inbound ∧
    (s.answer op p).2.UnderlyingConn.now = s.UnderlyingConn.now ∧
    (s.answer op p).2.UnderlyingConn.writeDeadline = s.UnderlyingConn.writeDeadline ∧
    pings (s.answer op p).2.UnderlyingConn.wire = pings s.UnderlyingConn.wire := by
  unfold Socket.answer
  by_cases hp : op = OpPing
  · rw [if_pos hp]
    exact reply_frame s OpPong p (by decide)
  · rw [if_neg hp]
    by_cases hc : op = OpClose
    · rw [if_pos hc]
      exact reply_frame s OpClose p (by decide)
    · rw [if_neg hc]
      exact ⟨rfl, rfl, rfl, rfl, rfl, rfl⟩

theorem Kept_of_move (s : Socket) (c : Option Cursor) (t : Int) (i : Inbound) :
    s.Kept (({ s with reader := { s.reader with cur := c } } : Socket).withConn
      { s.UnderlyingConn with now := t, inbound := i }) :=
  ⟨rfl, rfl, rfl, rfl, rfl, rfl, rfl, [], by simp [Socket.withConn], by simp⟩

theorem consume_kept (s : Socket) : s.Kept s.consume :=
  ⟨rfl, rfl, rfl, rfl, rfl, rfl, rfl, [], by simp [Socket.consume], by simp⟩

theorem consume_quiet (s : Socket) (h : s.timer = none) : s.Quiet s.consume := ⟨h, rfl, rfl⟩

theorem Kept_of_now (s : Socket) (t : Int) :
    s.Kept (s.withConn { s.UnderlyingConn with now := t }) :=
  ⟨rfl, rfl, rfl, rfl, rfl, rfl, rfl, [], by simp [Socket.withConn], by simp⟩

theorem Kept_of_cur (s : Socket) (c : Option Cursor) :
    s.Kept ({ s with reader := { s.reader with cur := c } } : Socket) :=
  ⟨rfl, rfl, rfl, rfl, rfl, rfl, rfl, [], by simp, by simp⟩

theorem deliver_kept (s : Socket) (t : Int) (f : Frame) (rest : Inbound) :
    s.Kept (s.deliver t f rest).2 := by
  unfold Socket.deliver
  split
  · exact Kept_of_move s _ t _
  · split
    · exact Kept_trans (Kept_of_move s s.consumed t rest) (answer_kept _ f.op f.Payload)
    · exact Kept_of_move s _ t _

theorem deliver_frame (s : Socket) (t : Int) (f : Frame) (rest : Inbound) :
    (s.deliver t f rest).2.timer = s.timer ∧
    (s.deliver t f rest).2.UnderlyingConn.writeDeadline = s.UnderlyingConn.writeDeadline ∧
    pings (s.deliver t f rest).2.UnderlyingConn.wire = pings s.UnderlyingConn.wire ∧
    (s.deliver t f rest).2.UnderlyingConn.now = t := by
  unfold Socket.deliver
  split
  · exact ⟨rfl, rfl, rfl, rfl⟩
  · split
    · obtain ⟨h1, _, _, h4, h5, h6⟩ := answer_frame
        (s.consume.withConn { s.UnderlyingConn with now := t, inbound := rest }) f.op f.Payload
      exact ⟨h1, h5, h6, h4⟩
    · exact ⟨rfl, rfl, rfl, rfl⟩

theorem deliver_isSome (s : Socket) (t : Int) (f : Frame) (rest : Inbound) :
    ∃ r, (s.deliver t f rest).1 = some r := by
  unfold Socket.deliver
  split
  · exact ⟨_, rfl⟩
  · split <;> exact ⟨_, rfl⟩

/-- A header that the decoder returns without an error: the frame behind it
is off the stream, and under the header check its opcode is not reserved, a
continuation frame continues a message in progress and any other data frame
begins a message. -/
theorem deliver_ok (s : Socket) (t : Int) (f : Frame) (rest : Inbound) (hdr : Header)
    (h : (s.deliver t f rest).1 = some (hdr, none)) :
    hdr = ⟨f.op, f.Payload.length⟩ ∧
    (s.deliver t f rest).2.UnderlyingConn.inbound = rest ∧
    (s.reader.SkipHeaderCheck = false → CheckHeader f s.fragmented = none) ∧
    ((s.deliver t f rest).2.reader.cur = s.consumed ∨
      (s.deliver t f rest).2.reader.cur = some ⟨s.opCode f, f.Payload, !f.Fin⟩) := by
  unfold Socket.deliver at h ⊢
  split at h
  · rename_i hc
    simp only [Option.some.injEq, Prod.mk.injEq] at h
    exact absurd h.2 hc.2
  · rename_i hc
    have hck : s.reader.SkipHeaderCheck = false → CheckHeader f s.fragmented = none := by
      intro h1
      by_contra h2
      exact hc ⟨h1, h2⟩
    rw [if_neg hc]
    split at h
    · rename_i hi
      rw [if_pos hi]
      simp only [Option.some.injEq, Prod.mk.injEq] at h
      obtain ⟨_, h2, h3, _, _, _⟩ := answer_frame
        (s.consume.withConn { s.UnderlyingConn with now := t, inbound := rest }) f.op f.Payload
      exact ⟨h.1.symm, h3.trans rfl, hck, Or.inl (by rw [h2]; rfl)⟩
    · rename_i hi
      rw [if_neg hi]
      simp only [Option.some.injEq, Prod.mk.injEq] at h
      exact ⟨h.1.symm, rfl, hck, Or.inr rfl⟩

theorem opCode_idle (s : Socket) (f : Frame) (h : s.fragmented = false) : s.opCode f = f.op := by
  unfold Socket.opCode
  unfold Socket.fragmented at h
  cases hc : s.reader.cur with
  | none => rfl
  | some c => simp [hc] at h; simp [h]

/-- The header read on a decoder that stands between two messages, for a frame
that passes the header check: the frame comes under the cursor. -/
theorem deliver_idle (s : Socket) (t : Int) (f : Frame) (rest : Inbound)
    (hfr : s.fragmented = false) (hck : CheckHeader f false = none) :
    s.deliver t f rest =
      (some (⟨f.op, f.Payload.length⟩, none),
        ({ s with reader := { s.reader with cur := some ⟨f.op, f.Payload, !f.Fin⟩ } } :
          Socket).withConn { s.UnderlyingConn with now := t, inbound := rest }) := by
  unfold Socket.deliver
  simp [hfr, hck, opCode_idle s f hfr]

/-- The header read on a decoder that stands between two messages, for a frame
that fails the header check: the protocol error. -/
theorem deliver_rejected (s : Socket) (t : Int) (f : Frame) (rest : Inbound)
    (hchk : s.reader.SkipHeaderCheck = false) (hck : CheckHeader f s.fragmented ≠ none) :
    (s.deliver t f rest).1 = some (⟨f.op, f.Payload.length⟩, CheckHeader f s.fragmented) := by
  unfold Socket.deliver
  simp [hchk, hck]

theorem NextFrame_kept (s : Socket) : s.Kept s.NextFrame.2 := by
  rw [NextFrame_eq]
  split
  · exact fire_kept s none
  · rename_i t e _
    exact Kept_trans (fire_kept s (some t)) (Kept_of_now _ t)
  · rename_i t f rest _
    exact Kept_trans (fire_kept s (some t)) (deliver_kept _ t f rest)

theorem NextFrame_quiet (s : Socket) (hT : s.timer = none) : s.Quiet s.NextFrame.2 := by
  rw [NextFrame_eq]
  split
  · rw [fire_idle s none hT]; exact Quiet_refl s hT
  · rename_i t e _
    rw [fire_idle s _ hT]
    exact ⟨hT, rfl, rfl⟩
  · rename_i t f rest _
    rw [fire_idle s _ hT]
    obtain ⟨h1, h2, h3, _⟩ := deliver_frame s t f rest
    exact ⟨h1.trans hT, h2, h3⟩

theorem await_frame (now : Int) (dl : Option Int) (i : Inbound) (t : Int) (f : Frame)
    (rest : Inbound) (h : await now dl i = Await.frame t f rest) :
    ∃ a, i.frames = (a, f) :: rest.frames := by
  unfold await at h
  split at h
  · rename_i a g r hfr
    split at h
    · simp at h
    · simp only [Await.frame.injEq] at h
      obtain ⟨_, h2, h3⟩ := h
      subst h2 h3
      exact ⟨a, hfr⟩
  · split at h
    · split at h <;> simp at h
    · split at h <;> simp at h

/-- A header read that returns without an error has taken one frame off the
stream; under the header check that frame passed it. -/
theorem NextFrame_ok (s : Socket) (hdr : Header) (h : s.NextFrame.1 = some (hdr, none)) :
    ∃ a f rest, s.pending.frames = (a, f) :: rest ∧
      s.NextFrame.2.UnderlyingConn.inbound.frames = rest ∧
      hdr = ⟨f.op, f.Payload.length⟩ ∧
      (s.reader.SkipHeaderCheck = false → CheckHeader f s.fragmented = none) ∧
      (s.NextFrame.2.reader.cur = s.consumed ∨
        s.NextFrame.2.reader.cur = some ⟨s.opCode f, f.Payload, !f.Fin⟩) := by
  rw [NextFrame_eq] at h ⊢
  cases ha : s.awaited with
  | never => simp [ha] at h
  | fail t e => simp [ha] at h
  | frame t f rest =>
    simp only [ha] at h ⊢
    obtain ⟨a, hfr⟩ := await_frame _ _ _ _ _ _ ha
    obtain ⟨h1, h2, h3, h4⟩ := deliver_ok _ t f rest hdr h
    refine ⟨a, f, rest.frames, hfr, by rw [h2], h1, ?_, ?_⟩
    · simpa using h3
    · simpa using h4

theorem consume_pending (s : Socket) : s.consume.pending = s.UnderlyingConn.inbound := by
  unfold Socket.pending Socket.consume Socket.consumed
  cases hc : s.reader.cur with
  | none => simp
  | some c => by_cases hm : c.more = true <;> simp [hm]

/-- Reading the decoder to the end of the message: what it keeps, that it
neither arms a timer nor sends a ping, that after a successful read the decoder
stands between two messages with no frame put back, and that it ends within
one round more than there are frames on the stream. -/
theorem drain_spec (keep : Bool) :
    ∀ (n : Nat) (acc : Bytes) (s : Socket),
      s.Kept (s.drain keep n acc).2 ∧
      (s.timer = none → s.Quiet (s.drain keep n acc).2) ∧
      (∀ b, (s.drain keep n acc).1 = Drained.done b none →
        (s.drain keep n acc).2.reader.cur = none ∧
        (s.drain keep n acc).2.UnderlyingConn.inbound.frames.length ≤
          s.UnderlyingConn.inbound.frames.length) ∧
      (s.UnderlyingConn.inbound.frames.length < n → (s.drain keep n acc).1 ≠ Drained.out) := by
  intro n
  induction n with
  | zero =>
    intro acc s
    refine ⟨Kept_refl s, fun h => Quiet_refl s h, ?_, ?_⟩
    · intro b h; simp [Socket.drain] at h
    · intro h; exact absurd h (Nat.not_lt_zero _)
  | succ n ih =>
    intro acc s
    rw [Socket.drain]
    cases hc : s.reader.cur with
    | none =>
      simp only
      exact ⟨Kept_refl s, fun h => Quiet_refl s h, fun b _ => ⟨hc, le_refl _⟩,
        fun _ => by simp⟩
    | some c =>
      simp only
      by_cases hm : c.more = false
      · rw [if_pos hm]
        split
        · exact ⟨Kept_of_cur s none, fun h => ⟨h, rfl, rfl⟩, fun b _ => ⟨rfl, le_refl _⟩,
            fun _ => by simp⟩
        · exact ⟨Kept_of_cur s none, fun h => ⟨h, rfl, rfl⟩, fun b _ => ⟨rfl, le_refl _⟩,
            fun _ => by simp⟩
      · rw [if_neg hm]
        split
        · exact ⟨consume_kept s, fun h => consume_quiet s h, fun b h => by simp at h,
            fun _ => by simp⟩
        · cases hr : s.consume.NextFrame.1 with
          | none =>
            simp only
            exact ⟨Kept_trans (consume_kept s) (NextFrame_kept _),
              fun h => Quiet_trans (consume_quiet s h) (NextFrame_quiet _ h),
              fun b h => by simp at h, fun _ => by simp⟩
          | some r =>
            simp only
            by_cases he : r.2 ≠ none
            · rw [if_pos he]
              refine ⟨Kept_trans (consume_kept s) (NextFrame_kept _),
                fun h => Quiet_trans (consume_quiet s h) (NextFrame_quiet _ h), ?_,
                fun _ => by simp⟩
              intro b h
              simp only [Drained.done.injEq] at h
              exact absurd h.2 he
            · rw [if_neg he]
              have he2 : r.2 = none := by simpa using he
              have hr2 : s.consume.NextFrame.1 = some (r.1, none) := by rw [hr, ← he2]
              obtain ⟨a, f, rest, h1, h2, _, _, _⟩ := NextFrame_ok _ _ hr2
              rw [consume_pending] at h1
              obtain ⟨i1, i2, i3, i4⟩ :=
                ih (if keep = true then acc ++ c.unread else acc) s.consume.NextFrame.2
              refine ⟨Kept_trans (Kept_trans (consume_kept s) (NextFrame_kept _)) i1, ?_, ?_, ?_⟩
              · intro h
                have hq := Quiet_trans (consume_quiet s h) (NextFrame_quiet _ h)
                exact Quiet_trans hq (i2 hq.timer)
              · intro b h
                obtain ⟨j1, j2⟩ := i3 b h
                refine ⟨j1, le_trans j2 ?_⟩
                rw [h2, h1]
                simp
              · intro h
                apply i4
                rw [h2]
                rw [h1] at h
                simpa using h

theorem ReadAll_spec (s : Socket) :
    s.Kept s.ReadAll.2 ∧ (s.timer = none → s.Quiet s.ReadAll.2) ∧
    (∀ b, s.ReadAll.1 = Drained.done b none →
      s.ReadAll.2.reader.cur = none ∧
      s.ReadAll.2.UnderlyingConn.inbound.frames.length ≤
        s.UnderlyingConn.inbound.frames.length) ∧
    s.ReadAll.1 ≠ Drained.out := by
  obtain ⟨h1, h2, h3, h4⟩ := drain_spec true (s.UnderlyingConn.inbound.frames.length + 1) [] s
  exact ⟨h1, h2, h3, h4 (Nat.lt_succ_self _)⟩

theorem Discard_spec (s : Socket) :
    s.Kept s.Discard.2 ∧ (s.timer = none → s.Quiet s.Discard.2) ∧
    (∀ b, s.Discard.1 = Drained.done b none →
      s.Discard.2.reader.cur = none ∧
      s.Discard.2.UnderlyingConn.inbound.frames.length ≤
        s.UnderlyingConn.inbound.frames.length) ∧
    s.Discard.1 ≠ Drained.out := by
  obtain ⟨h1, h2, h3, h4⟩ := drain_spec false (s.UnderlyingConn.inbound.frames.length + 1) [] s
  exact ⟨h1, h2, h3, h4 (Nat.lt_succ_self _)⟩

/-- Reading a message whose only frame is under the cursor. -/
theorem ReadAll_final (s : Socket) (c : Cursor) (hc : s.reader.cur = some c)
    (hm : c.more = false) :
    s.ReadAll =
      (if s.reader.CheckUTF8 = true ∧ c.OpCode = OpText ∧ validUTF8 c.unread = false then
          Drained.done [] (some Err.ErrInvalidUTF8)
        else Drained.done c.unread none,
        { s with reader := { s.reader with cur := none } }) := by
  unfold Socket.ReadAll
  rw [Socket.drain]
  simp only [hc, hm, if_true, List.nil_append, true_and]
  split <;> rfl

/-- Discarding a message whose last frame is under the cursor. -/
theorem Discard_final (s : Socket) (c : Cursor) (hc : s.reader.cur = some c)
    (hm : c.more = false) :
    s.Discard = (Drained.done [] none, { s with reader := { s.reader with cur := none } }) := by
  unfold Socket.Discard
  rw [Socket.drain]
  simp [hc, hm]

theorem controlHandler_spec (s : Socket) (hdr : Header) :
    s.Kept (s.controlHandler hdr).2 ∧ (s.timer = none → s.Quiet (s.controlHandler hdr).2) ∧
    (s.controlHandler hdr).2.pending.frames.length ≤ s.UnderlyingConn.inbound.frames.length := by
  unfold Socket.controlHandler
  cases hc : s.reader.cur with
  | none =>
    simp only
    refine ⟨Kept_refl s, fun h => Quiet_refl s h, ?_⟩
    simp [Socket.pending, hc]
  | some c =>
    simp only
    obtain ⟨h1, h2, h3, h4, h5, h6⟩ := answer_frame s hdr.OpCode c.unread
    refine ⟨Kept_trans (answer_kept s _ _) (consume_kept _), ?_, ?_⟩
    · intro h
      exact ⟨h1.trans h, h5, h6⟩
    · rw [consume_pending, h3]

/-! ## The stages of a pass -/

theorem dispatch_state (s : Socket) (hdr : Header) (err : Option Err) :
    (s.dispatch hdr err).2 = s ∨ (s.dispatch hdr err).2 = (s.controlHandler hdr).2 ∨
    (s.dispatch hdr err).2 = s.Discard.2 ∨ (s.dispatch hdr err).2 = s.ReadAll.2 := by
  unfold Socket.dispatch
  split
  · split <;> exact Or.inl rfl
  · split
    · exact Or.inl rfl
    · split
      · split <;> exact Or.inr (Or.inl rfl)
      · split
        · exact Or.inr (Or.inr (Or.inl rfl))
        · exact Or.inr (Or.inr (Or.inr rfl))

theorem dispatch_kept (s : Socket) (hdr : Header) (err : Option Err) :
    s.Kept (s.dispatch hdr err).2 := by
  rcases dispatch_state s hdr err with h | h | h | h <;> rw [h]
  · exact Kept_refl s
  · exact (controlHandler_spec s hdr).1
  · exact (Discard_spec s).1
  · exact (ReadAll_spec s).1

theorem dispatch_quiet (s : Socket) (hdr : Header) (err : Option Err) (hT : s.timer = none) :
    s.Quiet (s.dispatch hdr err).2 := by
  rcases dispatch_state s hdr err with h | h | h | h <;> rw [h]
  · exact Quiet_refl s hT
  · exact (controlHandler_spec s hdr).2.1 hT
  · exact (Discard_spec s).2.1 hT
  · exact (ReadAll_spec s).2.1 hT

/-- A pass that continues has consumed what was under the cursor and put no
frame back on the stream. -/
theorem dispatch_next (s : Socket) (hdr : Header) (err : Option Err)
    (h : (s.dispatch hdr err).1 = Step.next) :
    (s.dispatch hdr err).2.pending.frames.length ≤ s.UnderlyingConn.inbound.frames.length := by
  unfold Socket.dispatch at h ⊢
  split at h
  · split at h <;> simp at h
  · rename_i h1
    rw [if_neg h1]
    split at h
    · simp at h
    · rename_i h2
      rw [if_neg h2]
      split at h
      · rename_i h3
        rw [if_pos h3]
        split at h
        · simp at h
        · rename_i h4
          rw [if_neg h4]
          exact (controlHandler_spec s hdr).2.2
      · rename_i h3
        rw [if_neg h3]
        split at h
        · rename_i h4
          rw [if_pos h4]
          simp only at h ⊢
          cases hd : s.Discard.1 with
          | never => simp [hd] at h
          | out => simp [hd] at h
          | done b e =>
            cases e with
            | some e => simp [hd] at h
            | none =>
              obtain ⟨j1, j2⟩ := (Discard_spec s).2.2.1 b hd
              simp only [Socket.pending, j1]
              exact j2
        · simp only at h
          cases hd : s.ReadAll.1 with
          | never => simp [hd] at h
          | out => simp [hd] at h
          | done b e => cases e <;> simp [hd] at h

theorem dispatch_done (s : Socket) (hdr : Header) (err : Option Err) :
    (s.dispatch hdr err).1 ≠ Step.done Result.exhausted := by
  unfold Socket.dispatch
  split
  · split <;> simp
  · split
    · simp
    · split
      · split <;> simp
      · split
        · simp only
          cases hd : s.Discard.1 with
          | never => simp
          | out => exact absurd hd (Discard_spec s).2.2.2
          | done b e => cases e <;> simp
        · simp only
          cases hd : s.ReadAll.1 with
          | never => simp
          | out => exact absurd hd (ReadAll_spec s).2.2.2
          | done b e => cases e <;> simp

/-- What a pass hands to the caller as a message: the bytes read from the
decoder, under the opcode of the header, which is neither close nor another
control opcode and has the text or the binary bit set. -/
theorem dispatch_result (s : Socket) (hdr : Header) (err : Option Err) (b : Option Bytes)
    (k : Nat) (h : (s.dispatch hdr err).1 = Step.done (Result.ret b k none)) :
    err = none ∧ k = hdr.OpCode ∧ IsControl hdr.OpCode = false ∧
    ¬ (hdr.OpCode &&& OpBinary = 0 ∧ hdr.OpCode &&& OpText = 0) ∧
    ∃ p, b = some p ∧ s.ReadAll.1 = Drained.done p none := by
  unfold Socket.dispatch at h
  split at h
  · rename_i he
    split at h
    · simp at h
    · simp only [Step.done.injEq, Result.ret.injEq] at h
      exact absurd h.2.2 he
  · rename_i he
    have he2 : err = none := by simpa using he
    split at h
    · simp at h
    · split at h
      · split at h
        · rename_i hc
          simp only [Step.done.injEq, Result.ret.injEq] at h
          exact absurd h.2.2 hc
        · simp at h
      · rename_i hctl
        split at h
        · simp only at h
          cases hd : s.Discard.1 with
          | never => simp [hd] at h
          | out => simp [hd] at h
          | done b e => cases e <;> simp [hd] at h
        · rename_i hmask
          simp only at h
          cases hd : s.ReadAll.1 with
          | never => simp [hd] at h
          | out => simp [hd] at h
          | done p e =>
            cases e with
            | some e => simp [hd] at h
            | none =>
              simp only [hd, Step.done.injEq, Result.ret.injEq] at h
              exact ⟨he2, h.2.1.symm, by simpa using hctl, hmask, p, h.1.symm, rfl⟩

@[simp] theorem record_reader (s : Socket) (a : Action) : (s.record a).reader = s.reader := rfl

@[simp] theorem record_conn (s : Socket) (a : Action) :
    (s.record a).UnderlyingConn = s.UnderlyingConn := rfl

@[simp] theorem record_timer (s : Socket) (a : Action) : (s.record a).timer = s.timer := rfl

@[simp] theorem record_trace (s : Socket) (a : Action) : (s.record a).trace = s.trace ++ [a] :=
  rfl

theorem dispatch_err (s : Socket) (hdr : Header) (err : Option Err) (h : err ≠ none) :
    ∃ e, (s.dispatch hdr err).1 = Step.done (Result.ret none 0 (some e)) ∧
      (s.dispatch hdr err).2 = s := by
  obtain ⟨e, he⟩ := Option.ne_none_iff_exists'.mp h
  unfold Socket.dispatch
  rw [if_pos h]
  split
  · exact ⟨_, rfl, rfl⟩
  · exact ⟨e, by rw [he], rfl⟩

/-! ## The loop -/

/-- A pass that continues has taken at least one frame off the stream. -/
theorem iter_next (s : Socket) (timeout dT : Int) (dt : Option Timer)
    (h : (s.ReadDataIter timeout dT dt).1 = Step.next) :
    (s.ReadDataIter timeout dT dt).2.2.pending.frames.length < s.pending.frames.length := by
  unfold Socket.ReadDataIter at h ⊢
  cases hr : (s.arm timeout dT dt).2.NextFrame.1 with
  | none => simp [hr] at h
  | some r =>
    simp only [hr] at h ⊢
    have he : r.2 = none := by
      by_contra hne
      obtain ⟨e, h1, _⟩ := dispatch_err
        (((s.arm timeout dT dt).2.NextFrame.2.record Action.NextFrame).disarm
          (s.arm timeout dT dt).1).2 r.1 r.2 hne
      rw [h1] at h
      simp at h
    have hr2 : (s.arm timeout dT dt).2.NextFrame.1 = some (r.1, none) := by rw [hr, ← he]
    obtain ⟨a, f, rest, h1, h2, _, _, _⟩ := NextFrame_ok _ _ hr2
    rw [arm_pending] at h1
    have h3 := dispatch_next _ _ _ h
    rw [disarm_conn, record_conn, h2] at h3
    rw [h1]
    simpa using Nat.lt_succ_of_le h3

theorem iter_done (s : Socket) (timeout dT : Int) (dt : Option Timer) :
    (s.ReadDataIter timeout dT dt).1 ≠ Step.done Result.exhausted := by
  unfold Socket.ReadDataIter
  intro h
  cases hr : (s.arm timeout dT dt).2.NextFrame.1 with
  | none =>
    simp only [hr] at h
    simp at h
  | some r =>
    simp only [hr] at h
    exact dispatch_done _ _ _ h

theorem Loop_returns (timeout dT : Int) :
    ∀ (n : Nat) (dt : Option Timer) (s : Socket), s.pending.frames.length < n →
      (Socket.ReadDataLoop timeout dT n dt s).1 ≠ Result.exhausted := by
  intro n
  induction n with
  | zero => intro dt s h; exact absurd h (Nat.not_lt_zero _)
  | succ n ih =>
    intro dt s hlen
    unfold Socket.ReadDataLoop
    cases hi : (s.ReadDataIter timeout dT dt).1 with
    | done r =>
      simp only
      intro hr
      exact iter_done s timeout dT dt (by rw [hi, hr])
    | next =>
      simp only
      have h1 := iter_next s timeout dT dt hi
      apply ih
      omega

/-- `ReadData` never runs out of passes: every call returns a Go result or
blocks for good. -/
theorem ReadData_returns (s : Socket) (timeout : Int) :
    (s.ReadData timeout).1 ≠ Result.exhausted :=
  Loop_returns timeout s.pingPeriod _ none s (Nat.lt_succ_self _)

theorem noAfterFunc_of_writePath (w : List Action) (h : ∀ x ∈ w, x.isWritePath = true) :
    noAfterFunc w := by
  intro d hd
  have := h _ hd
  simp [Action.isWritePath] at this

/-- The Socket after the header read of a pass has returned and the timer has
been stopped: no timer is armed. -/
theorem stopped_timer (s : Socket) (timeout dT : Int) (hT : s.timer = none) :
    (((s.arm timeout dT none).2.NextFrame.2.record Action.NextFrame).disarm
      (s.arm timeout dT none).1).2.timer = none := by
  rw [disarm_timer, record_timer]
  by_cases hd : dT > 0
  · simp [hd]
  · have hA : (s.arm timeout dT none).2.timer = none := by simp [hd, hT]
    simp [hd, (NextFrame_quiet _ hA).timer]

theorem iter_timer (s : Socket) (timeout dT : Int) (dt : Option Timer)
    (hT : s.timer = none) (hdt : dt = none)
    (h : (s.ReadDataIter timeout dT dt).1 ≠ Step.done Result.blocked) :
    (s.ReadDataIter timeout dT dt).2.2.timer = none ∧
    (s.ReadDataIter timeout dT dt).2.1 = none := by
  subst hdt
  unfold Socket.ReadDataIter at h ⊢
  cases hr : (s.arm timeout dT none).2.NextFrame.1 with
  | none =>
    simp only [hr] at h
    simp at h
  | some r =>
    simp only [hr]
    exact ⟨(dispatch_quiet _ _ _ (stopped_timer s timeout dT hT)).timer, disarm_fst _ _⟩

theorem Loop_timer (timeout dT : Int) :
    ∀ (n : Nat) (dt : Option Timer) (s : Socket), s.timer = none → dt = none →
      (Socket.ReadDataLoop timeout dT n dt s).1 ≠ Result.blocked →
      (Socket.ReadDataLoop timeout dT n dt s).2.timer = none := by
  intro n
  induction n with
  | zero => intro dt s hT _ _; simpa [Socket.ReadDataLoop] using hT
  | succ n ih =>
    intro dt s hT hdt
    unfold Socket.ReadDataLoop
    cases hi : (s.ReadDataIter timeout dT dt).1 with
    | done r =>
      simp only
      intro hr
      exact (iter_timer s timeout dT dt hT hdt (by rw [hi]; simpa using hr)).1
    | next =>
      simp only
      have h := iter_timer s timeout dT dt hT hdt (by rw [hi]; simp)
      exact ih _ _ h.1 h.2

/-- The actions of one pass, in the order of the code. -/
theorem iter_trace (s : Socket) (timeout dT : Int) (dt : Option Timer) (hdt : dt = none) :
    ∃ w, (s.ReadDataIter timeout dT dt).2.2.trace = s.trace ++ w ∧
      passTrace timeout dT ((s.arm timeout dT dt).2.NextFrame.1).isSome w := by
  subst hdt
  obtain ⟨mid, hmid, hmidp⟩ := (NextFrame_kept (s.arm timeout dT none).2).trace
  unfold Socket.ReadDataIter
  cases hr : (s.arm timeout dT none).2.NextFrame.1 with
  | none =>
    simp only [hr, Option.isSome_none]
    refine ⟨_, ?_, s.UnderlyingConn.now, mid, [], hmidp, by simp, rfl⟩
    rw [hmid, arm_trace]
    simp [List.append_assoc]
  | some r =>
    simp only [hr, Option.isSome_some]
    obtain ⟨post, hpost, hpostp⟩ := (dispatch_kept
      (((s.arm timeout dT none).2.NextFrame.2.record Action.NextFrame).disarm
        (s.arm timeout dT none).1).2 r.1 r.2).trace
    refine ⟨_, ?_, s.UnderlyingConn.now, mid, post, hmidp, hpostp, rfl⟩
    rw [hpost, disarm_trace, record_trace, hmid, arm_trace, arm_fst]
    by_cases hd : dT > 0
    · simp [hd, List.append_assoc]
    · simp [hd, List.append_assoc]


theorem passTrace_quiet (timeout dT : Int) (b : Bool) (w : List Action) (hd : dT ≤ 0)
    (h : passTrace timeout dT b w) : noAfterFunc w := by
  obtain ⟨now, mid, post, h1, h2, rfl⟩ := h
  have hd2 : ¬ dT > 0 := not_lt.mpr hd
  intro d hm
  simp only [hd2, if_false, List.append_nil, List.mem_append] at hm
  rcases hm with (hm | hm) | hm
  · by_cases ht : timeout > 0 <;> simp [ht] at hm
  · exact noAfterFunc_of_writePath mid h1 d hm
  · by_cases hb : b = true
    · simp only [hb, if_true, List.mem_append, List.mem_singleton] at hm
      rcases hm with hm | hm
      · simp at hm
      · exact noAfterFunc_of_writePath post h2 d hm
    · simp [hb] at hm

theorem iter_quiet (s : Socket) (timeout dT : Int) (dt : Option Timer)
    (hT : s.timer = none) (hdt : dt = none) (hd : dT ≤ 0) :
    (s.ReadDataIter timeout dT dt).2.2.timer = none ∧
    (s.ReadDataIter timeout dT dt).2.1 = none ∧
    pings (s.ReadDataIter timeout dT dt).2.2.UnderlyingConn.wire = pings s.UnderlyingConn.wire ∧
    ∃ w, (s.ReadDataIter timeout dT dt).2.2.trace = s.trace ++ w ∧ noAfterFunc w := by
  obtain ⟨w, hw, hp⟩ := iter_trace s timeout dT dt hdt
  subst hdt
  have hd2 : ¬ dT > 0 := not_lt.mpr hd
  have hA : (s.arm timeout dT none).2.timer = none := by simp [hd2, hT]
  have hq := NextFrame_quiet _ hA
  refine ⟨?_, ?_, ?_, w, hw, passTrace_quiet _ _ _ _ hd hp⟩
  · unfold Socket.ReadDataIter
    cases hr : (s.arm timeout dT none).2.NextFrame.1 with
    | none => simpa [hr] using hq.timer
    | some r =>
      simp only [hr]
      exact (dispatch_quiet _ _ _ (stopped_timer s timeout dT hT)).timer
  · unfold Socket.ReadDataIter
    cases hr : (s.arm timeout dT none).2.NextFrame.1 with
    | none => simp [hr, hd2]
    | some r => simp [hr]
  · unfold Socket.ReadDataIter
    cases hr : (s.arm timeout dT none).2.NextFrame.1 with
    | none => simpa [hr] using hq.pings
    | some r =>
      simp only [hr]
      rw [(dispatch_quiet _ _ _ (stopped_timer s timeout dT hT)).pings]
      simpa using hq.pings

theorem Loop_quiet (timeout dT : Int) (hd : dT ≤ 0) :
    ∀ (n : Nat) (dt : Option Timer) (s : Socket), s.timer = none → dt = none →
      pings (Socket.ReadDataLoop timeout dT n dt s).2.UnderlyingConn.wire =
        pings s.UnderlyingConn.wire ∧
      ∃ w, (Socket.ReadDataLoop timeout dT n dt s).2.trace = s.trace ++ w ∧ noAfterFunc w := by
  intro n
  induction n with
  | zero =>
    intro dt s _ _
    exact ⟨rfl, [], by simp [Socket.ReadDataLoop], by intro d hm; simp at hm⟩
  | succ n ih =>
    intro dt s hT hdt
    obtain ⟨h1, h2, h3, w, h4, h5⟩ := iter_quiet s timeout dT dt hT hdt hd
    unfold Socket.ReadDataLoop
    cases hi : (s.ReadDataIter timeout dT dt).1 with
    | done r => exact ⟨h3, w, h4, h5⟩
    | next =>
      simp only
      obtain ⟨g1, w2, g2, g3⟩ := ih _ _ h1 h2
      refine ⟨by rw [g1, h3], w ++ w2, by rw [g2, h4, List.append_assoc], ?_⟩
      intro d hm
      rcases List.mem_append.mp hm with hm | hm
      · exact h5 d hm
      · exact g3 d hm

/-- The actions of a `ReadData` call are those of its passes, one after the
other. -/
theorem Loop_trace (timeout dT : Int) :
    ∀ (n : Nat) (dt : Option Timer) (s : Socket), dt = none →
      ∃ ws : List (List Action),
        (Socket.ReadDataLoop timeout dT n dt s).2.trace = s.trace ++ ws.flatten ∧
        ∀ w ∈ ws, ∃ b, passTrace timeout dT b w := by
  intro n
  induction n with
  | zero =>
    intro dt s _
    exact ⟨[], by simp [Socket.ReadDataLoop], by simp⟩
  | succ n ih =>
    intro dt s hdt
    obtain ⟨w, hw, hp⟩ := iter_trace s timeout dT dt hdt
    unfold Socket.ReadDataLoop
    cases hi : (s.ReadDataIter timeout dT dt).1 with
    | done r =>
      refine ⟨[w], by simpa using hw, ?_⟩
      intro x hx
      simp only [List.mem_singleton] at hx
      subst hx
      exact ⟨_, hp⟩
    | next =>
      simp only
      have hdt2 : (s.ReadDataIter timeout dT dt).2.1 = none := by
        subst hdt
        unfold Socket.ReadDataIter
        cases hr : (s.arm timeout dT none).2.NextFrame.1 with
        | none => simp [hr, Socket.ReadDataIter] at hi
        | some r => simp [hr]
      obtain ⟨ws, g1, g2⟩ := ih _ (s.ReadDataIter timeout dT dt).2.2 hdt2
      refine ⟨w :: ws, by rw [g1, hw]; simp [List.append_assoc], ?_⟩
      intro x hx
      rcases List.mem_cons.mp hx with rfl | hx
      · exact ⟨_, hp⟩
      · exact g2 x hx
/-! ## Frames that pass the header check -/

theorem iter_eq (s : Socket) (timeout dT : Int) (dt : Option Timer) (r : Header × Option Err)
    (hr : (s.arm timeout dT dt).2.NextFrame.1 = some r) :
    s.ReadDataIter timeout dT dt =
      (((s.stopped timeout dT dt).dispatch r.1 r.2).1, none,
        ((s.stopped timeout dT dt).dispatch r.1 r.2).2) := by
  unfold Socket.ReadDataIter Socket.stopped
  simp [hr]

theorem CheckHeader_data (f : Frame) (b : Bool) (h1 : IsReserved f.op = false)
    (h2 : IsControl f.op = false) (h3 : b = true ↔ f.op = OpContinuation) :
    CheckHeader f b = none := by
  unfold CheckHeader
  cases b with
  | true =>
    have h4 : f.op = OpContinuation := h3.mp rfl
    rw [h4] at h1 h2
    simp [h1, h2, h4]
  | false =>
    have h4 : f.op ≠ OpContinuation := fun h => by simpa using h3.mpr h
    simp [h1, h2, h4]

theorem CheckHeader_control (f : Frame) (b : Bool) (h1 : IsReserved f.op = false)
    (h2 : IsControl f.op = true) (h3 : f.Payload.length ≤ MaxControlFramePayloadSize)
    (h4 : f.Fin = true) : CheckHeader f b = none := by
  have h5 : f.op ≠ OpContinuation := by
    intro h
    rw [h] at h2
    exact absurd h2 (by decide)
  unfold CheckHeader
  simp [h1, h2, h4, h5, Nat.not_lt.mpr h3]

theorem frame_op (op : Nat) (p : Bytes) (h : op < More) : (⟨op, p⟩ : Frame).op = op :=
  Nat.mod_eq_of_lt h

theorem frame_Fin (op : Nat) (p : Bytes) (h : op < More) : (⟨op, p⟩ : Frame).Fin = true := by
  simp [Frame.Fin, h]

theorem CheckHeader_text (p : Bytes) : CheckHeader ⟨OpText, p⟩ false = none := by
  have h := frame_op OpText p (by decide)
  exact CheckHeader_data _ false (by rw [h]; decide) (by rw [h]; decide)
    (by rw [h]; decide)

theorem CheckHeader_ctl (op : Nat) (p : Bytes) (b : Bool) (hop : op = OpPing ∨ op = OpClose)
    (hp : p.length ≤ MaxControlFramePayloadSize) : CheckHeader ⟨op, p⟩ b = none := by
  have hlt : op < More := by rcases hop with h | h <;> rw [h] <;> decide
  have h := frame_op op p hlt
  exact CheckHeader_control _ b (by rw [h]; rcases hop with h | h <;> rw [h] <;> decide)
    (by rw [h]; rcases hop with h | h <;> rw [h] <;> decide) hp (frame_Fin op p hlt)

theorem isMessage_frame (f : Frame) (hf : f.isMessage) :
    f.op = f.OpCode ∧ f.Fin = true ∧ CheckHeader f false = none ∧ f.OpCode ≠ OpClose ∧
    IsControl f.OpCode = false ∧ ¬ (f.OpCode &&& OpBinary = 0 ∧ f.OpCode &&& OpText = 0) ∧
    ¬ (f.OpCode = OpText ∧ validUTF8 f.Payload = false) := by
  have hop : f.OpCode = OpBinary ∨ f.OpCode = OpText := by
    rcases hf with hb | ⟨ht, _⟩
    · exact Or.inl hb
    · exact Or.inr ht
  have h1 : f.op = f.OpCode := by
    unfold Frame.op
    rcases hop with h | h <;> rw [h] <;> decide
  have h2 : f.Fin = true := by
    unfold Frame.Fin
    rcases hop with h | h <;> rw [h] <;> decide
  have h3 : IsReserved f.op = false := by
    rw [h1]
    rcases hop with h | h <;> rw [h] <;> decide
  have h4 : IsControl f.OpCode = false := by
    rcases hop with h | h <;> rw [h] <;> decide
  have h5 : f.OpCode ≠ OpContinuation := by
    rcases hop with h | h <;> rw [h] <;> decide
  refine ⟨h1, h2, CheckHeader_data f false h3 (by rw [h1]; exact h4) ?_, ?_, h4, ?_, ?_⟩
  · rw [h1]
    constructor
    · intro h; simp at h
    · intro h; exact absurd h h5
  · rcases hop with h | h <;> rw [h] <;> decide
  · rcases hop with h | h <;> rw [h] <;> decide
  · rcases hf with hb | ⟨_, hv⟩
    · rw [hb]; intro h; exact absurd h.1 (by decide)
    · simp [hv]

/-- The Socket at line 97 when the header read found a frame that passes the
header check while the decoder stood between two messages. -/
theorem stopped_idle (s : Socket) (timeout dT : Int) (dt : Option Timer) (t : Int) (f : Frame)
    (rest : Inbound)
    (haw : await s.UnderlyingConn.now (s.deadline timeout) s.pending = Await.frame t f rest)
    (hfr : s.fragmented = false) (hck : CheckHeader f false = none) :
    (s.arm timeout dT dt).2.NextFrame.1 = some (⟨f.op, f.Payload.length⟩, none) ∧
    (s.stopped timeout dT dt).reader =
      { s.reader with cur := some ⟨f.op, f.Payload, !f.Fin⟩ } ∧
    (s.stopped timeout dT dt).UnderlyingConn =
      { ((s.arm timeout dT dt).2.fire (some t)).UnderlyingConn with now := t, inbound := rest } := by
  have h1 : (s.arm timeout dT dt).2.NextFrame =
      ((s.arm timeout dT dt).2.fire (some t)).deliver t f rest := by
    rw [NextFrame_eq, arm_awaited, haw]
  have h2 := deliver_idle ((s.arm timeout dT dt).2.fire (some t)) t f rest (by simpa using hfr)
    hck
  unfold Socket.stopped
  rw [h1, h2]
  refine ⟨rfl, ?_, ?_⟩
  · simp [Socket.withConn]
  · simp [Socket.withConn]

/-- A complete text or binary message under the cursor is handed to the
caller. -/
theorem dispatch_message (s : Socket) (hdr : Header) (f : Frame)
    (hcur : s.reader.cur = some ⟨f.op, f.Payload, !f.Fin⟩) (hop : hdr.OpCode = f.op)
    (hf : f.isMessage) :
    s.dispatch hdr none =
      (Step.done (Result.ret (some f.Payload) f.OpCode none),
        { s with reader := { s.reader with cur := none } }) := by
  obtain ⟨h1, h2, _, h4, h5, h6, h7⟩ := isMessage_frame f hf
  rw [h1] at hop hcur
  have hr := ReadAll_final s _ hcur (by simp [h2])
  simp only at hr
  unfold Socket.dispatch
  rw [hop]
  simp only [ne_eq, not_true_eq_false, if_false, h4, h5, h6, Bool.false_eq_true, hr]
  simp [h7]

theorem await_first (now : Int) (dl : Option Int) (a : Int) (f : Frame)
    (rest : List (Int × Frame)) (e : Option (Int × Err))
    (hexp : expired dl (max now a) = false) :
    await now dl ⟨(a, f) :: rest, e⟩ = Await.frame (max now a) f ⟨rest, e⟩ := by
  simp [await, hexp]

theorem await_late (now : Int) (dl : Option Int) (a : Int) (f : Frame)
    (rest : List (Int × Frame)) (e : Option (Int × Err))
    (hexp : expired dl (max now a) = true) :
    await now dl ⟨(a, f) :: rest, e⟩ =
      Await.fail (max now (dl.getD now)) Err.ErrDeadlineExceeded := by
  simp [await, hexp]

/-- The pass that finds a complete text or binary message next on the stream,
in time. -/
theorem iter_message (s : Socket) (timeout dT : Int) (dt : Option Timer) (a : Int) (f : Frame)
    (rest : List (Int × Frame)) (e : Option (Int × Err)) (hfr : s.fragmented = false)
    (hexp : expired (s.deadline timeout) (max s.UnderlyingConn.now a) = false)
    (hin : s.pending = ⟨(a, f) :: rest, e⟩) (hf : f.isMessage) :
    (s.ReadDataIter timeout dT dt).1 =
      Step.done (Result.ret (some f.Payload) f.OpCode none) ∧
    (s.ReadDataIter timeout dT dt).2.2.reader = { s.reader with cur := none } ∧
    (s.ReadDataIter timeout dT dt).2.2.UnderlyingConn =
      { ((s.arm timeout dT dt).2.fire (some (max s.UnderlyingConn.now a))).UnderlyingConn with
        now := max s.UnderlyingConn.now a, inbound := ⟨rest, e⟩ } := by
  have haw := await_first s.UnderlyingConn.now (s.deadline timeout) a f rest e hexp
  rw [← hin] at haw
  obtain ⟨g1, g2, g3⟩ := stopped_idle s timeout dT dt _ f ⟨rest, e⟩ haw hfr
    (isMessage_frame f hf).2.2.1
  rw [iter_eq s timeout dT dt _ g1]
  rw [dispatch_message _ _ f (by rw [g2]) rfl hf]
  exact ⟨rfl, by rw [g2], g3⟩

theorem Loop_done (timeout dT : Int) (n : Nat) (dt : Option Timer) (s : Socket) (r : Result)
    (h : (s.ReadDataIter timeout dT dt).1 = Step.done r) :
    Socket.ReadDataLoop timeout dT (n + 1) dt s = (r, (s.ReadDataIter timeout dT dt).2.2) := by
  conv_lhs => unfold Socket.ReadDataLoop
  simp only [h]

theorem Loop_next (timeout dT : Int) (n : Nat) (dt : Option Timer) (s : Socket)
    (h : (s.ReadDataIter timeout dT dt).1 = Step.next) :
    Socket.ReadDataLoop timeout dT (n + 1) dt s =
      Socket.ReadDataLoop timeout dT n (s.ReadDataIter timeout dT dt).2.1
        (s.ReadDataIter timeout dT dt).2.2 := by
  conv_lhs => unfold Socket.ReadDataLoop
  simp only [h]

theorem pongs_fire (s : Socket) (u : Option Int) :
    pongs (s.fire u).UnderlyingConn.wire = pongs s.UnderlyingConn.wire := by
  rcases fire_wire s u with h | h
  · rw [h]
  · rw [h, pongs_append_ping]

theorem Loop_message (s : Socket) (timeout dT : Int) (dt : Option Timer) (n : Nat) (a : Int)
    (f : Frame) (rest : List (Int × Frame)) (e : Option (Int × Err))
    (hfr : s.fragmented = false)
    (hexp : expired (s.deadline timeout) (max s.UnderlyingConn.now a) = false)
    (hin : s.pending = ⟨(a, f) :: rest, e⟩) (hf : f.isMessage) :
    (Socket.ReadDataLoop timeout dT (n + 1) dt s).1 =
      Result.ret (some f.Payload) f.OpCode none ∧
    (Socket.ReadDataLoop timeout dT (n + 1) dt s).2.reader = { s.reader with cur := none } ∧
    (Socket.ReadDataLoop timeout dT (n + 1) dt s).2.UnderlyingConn.readDeadline =
      s.deadline timeout ∧
    (Socket.ReadDataLoop timeout dT (n + 1) dt s).2.UnderlyingConn.inbound = ⟨rest, e⟩ ∧
    (Socket.ReadDataLoop timeout dT (n + 1) dt s).2.UnderlyingConn.resync =
      s.UnderlyingConn.resync ∧
    (Socket.ReadDataLoop timeout dT (n + 1) dt s).2.UnderlyingConn.now =
      max s.UnderlyingConn.now a ∧
    pongs (Socket.ReadDataLoop timeout dT (n + 1) dt s).2.UnderlyingConn.wire =
      pongs s.UnderlyingConn.wire := by
  obtain ⟨h1, h2, h3⟩ := iter_message s timeout dT dt a f rest e hfr hexp hin hf
  rw [Loop_done timeout dT n dt s _ h1]
  refine ⟨rfl, h2, ?_, ?_, ?_, ?_, ?_⟩
  · rw [h3]; simp [Socket.deadline]
  · rw [h3]
  · rw [h3]; simp
  · rw [h3]
  · rw [h3]
    simp only
    rw [pongs_fire]
    simp

theorem ReadData_message (s : Socket) (timeout : Int) (a : Int) (f : Frame)
    (rest : List (Int × Frame)) (e : Option (Int × Err)) (hfr : s.fragmented = false)
    (hexp : expired (s.deadline timeout) (max s.UnderlyingConn.now a) = false)
    (hin : s.pending = ⟨(a, f) :: rest, e⟩) (hf : f.isMessage) :
    (s.ReadData timeout).1 = Result.ret (some f.Payload) f.OpCode none ∧
    (s.ReadData timeout).2.reader = { s.reader with cur := none } ∧
    (s.ReadData timeout).2.UnderlyingConn.readDeadline = s.deadline timeout ∧
    (s.ReadData timeout).2.UnderlyingConn.inbound = ⟨rest, e⟩ ∧
    (s.ReadData timeout).2.UnderlyingConn.resync = s.UnderlyingConn.resync ∧
    (s.ReadData timeout).2.UnderlyingConn.now = max s.UnderlyingConn.now a := by
  have h := Loop_message s timeout s.pingPeriod none (rest.length + 1) a f rest e hfr hexp hin
    hf
  unfold Socket.ReadData
  simp only [hin, List.length_cons]
  exact ⟨h.1, h.2.1, h.2.2.1, h.2.2.2.1, h.2.2.2.2.1, h.2.2.2.2.2.1⟩

/-- The Socket at line 97 when the header read failed. -/
theorem stopped_fail (s : Socket) (timeout dT : Int) (dt : Option Timer) (t : Int) (e : Err)
    (haw : await s.UnderlyingConn.now (s.deadline timeout) s.pending = Await.fail t e) :
    (s.arm timeout dT dt).2.NextFrame.1 =
      some (⟨0, 0⟩,
        some (if e = Err.EOF ∧ s.fragmented = true then Err.ErrUnexpectedEOF else e)) ∧
    (s.stopped timeout dT dt).reader = s.reader ∧
    (s.stopped timeout dT dt).UnderlyingConn =
      { ((s.arm timeout dT dt).2.fire (some t)).UnderlyingConn with now := t } := by
  have h1 : (s.arm timeout dT dt).2.NextFrame =
      (some (⟨0, 0⟩,
          some (if e = Err.EOF ∧ s.fragmented = true then Err.ErrUnexpectedEOF else e)),
        ((s.arm timeout dT dt).2.fire (some t)).withConn
          { ((s.arm timeout dT dt).2.fire (some t)).UnderlyingConn with now := t }) := by
    rw [NextFrame_eq, arm_awaited, haw]
    simp
  unfold Socket.stopped
  rw [h1]
  refine ⟨rfl, ?_, ?_⟩
  · simp [Socket.withConn]
  · simp [Socket.withConn]

/-- A header read that fails makes the pass return an error and leaves the
decoder and the stream as they were. -/
theorem iter_fail (s : Socket) (timeout dT : Int) (dt : Option Timer) (t : Int) (e : Err)
    (haw : await s.UnderlyingConn.now (s.deadline timeout) s.pending = Await.fail t e) :
    (s.ReadDataIter timeout dT dt).1 =
      Step.done (Result.ret none 0
        (some (if e = Err.EOF then Err.ErrUnexpectedEOF else e))) ∧
    (s.ReadDataIter timeout dT dt).2.2.reader = s.reader ∧
    (s.ReadDataIter timeout dT dt).2.2.UnderlyingConn =
      { ((s.arm timeout dT dt).2.fire (some t)).UnderlyingConn with now := t } := by
  obtain ⟨g1, g2, g3⟩ := stopped_fail s timeout dT dt t e haw
  rw [iter_eq s timeout dT dt _ g1]
  simp only
  unfold Socket.dispatch
  by_cases he : e = Err.EOF
  · by_cases hf : s.fragmented = true
    · simp [he, hf, g2, g3]
    · simp [he, hf, g2, g3]
  · simp [he, g2, g3]

theorem ReadData_deadline (s : Socket) (timeout : Int) (a : Int) (f : Frame)
    (rest : List (Int × Frame)) (e : Option (Int × Err))
    (hexp : expired (s.deadline timeout) (max s.UnderlyingConn.now a) = true)
    (hin : s.pending = ⟨(a, f) :: rest, e⟩) :
    (s.ReadData timeout).1 = Result.ret none 0 (some Err.ErrDeadlineExceeded) ∧
    (s.ReadData timeout).2.reader = s.reader ∧
    (s.ReadData timeout).2.UnderlyingConn.readDeadline = s.deadline timeout ∧
    (s.ReadData timeout).2.UnderlyingConn.inbound = s.UnderlyingConn.inbound ∧
    (s.ReadData timeout).2.UnderlyingConn.resync = s.UnderlyingConn.resync ∧
    (s.ReadData timeout).2.UnderlyingConn.now =
      max s.UnderlyingConn.now ((s.deadline timeout).getD s.UnderlyingConn.now) := by
  have haw := await_late s.UnderlyingConn.now (s.deadline timeout) a f rest e hexp
  rw [← hin] at haw
  obtain ⟨h1, h2, h3⟩ := iter_fail s timeout s.pingPeriod none _ _ haw
  unfold Socket.ReadData
  rw [Loop_done _ _ _ _ _ _ h1]
  refine ⟨by simp, h2, ?_, ?_, ?_, ?_⟩
  · rw [h3]; simp [Socket.deadline]
  · rw [h3]; simp
  · rw [h3]; simp
  · rw [h3]

/-! ## Series of calls -/

theorem ReadMany_messages (more : List (Int × Frame)) (e : Option (Int × Err)) :
    ∀ (msgs : List (Int × Frame)) (ts : List Int) (s : Socket), ts.length = msgs.length →
      s.fragmented = false → s.pending = ⟨msgs ++ more, e⟩ →
      inTime s.UnderlyingConn.now s.UnderlyingConn.readDeadline ts msgs = true →
      (∀ x ∈ msgs, x.2.isMessage) →
      (s.ReadMany ts).1 =
        msgs.map (fun x => Result.ret (some x.2.Payload) x.2.OpCode none) := by
  intro msgs
  induction msgs with
  | nil =>
    intro ts s hlen _ _ _ _
    cases ts with
    | nil => simp [Socket.ReadMany]
    | cons t ts => simp at hlen
  | cons x msgs ih =>
    intro ts s hlen hfr hin htime hall
    cases ts with
    | nil => simp at hlen
    | cons t ts =>
      obtain ⟨a, f⟩ := x
      simp only [inTime, Bool.and_eq_true, Bool.not_eq_true'] at htime
      obtain ⟨h1, h2, h3, h4, _, h6⟩ := ReadData_message s t a f (msgs ++ more) e hfr
        (by simpa [Socket.deadline] using htime.1) (by simpa using hin) (hall (a, f) (by simp))
      have ih2 := ih ts (s.ReadData t).2 (by simpa using hlen)
        (by simp [Socket.fragmented, h2])
        (by simp [Socket.pending, h2, h4])
        (by rw [h6, h3]; simpa [Socket.deadline] using htime.2)
        (fun y hy => hall y (by simp [hy]))
      simp [Socket.ReadMany, h1, ih2]

/-- An ill-formed text frame under the cursor is rejected. -/
theorem dispatch_invalid (s : Socket) (hdr : Header) (p : Bytes)
    (hcur : s.reader.cur = some ⟨OpText, p, false⟩) (hop : hdr.OpCode = OpText)
    (hutf : s.reader.CheckUTF8 = true) (hp : validUTF8 p = false) :
    (s.dispatch hdr none).1 = Step.done (Result.ret none 0 (some Err.ErrInvalidUTF8)) := by
  have hr := ReadAll_final s _ hcur rfl
  simp only [hutf, hp, and_self, if_true] at hr
  have h1 : ¬ (OpText = OpClose) := by decide
  have h2 : IsControl OpText = false := by decide
  have h3 : ¬ (OpText &&& OpBinary = 0 ∧ OpText &&& OpText = 0) := by decide
  unfold Socket.dispatch
  rw [hop]
  simp only [ne_eq, not_true_eq_false, if_false, h1, h2, h3, Bool.false_eq_true, hr]

theorem ReadData_invalid (s : Socket) (timeout : Int) (a : Int) (p : Bytes)
    (rest : List (Int × Frame)) (e : Option (Int × Err)) (hfr : s.fragmented = false)
    (hutf : s.reader.CheckUTF8 = true)
    (hexp : expired (s.deadline timeout) (max s.UnderlyingConn.now a) = false)
    (hin : s.pending = ⟨(a, ⟨OpText, p⟩) :: rest, e⟩) (hp : validUTF8 p = false) :
    (s.ReadData timeout).1 = Result.ret none 0 (some Err.ErrInvalidUTF8) := by
  have haw := await_first s.UnderlyingConn.now (s.deadline timeout) a ⟨OpText, p⟩ rest e hexp
  rw [← hin] at haw
  obtain ⟨g1, g2, _⟩ := stopped_idle s timeout s.pingPeriod none _ ⟨OpText, p⟩ ⟨rest, e⟩ haw
    hfr (CheckHeader_text p)
  have hi : (s.ReadDataIter timeout s.pingPeriod none).1 =
      Step.done (Result.ret none 0 (some Err.ErrInvalidUTF8)) := by
    rw [iter_eq s timeout s.pingPeriod none _ g1]
    exact dispatch_invalid _ _ p (by rw [g2]; rfl) rfl (by rw [g2]; exact hutf) hp
  unfold Socket.ReadData
  rw [Loop_done _ _ _ _ _ _ hi]

theorem ReadMany_rejects (more : List (Int × Frame)) (e : Option (Int × Err)) (a : Int)
    (p : Bytes) (t : Int) (hp : validUTF8 p = false) :
    ∀ (msgs : List (Int × Frame)) (ts : List Int) (s : Socket), ts.length = msgs.length →
      s.fragmented = false → s.reader.CheckUTF8 = true →
      s.pending = ⟨msgs ++ (a, ⟨OpText, p⟩) :: more, e⟩ →
      inTime s.UnderlyingConn.now s.UnderlyingConn.readDeadline (ts ++ [t])
        (msgs ++ [(a, ⟨OpText, p⟩)]) = true →
      (∀ x ∈ msgs, x.2.isMessage) →
      (s.ReadMany (ts ++ [t])).1 =
        msgs.map (fun x => Result.ret (some x.2.Payload) x.2.OpCode none) ++
          [Result.ret none 0 (some Err.ErrInvalidUTF8)] := by
  intro msgs
  induction msgs with
  | nil =>
    intro ts s hlen hfr hutf hin htime _
    cases ts with
    | cons t ts => simp at hlen
    | nil =>
      simp only [List.nil_append, inTime, Bool.and_eq_true, Bool.not_eq_true'] at htime hin
      have h := ReadData_invalid s t a p more e hfr hutf
        (by simpa [Socket.deadline] using htime.1) hin hp
      simp [Socket.ReadMany, h]
  | cons x msgs ih =>
    intro ts s hlen hfr hutf hin htime hall
    cases ts with
    | nil => simp at hlen
    | cons t1 ts =>
      obtain ⟨a1, f⟩ := x
      simp only [List.cons_append, inTime, Bool.and_eq_true, Bool.not_eq_true'] at htime
      obtain ⟨h1, h2, h3, h4, _, h6⟩ := ReadData_message s t1 a1 f
        (msgs ++ (a, ⟨OpText, p⟩) :: more) e hfr
        (by simpa [Socket.deadline] using htime.1) (by simpa using hin) (hall (a1, f) (by simp))
      have ih2 := ih ts (s.ReadData t1).2 (by simpa using hlen)
        (by simp [Socket.fragmented, h2])
        (by rw [h2]; exact hutf)
        (by simp [Socket.pending, h2, h4])
        (by rw [h6, h3]; simpa [Socket.deadline] using htime.2)
        (fun y hy => hall y (by simp [hy]))
      simp [Socket.ReadMany, h1, ih2]

/-! ## A close frame -/

theorem deliver_close (s : Socket) (t : Int) (p : Bytes) (rest : Inbound) :
    ∃ hdr err, (s.deliver t ⟨OpClose, p⟩ rest).1 = some (hdr, err) ∧
      (err ≠ none ∨ hdr.OpCode = OpClose) := by
  have hop : (⟨OpClose, p⟩ : Frame).op = OpClose := frame_op OpClose p (by decide)
  unfold Socket.deliver
  split
  · rename_i h
    exact ⟨_, _, rfl, Or.inl h.2⟩
  · split
    · refine ⟨_, _, rfl, Or.inl ?_⟩
      rw [hop]
      simp [Socket.answer, OpClose, OpPing]
    · exact ⟨_, _, rfl, Or.inr hop⟩

theorem dispatch_close (s : Socket) (hdr : Header) (err : Option Err)
    (h : err ≠ none ∨ hdr.OpCode = OpClose) :
    ∃ e, (s.dispatch hdr err).1 = Step.done (Result.ret none 0 (some e)) := by
  by_cases he : err ≠ none
  · obtain ⟨e, h1, _⟩ := dispatch_err s hdr err he
    exact ⟨e, h1⟩
  · have hc : hdr.OpCode = OpClose := by
      rcases h with h | h
      · exact absurd h he
      · exact h
    unfold Socket.dispatch
    rw [if_neg he, if_pos hc]
    exact ⟨_, rfl⟩

/-- The call that finds a close frame next on the stream returns an error,
whatever the state of the decoder. -/
theorem ReadData_close_fails (s : Socket) (timeout : Int) (a : Int) (p : Bytes)
    (rest : List (Int × Frame)) (e : Option (Int × Err))
    (hexp : expired (s.deadline timeout) (max s.UnderlyingConn.now a) = false)
    (hin : s.pending = ⟨(a, ⟨OpClose, p⟩) :: rest, e⟩) :
    ∃ err, (s.ReadData timeout).1 = Result.ret none 0 (some err) := by
  have haw := await_first s.UnderlyingConn.now (s.deadline timeout) a ⟨OpClose, p⟩ rest e hexp
  rw [← hin] at haw
  have h1 : (s.arm timeout s.pingPeriod none).2.NextFrame =
      ((s.arm timeout s.pingPeriod none).2.fire (some (max s.UnderlyingConn.now a))).deliver
        (max s.UnderlyingConn.now a) ⟨OpClose, p⟩ ⟨rest, e⟩ := by
    rw [NextFrame_eq, arm_awaited, haw]
  obtain ⟨hdr, err, h2, h3⟩ := deliver_close
    ((s.arm timeout s.pingPeriod none).2.fire (some (max s.UnderlyingConn.now a)))
    (max s.UnderlyingConn.now a) p ⟨rest, e⟩
  rw [← h1] at h2
  obtain ⟨e2, h4⟩ := dispatch_close (s.stopped timeout s.pingPeriod none) hdr err h3
  have hi : (s.ReadDataIter timeout s.pingPeriod none).1 =
      Step.done (Result.ret none 0 (some e2)) := by
    rw [iter_eq s timeout s.pingPeriod none _ h2]
    exact h4
  refine ⟨e2, ?_⟩
  unfold Socket.ReadData
  rw [Loop_done _ _ _ _ _ _ hi]

/-- The call that finds a close frame next on the stream while the decoder
stands between two messages: `io.ErrUnexpectedEOF`, and the payload of the
close frame stays unread. -/
theorem ReadData_close (s : Socket) (timeout : Int) (a : Int) (p : Bytes)
    (rest : List (Int × Frame)) (e : Option (Int × Err)) (hfr : s.fragmented = false)
    (hp : p.length ≤ MaxControlFramePayloadSize)
    (hexp : expired (s.deadline timeout) (max s.UnderlyingConn.now a) = false)
    (hin : s.pending = ⟨(a, ⟨OpClose, p⟩) :: rest, e⟩) :
    (s.ReadData timeout).1 = Result.ret none 0 (some Err.ErrUnexpectedEOF) ∧
    (s.ReadData timeout).2.reader = { s.reader with cur := some ⟨OpClose, p, false⟩ } ∧
    (s.ReadData timeout).2.UnderlyingConn.readDeadline = s.deadline timeout ∧
    (s.ReadData timeout).2.UnderlyingConn.inbound = ⟨rest, e⟩ ∧
    (s.ReadData timeout).2.UnderlyingConn.resync = s.UnderlyingConn.resync ∧
    (s.ReadData timeout).2.UnderlyingConn.now = max s.UnderlyingConn.now a := by
  have haw := await_first s.UnderlyingConn.now (s.deadline timeout) a ⟨OpClose, p⟩ rest e hexp
  rw [← hin] at haw
  obtain ⟨g1, g2, g3⟩ := stopped_idle s timeout s.pingPeriod none _ ⟨OpClose, p⟩ ⟨rest, e⟩ haw
    hfr (CheckHeader_ctl OpClose p false (Or.inr rfl) hp)
  rw [frame_op OpClose p (by decide), frame_Fin OpClose p (by decide)] at g2
  rw [frame_op OpClose p (by decide)] at g1
  have hd : (s.stopped timeout s.pingPeriod none).dispatch ⟨OpClose, p.length⟩ none =
      (Step.done (Result.ret none 0 (some Err.ErrUnexpectedEOF)),
        s.stopped timeout s.pingPeriod none) := by
    simp [Socket.dispatch]
  have hi : s.ReadDataIter timeout s.pingPeriod none =
      (Step.done (Result.ret none 0 (some Err.ErrUnexpectedEOF)), none,
        s.stopped timeout s.pingPeriod none) := by
    rw [iter_eq s timeout s.pingPeriod none _ g1, hd]
  unfold Socket.ReadData
  rw [Loop_done _ _ _ _ _ _ (by rw [hi])]
  rw [hi]
  refine ⟨rfl, ?_, ?_, ?_, ?_, ?_⟩
  · rw [g2]; rfl
  · rw [g3]; simp [Socket.deadline]
  · rw [g3]
  · rw [g3]; simp
  · rw [g3]

theorem ReadData_ended (s : Socket) (timeout : Int) (te : Int × Err)
    (hin : s.pending = ⟨[], some te⟩) :
    (∃ err, (s.ReadData timeout).1 = Result.ret none 0 (some err)) ∧
    (s.ReadData timeout).2.reader = s.reader ∧
    (s.ReadData timeout).2.UnderlyingConn.inbound = s.UnderlyingConn.inbound ∧
    (s.ReadData timeout).2.UnderlyingConn.resync = s.UnderlyingConn.resync := by
  obtain ⟨t, e⟩ := te
  have haw : ∃ t1 e1, await s.UnderlyingConn.now (s.deadline timeout) s.pending =
      Await.fail t1 e1 := by
    by_cases hx : expired (s.deadline timeout) (max s.UnderlyingConn.now t) = true
    · exact ⟨max s.UnderlyingConn.now ((s.deadline timeout).getD s.UnderlyingConn.now),
        Err.ErrDeadlineExceeded, by simp [hin, await, hx]⟩
    · exact ⟨max s.UnderlyingConn.now t, e, by simp [hin, await, hx]⟩
  obtain ⟨t1, e1, haw⟩ := haw
  obtain ⟨h1, h2, h3⟩ := iter_fail s timeout s.pingPeriod none _ _ haw
  unfold Socket.ReadData
  rw [Loop_done _ _ _ _ _ _ h1]
  refine ⟨⟨_, rfl⟩, h2, ?_, ?_⟩
  · rw [h3]; simp
  · rw [h3]; simp

theorem pending_congr (s t : Socket) (h1 : t.reader = s.reader)
    (h2 : t.UnderlyingConn.inbound = s.UnderlyingConn.inbound)
    (h3 : t.UnderlyingConn.resync = s.UnderlyingConn.resync) : t.pending = s.pending := by
  simp [Socket.pending, h1, h2, h3]

theorem ReadMany_ended (te : Int × Err) :
    ∀ (ts : List Int) (s : Socket), s.pending = ⟨[], some te⟩ →
      ∀ r ∈ (s.ReadMany ts).1, ∃ err, r = Result.ret none 0 (some err) := by
  intro ts
  induction ts with
  | nil => intro s _ r hr; simp [Socket.ReadMany] at hr
  | cons t ts ih =>
    intro s hin r hr
    obtain ⟨h1, h2, h3, h4⟩ := ReadData_ended s t te hin
    simp only [Socket.ReadMany, List.mem_cons] at hr
    rcases hr with rfl | hr
    · exact h1
    · exact ih (s.ReadData t).2 (by rw [pending_congr _ _ h2 h3 h4, hin]) r hr

/-! ## The keepalive ping and the pong -/

theorem Write_eq (c : Conn) (f : Frame) :
    (c.Write f).1 = (if expired c.writeDeadline c.now = true then some Err.ErrDeadlineExceeded
      else c.writeErr) ∧
    (c.Write f).2 = (if (c.Write f).1 = none then { c with wire := c.wire ++ [f] } else c) := by
  unfold Conn.Write
  by_cases h1 : expired c.writeDeadline c.now = true
  · simp [h1]
  · cases h2 : c.writeErr <;> simp [h1, h2]

theorem fire_early (s : Socket) (tm : Timer) (t : Int) (hT : s.timer = some tm)
    (h : t < tm.due) : s.fire (some t) = s := by
  simp [Socket.fire, hT, Timer.dueBy, not_le.mpr h]

/-- The keepalive timer that falls due: it is gone, the write deadline is one
interval after it fired, and the ping is on the wire unless the transport
fails. -/
theorem fire_due (s : Socket) (tm : Timer) (t : Int) (hT : s.timer = some tm)
    (hmu : s.mu = false) (hd : tm.delay > 0) (hdue : tm.due ≤ t) :
    (s.fire (some t)).timer = none ∧
    (s.fire (some t)).UnderlyingConn.writeDeadline =
      some (max s.UnderlyingConn.now tm.due + tm.delay) ∧
    (s.fire (some t)).UnderlyingConn.wire =
      (if s.UnderlyingConn.writeErr = none then s.UnderlyingConn.wire ++ [⟨OpPing, []⟩]
        else s.UnderlyingConn.wire) := by
  have hx : ¬ (max s.UnderlyingConn.now tm.due + tm.delay ≤ max s.UnderlyingConn.now tm.due) := by
    omega
  unfold Socket.fire
  simp only [hT, Timer.dueBy, hdue, decide_True, Bool.true_eq_false, if_false]
  simp only [Socket.WriteOp, Socket.write, Socket.withConn, hmu, Bool.false_eq_true, if_false, hd,
    if_true, Socket.record, Socket.now, Conn.SetWriteDeadline, WriteMessage, Conn.Write, expired,
    hx, decide_False]
  cases hw : s.UnderlyingConn.writeErr with
  | none => simp
  | some e => simp

theorem armed_fire (s : Socket) (timeout dT t : Int) (hT : s.timer = none) (hmu : s.mu = false) :
    ((s.arm timeout dT none).2.fire (some t)).UnderlyingConn.writeDeadline =
      (if dT > 0 ∧ s.UnderlyingConn.now + dT ≤ t then some (s.UnderlyingConn.now + dT + dT)
        else s.UnderlyingConn.writeDeadline) ∧
    ((s.arm timeout dT none).2.fire (some t)).UnderlyingConn.wire =
      (if dT > 0 ∧ s.UnderlyingConn.now + dT ≤ t ∧ s.UnderlyingConn.writeErr = none then
        s.UnderlyingConn.wire ++ [⟨OpPing, []⟩]
        else s.UnderlyingConn.wire) := by
  by_cases hd : dT > 0
  · have hA : (s.arm timeout dT none).2.timer = some ⟨s.UnderlyingConn.now + dT, dT⟩ := by
      simp [hd]
    by_cases hdue : s.UnderlyingConn.now + dT ≤ t
    · obtain ⟨_, h2, h3⟩ := fire_due _ _ t hA (by simpa using hmu) hd hdue
      rw [h2, h3]
      have hm : max s.UnderlyingConn.now (s.UnderlyingConn.now + dT) = s.UnderlyingConn.now + dT :=
        max_eq_right (by omega)
      simp [hd, hdue, hm]
    · rw [fire_early _ _ t hA (by simpa using hdue)]
      simp [hd, hdue]
  · have hA : (s.arm timeout dT none).2.timer = none := by simp [hd, hT]
    rw [fire_idle _ _ hA]
    simp [hd]

/-- A ping under the cursor: the control handler writes the pong to the stream
directly; the pass continues when that write is accepted and returns its error
otherwise. -/
theorem dispatch_ping (s : Socket) (hdr : Header) (p : Bytes) (hop : hdr.OpCode = OpPing)
    (hcur : s.reader.cur = some ⟨OpPing, p, false⟩) :
    (s.dispatch hdr none).1 =
      (if (s.UnderlyingConn.Write ⟨OpPong, p⟩).1 ≠ none then
        Step.done (Result.ret none 0 (s.UnderlyingConn.Write ⟨OpPong, p⟩).1)
      else Step.next) ∧
    (s.dispatch hdr none).2.reader = { s.reader with cur := none } ∧
    (s.dispatch hdr none).2.UnderlyingConn = (s.UnderlyingConn.Write ⟨OpPong, p⟩).2 := by
  have h1 : ¬ (OpPing = OpClose) := by decide
  have h2 : IsControl OpPing = true := by decide
  have hc : s.controlHandler hdr =
      ((s.UnderlyingConn.Write ⟨OpPong, p⟩).1,
        ((s.withConn (s.UnderlyingConn.Write ⟨OpPong, p⟩).2).record
          (Action.Write OpPong p)).consume) := by
    simp [Socket.controlHandler, hcur, Socket.answer, hop]
  unfold Socket.dispatch
  simp only [hop, ne_eq, not_true_eq_false, if_false, h1, h2, if_true, hc]
  split
  · refine ⟨rfl, ?_, rfl⟩
    simp [Socket.consume, Socket.consumed, Socket.record, Socket.withConn, hcur]
  · refine ⟨rfl, ?_, rfl⟩
    simp [Socket.consume, Socket.consumed, Socket.record, Socket.withConn, hcur]

theorem pongs_append_pong (w : List Frame) (p : Bytes) :
    pongs (w ++ [⟨OpPong, p⟩]) = pongs w ++ [⟨OpPong, p⟩] := by
  simp [pongs]

/-- A ping in front of a message: what the call returns and what it writes,
by whether the stream accepts the pong. -/
theorem ReadData_ping (s : Socket) (a1 a2 : Int) (p : Bytes) (d : Frame)
    (rest : List (Int × Frame)) (e : Option (Int × Err)) (timeout : Int)
    (hidle : s.reader.cur = none) (hT : s.timer = none) (hmu : s.mu = false)
    (hstream : s.UnderlyingConn.inbound = ⟨(a1, ⟨OpPing, p⟩) :: (a2, d) :: rest, e⟩)
    (hp : p.length ≤ MaxControlFramePayloadSize)
    (hexp1 : expired (s.deadline timeout) (max s.now a1) = false)
    (hexp2 : expired (if timeout > 0 then some (max s.now a1 + timeout)
      else s.UnderlyingConn.readDeadline) (max (max s.now a1) a2) = false)
    (hd : d.isMessage) :
    (s.UnderlyingConn.writeErr = none → expired (s.pongDeadline a1) (max s.now a1) = false →
      (s.ReadData timeout).1 = Result.ret (some d.Payload) d.OpCode none ∧
      pongs (s.ReadData timeout).2.UnderlyingConn.wire =
        pongs s.UnderlyingConn.wire ++ [⟨OpPong, p⟩]) ∧
    (expired (s.pongDeadline a1) (max s.now a1) = true →
      (s.ReadData timeout).1 = Result.ret none 0 (some Err.ErrDeadlineExceeded) ∧
      pongs (s.ReadData timeout).2.UnderlyingConn.wire = pongs s.UnderlyingConn.wire) ∧
    (∀ err, s.UnderlyingConn.writeErr = some err →
      expired (s.pongDeadline a1) (max s.now a1) = false →
      (s.ReadData timeout).1 = Result.ret none 0 (some err) ∧
      pongs (s.ReadData timeout).2.UnderlyingConn.wire = pongs s.UnderlyingConn.wire) := by
  unfold Socket.now at hexp1 hexp2 ⊢
  have hfr : s.fragmented = false := by simp [Socket.fragmented, hidle]
  have hin : s.pending = ⟨(a1, ⟨OpPing, p⟩) :: (a2, d) :: rest, e⟩ := by
    simp [Socket.pending, hidle, hstream]
  have haw := await_first s.UnderlyingConn.now (s.deadline timeout) a1 ⟨OpPing, p⟩
    ((a2, d) :: rest) e hexp1
  rw [← hin] at haw
  obtain ⟨g1, g2, g3⟩ := stopped_idle s timeout s.pingPeriod none _ ⟨OpPing, p⟩
    ⟨(a2, d) :: rest, e⟩ haw hfr (CheckHeader_ctl OpPing p false (Or.inl rfl) hp)
  rw [frame_op OpPing p (by decide), frame_Fin OpPing p (by decide)] at g2
  rw [frame_op OpPing p (by decide)] at g1
  obtain ⟨d1, d2, d3⟩ := dispatch_ping (s.stopped timeout s.pingPeriod none)
    ⟨OpPing, p.length⟩ p rfl (by rw [g2]; rfl)
  obtain ⟨f1, f2⟩ := armed_fire s timeout s.pingPeriod (max s.UnderlyingConn.now a1) hT hmu
  obtain ⟨w1, w2⟩ := Write_eq (s.stopped timeout s.pingPeriod none).UnderlyingConn ⟨OpPong, p⟩
  have hwd : (s.stopped timeout s.pingPeriod none).UnderlyingConn.writeDeadline =
      s.pongDeadline a1 := by
    rw [g3]
    simp only
    rw [f1]
    rfl
  have hnow : (s.stopped timeout s.pingPeriod none).UnderlyingConn.now =
      max s.UnderlyingConn.now a1 := by rw [g3]
  have hwe : (s.stopped timeout s.pingPeriod none).UnderlyingConn.writeErr =
      s.UnderlyingConn.writeErr := by rw [g3]; simp
  have hwire : pongs (s.stopped timeout s.pingPeriod none).UnderlyingConn.wire =
      pongs s.UnderlyingConn.wire := by
    rw [g3]
    simp only
    rw [pongs_fire]
    simp
  rw [hwd, hnow, hwe] at w1
  have hit : (s.ReadDataIter timeout s.pingPeriod none) =
      (((s.stopped timeout s.pingPeriod none).dispatch ⟨OpPing, p.length⟩ none).1, none,
        ((s.stopped timeout s.pingPeriod none).dispatch ⟨OpPing, p.length⟩ none).2) :=
    iter_eq s timeout s.pingPeriod none _ g1
  have hrefused : ∀ err, ((s.stopped timeout s.pingPeriod none).UnderlyingConn.Write
      ⟨OpPong, p⟩).1 = some err →
      (s.ReadData timeout).1 = Result.ret none 0 (some err) ∧
      pongs (s.ReadData timeout).2.UnderlyingConn.wire = pongs s.UnderlyingConn.wire := by
    intro err hw
    have hi : (s.ReadDataIter timeout s.pingPeriod none).1 =
        Step.done (Result.ret none 0 (some err)) := by
      rw [hit]
      simp only
      rw [d1, hw]
      simp
    unfold Socket.ReadData
    rw [Loop_done _ _ _ _ _ _ hi, hit]
    refine ⟨rfl, ?_⟩
    simp only
    rw [d3, w2, hw]
    simpa using hwire
  refine ⟨?_, ?_, ?_⟩
  · intro hok hx
    have hw : ((s.stopped timeout s.pingPeriod none).UnderlyingConn.Write ⟨OpPong, p⟩).1 =
        none := by
      rw [w1, hx, hok]
      simp
    have hi : (s.ReadDataIter timeout s.pingPeriod none).1 = Step.next := by
      rw [hit]
      simp only
      rw [d1, hw]
      simp
    have hi2 : (s.ReadDataIter timeout s.pingPeriod none).2.1 = none := by rw [hit]
    have hP : (s.ReadDataIter timeout s.pingPeriod none).2.2 =
        ((s.stopped timeout s.pingPeriod none).dispatch ⟨OpPing, p.length⟩ none).2 := by
      rw [hit]
    have hconn : (s.ReadDataIter timeout s.pingPeriod none).2.2.UnderlyingConn =
        { (s.stopped timeout s.pingPeriod none).UnderlyingConn with
          wire := (s.stopped timeout s.pingPeriod none).UnderlyingConn.wire ++ [⟨OpPong, p⟩] } := by
      rw [hP, d3, w2, hw]
      simp
    have hrd : (s.ReadDataIter timeout s.pingPeriod none).2.2.reader =
        { s.reader with cur := none } := by
      rw [hP, d2, g2]
    have h := Loop_message (s.ReadDataIter timeout s.pingPeriod none).2.2 timeout s.pingPeriod
      none (rest.length + 1) a2 d rest e
      (by simp [Socket.fragmented, hrd])
      (by
        rw [Socket.deadline, hconn]
        simp only
        rw [g3]
        simp only [fire_readDeadline, arm_readDeadline]
        by_cases ht : timeout > 0
        · simpa [ht] using hexp2
        · simpa [ht] using hexp2)
      (by
        rw [Socket.pending, hrd]
        simp only
        rw [hconn]
        simp only
        rw [g3])
      hd
    unfold Socket.ReadData
    simp only [hin, List.length_cons]
    rw [Loop_next _ _ _ _ _ hi, hi2]
    refine ⟨h.1, ?_⟩
    rw [h.2.2.2.2.2.2, hconn]
    simp only
    rw [pongs_append_pong, hwire]
  · intro hx
    exact hrefused _ (by rw [w1, hx]; simp)
  · intro err herr hx
    exact hrefused _ (by rw [w1, hx, herr]; simp)

/-! ## Frames that are neither text, binary nor control -/

theorem CheckHeader_err (f : Frame) (b : Bool) :
    CheckHeader f b = none ∨ CheckHeader f b = some Err.ProtocolError := by
  unfold CheckHeader
  split
  · exact Or.inr rfl
  · split
    · exact Or.inr rfl
    · split
      · exact Or.inr rfl
      · split
        · exact Or.inr rfl
        · exact Or.inl rfl

theorem CheckHeader_reserved (f : Frame) (b : Bool) (h : IsReserved f.op = true) :
    CheckHeader f b = some Err.ProtocolError := by
  unfold CheckHeader
  simp [h]

theorem CheckHeader_stray (f : Frame) (h : f.op = OpContinuation) :
    CheckHeader f false = some Err.ProtocolError := by
  have h1 : IsControl OpContinuation = false := by decide
  unfold CheckHeader
  rw [h]
  simp [h1]

theorem CheckHeader_none (f : Frame) (b : Bool) (h : CheckHeader f b = none) :
    IsReserved f.op = false ∧
    (IsControl f.op = false → (b = true ↔ f.op = OpContinuation)) := by
  unfold CheckHeader at h
  split at h
  · simp at h
  · rename_i h1
    split at h
    · simp at h
    · split at h
      · simp at h
      · rename_i h3
        split at h
        · simp at h
        · rename_i h4
          refine ⟨by simpa using h1, ?_⟩
          intro hc
          constructor
          · intro hb
            by_contra hne
            exact h3 ⟨hb, hc, hne⟩
          · intro ho
            by_contra hne
            exact h4 ⟨by simpa using hne, ho⟩

theorem op_cases (n : Nat) (h16 : n < 16) (hr : IsReserved n = false)
    (hc : IsControl n = false) : n = OpContinuation ∨ n = OpText ∨ n = OpBinary := by
  revert hr hc
  interval_cases n <;> decide

theorem op_lt (f : Frame) : f.op < 16 := Nat.mod_lt _ (by decide)

/-- A frame that fails the header check ends the call with the error of the
check. -/
theorem ReadData_rejected (s : Socket) (timeout : Int) (a : Int) (f : Frame)
    (rest : List (Int × Frame)) (e : Option (Int × Err))
    (hchk : s.reader.SkipHeaderCheck = false)
    (hexp : expired (s.deadline timeout) (max s.UnderlyingConn.now a) = false)
    (hin : s.pending = ⟨(a, f) :: rest, e⟩) (hck : CheckHeader f s.fragmented ≠ none) :
    (s.ReadData timeout).1 = Result.ret none 0 (some Err.ProtocolError) := by
  have hpe : CheckHeader f s.fragmented = some Err.ProtocolError := by
    rcases CheckHeader_err f s.fragmented with h | h
    · exact absurd h hck
    · exact h
  have haw := await_first s.UnderlyingConn.now (s.deadline timeout) a f rest e hexp
  rw [← hin] at haw
  have h1 : (s.arm timeout s.pingPeriod none).2.NextFrame =
      ((s.arm timeout s.pingPeriod none).2.fire (some (max s.UnderlyingConn.now a))).deliver
        (max s.UnderlyingConn.now a) f ⟨rest, e⟩ := by
    rw [NextFrame_eq, arm_awaited, haw]
  have h2 := deliver_rejected
    ((s.arm timeout s.pingPeriod none).2.fire (some (max s.UnderlyingConn.now a)))
    (max s.UnderlyingConn.now a) f ⟨rest, e⟩ (by simpa using hchk) (by simpa using hck)
  rw [← h1] at h2
  simp only [fire_fragmented, arm_fragmented, hpe] at h2
  have hi : (s.ReadDataIter timeout s.pingPeriod none).1 =
      Step.done (Result.ret none 0 (some Err.ProtocolError)) := by
    rw [iter_eq s timeout s.pingPeriod none _ h2]
    simp [Socket.dispatch]
  unfold Socket.ReadData
  rw [Loop_done _ _ _ _ _ _ hi]

/-- Under the header check, a header that the decoder returns without error
and that is neither text, binary nor control is the header of a continuation
frame inside a fragmented message, and the pass ends as `Discard` does. -/
theorem iter_discard (s : Socket) (timeout dT : Int) (dt : Option Timer) (hdr : Header)
    (hchk : s.reader.SkipHeaderCheck = false)
    (hread : (s.arm timeout dT dt).2.NextFrame.1 = some (hdr, none))
    (hctl : IsControl hdr.OpCode = false) (ht : hdr.OpCode ≠ OpText)
    (hb : hdr.OpCode ≠ OpBinary) :
    hdr.OpCode = OpContinuation ∧ s.fragmented = true ∧
    (s.ReadDataIter timeout dT dt).2.2 = (s.stopped timeout dT dt).Discard.2 ∧
    (s.ReadDataIter timeout dT dt).1 =
      (match (s.stopped timeout dT dt).Discard.1 with
        | Drained.done _ none => Step.next
        | Drained.done _ (some e) => Step.done (Result.ret none 0 (some e))
        | Drained.never => Step.done Result.blocked
        | Drained.out => Step.done Result.exhausted) := by
  obtain ⟨a, f, rest, _, _, h3, h4, _⟩ := NextFrame_ok _ _ hread
  have hck := h4 (by simpa using hchk)
  rw [arm_fragmented] at hck
  obtain ⟨c1, c2⟩ := CheckHeader_none f s.fragmented hck
  have hop : hdr.OpCode = f.op := by rw [h3]
  rw [hop] at hctl ht hb ⊢
  have h0 : f.op = OpContinuation := by
    rcases op_cases f.op (op_lt f) c1 hctl with h | h | h
    · exact h
    · exact absurd h ht
    · exact absurd h hb
  have hd : (s.stopped timeout dT dt).dispatch hdr none =
      ((match (s.stopped timeout dT dt).Discard.1 with
        | Drained.done _ none => Step.next
        | Drained.done _ (some e) => Step.done (Result.ret none 0 (some e))
        | Drained.never => Step.done Result.blocked
        | Drained.out => Step.done Result.exhausted),
        (s.stopped timeout dT dt).Discard.2) := by
    have k1 : ¬ (OpContinuation = OpClose) := by decide
    have k2 : IsControl OpContinuation = false := by decide
    have k3 : OpContinuation &&& OpBinary = 0 ∧ OpContinuation &&& OpText = 0 := by decide
    unfold Socket.dispatch
    rw [hop, h0]
    simp only [ne_eq, not_true_eq_false, if_false, k1, k2, Bool.false_eq_true, k3, and_self,
      if_true]
  refine ⟨h0, (c2 hctl).mpr h0, ?_, ?_⟩
  · rw [iter_eq s timeout dT dt _ hread, hd]
  · rw [iter_eq s timeout dT dt _ hread, hd]

theorem iter_check (s : Socket) (timeout dT : Int) (dt : Option Timer) :
    (s.ReadDataIter timeout dT dt).2.2.reader.SkipHeaderCheck = s.reader.SkipHeaderCheck := by
  have h0 := (NextFrame_kept (s.arm timeout dT dt).2).check
  rw [arm_reader] at h0
  cases hr : (s.arm timeout dT dt).2.NextFrame.1 with
  | none =>
    unfold Socket.ReadDataIter
    simp only [hr]
    exact h0
  | some r =>
    rw [iter_eq s timeout dT dt r hr]
    have h1 := (dispatch_kept (s.stopped timeout dT dt) r.1 r.2).check
    rw [h1]
    unfold Socket.stopped
    rw [disarm_reader, record_reader]
    exact h0

/-- Under the header check, what a pass hands to the caller without error is
a text or a binary message. -/
theorem iter_kind (s : Socket) (timeout dT : Int) (dt : Option Timer)
    (hchk : s.reader.SkipHeaderCheck = false) (b : Option Bytes) (k : Nat)
    (h : (s.ReadDataIter timeout dT dt).1 = Step.done (Result.ret b k none)) :
    (k = OpText ∨ k = OpBinary) ∧ b ≠ none := by
  cases hr : (s.arm timeout dT dt).2.NextFrame.1 with
  | none =>
    unfold Socket.ReadDataIter at h
    simp [hr] at h
  | some r =>
    rw [iter_eq s timeout dT dt r hr] at h
    obtain ⟨h1, h2, h3, h4, p, h5, _⟩ := dispatch_result _ _ _ _ _ h
    have hr2 : (s.arm timeout dT dt).2.NextFrame.1 = some (r.1, none) := by rw [hr, ← h1]
    obtain ⟨a, f, rest, _, _, g3, g4, _⟩ := NextFrame_ok _ _ hr2
    have hck := g4 (by simpa using hchk)
    obtain ⟨c1, _⟩ := CheckHeader_none f _ hck
    have hop : r.1.OpCode = f.op := by rw [g3]
    rw [hop] at h2 h3 h4
    refine ⟨?_, by rw [h5]; simp⟩
    rcases op_cases f.op (op_lt f) c1 h3 with h0 | h0 | h0
    · rw [h0] at h4
      exact absurd (by decide) h4
    · exact Or.inl (h2.trans h0)
    · exact Or.inr (h2.trans h0)

theorem Loop_kind (timeout dT : Int) :
    ∀ (n : Nat) (dt : Option Timer) (s : Socket), s.reader.SkipHeaderCheck = false →
      ∀ (b : Option Bytes) (k : Nat),
        (Socket.ReadDataLoop timeout dT n dt s).1 = Result.ret b k none →
        (k = OpText ∨ k = OpBinary) ∧ b ≠ none := by
  intro n
  induction n with
  | zero => intro dt s _ b k h; simp [Socket.ReadDataLoop] at h
  | succ n ih =>
    intro dt s hchk b k h
    cases hi : (s.ReadDataIter timeout dT dt).1 with
    | done r =>
      rw [Loop_done _ _ _ _ _ _ hi] at h
      simp only at h
      rw [h] at hi
      exact iter_kind s timeout dT dt hchk b k hi
    | next =>
      rw [Loop_next _ _ _ _ _ hi] at h
      exact ih _ _ (by rw [iter_check]; exact hchk) b k h

/-- A continuation frame that ends the message in progress is dropped and the
loop goes on with the frame behind it. -/
theorem iter_continuation (s : Socket) (timeout dT : Int) (dt : Option Timer) (a : Int)
    (p : Bytes) (rest : List (Int × Frame)) (e : Option (Int × Err))
    (hfrag : s.fragmented = true)
    (hexp : expired (s.deadline timeout) (max s.UnderlyingConn.now a) = false)
    (hin : s.pending = ⟨(a, ⟨OpContinuation, p⟩) :: rest, e⟩) :
    (s.ReadDataIter timeout dT dt).1 = Step.next ∧
    (s.ReadDataIter timeout dT dt).2.2.reader.cur = none ∧
    (s.ReadDataIter timeout dT dt).2.2.UnderlyingConn.inbound = ⟨rest, e⟩ := by
  have hop : (⟨OpContinuation, p⟩ : Frame).op = OpContinuation := frame_op _ p (by decide)
  have hfin : (⟨OpContinuation, p⟩ : Frame).Fin = true := frame_Fin _ p (by decide)
  have hck : CheckHeader ⟨OpContinuation, p⟩ true = none :=
    CheckHeader_data _ true (by rw [hop]; decide) (by rw [hop]; decide) (by simp [hop])
  have haw := await_first s.UnderlyingConn.now (s.deadline timeout) a ⟨OpContinuation, p⟩ rest
    e hexp
  rw [← hin] at haw
  have h1 : (s.arm timeout dT dt).2.NextFrame =
      ((s.arm timeout dT dt).2.fire (some (max s.UnderlyingConn.now a))).deliver
        (max s.UnderlyingConn.now a) ⟨OpContinuation, p⟩ ⟨rest, e⟩ := by
    rw [NextFrame_eq, arm_awaited, haw]
  have hctl : IsControl OpContinuation = false := by decide
  have h2 : ((s.arm timeout dT dt).2.fire (some (max s.UnderlyingConn.now a))).deliver
      (max s.UnderlyingConn.now a) ⟨OpContinuation, p⟩ ⟨rest, e⟩ =
      (some (⟨OpContinuation, p.length⟩, none),
        ({ ((s.arm timeout dT dt).2.fire (some (max s.UnderlyingConn.now a))) with
            reader := { s.reader with
              cur := some ⟨s.opCode ⟨OpContinuation, p⟩, p, false⟩ } } : Socket).withConn
          { ((s.arm timeout dT dt).2.fire (some (max s.UnderlyingConn.now a))).UnderlyingConn
              with now := max s.UnderlyingConn.now a, inbound := ⟨rest, e⟩ }) := by
    unfold Socket.deliver
    simp [hfrag, hck, hop, hfin, hctl, Socket.opCode]
  rw [h2] at h1
  have hr : (s.arm timeout dT dt).2.NextFrame.1 = some (⟨OpContinuation, p.length⟩, none) := by
    rw [h1]
  have hcur : (s.stopped timeout dT dt).reader.cur =
      some ⟨s.opCode ⟨OpContinuation, p⟩, p, false⟩ := by
    unfold Socket.stopped
    rw [h1]
    simp [Socket.withConn]
  have hinb : (s.stopped timeout dT dt).UnderlyingConn.inbound = ⟨rest, e⟩ := by
    unfold Socket.stopped
    rw [h1]
    simp [Socket.withConn]
  have hdis := Discard_final (s.stopped timeout dT dt) _ hcur rfl
  have k1 : ¬ (OpContinuation = OpClose) := by decide
  have k3 : OpContinuation &&& OpBinary = 0 ∧ OpContinuation &&& OpText = 0 := by decide
  have hd : (s.stopped timeout dT dt).dispatch ⟨OpContinuation, p.length⟩ none =
      (Step.next, { s.stopped timeout dT dt with
        reader := { (s.stopped timeout dT dt).reader with cur := none } }) := by
    unfold Socket.dispatch
    simp only [ne_eq, not_true_eq_false, if_false, k1, hctl, Bool.false_eq_true, k3, and_self,
      if_true, hdis]
  rw [iter_eq s timeout dT dt _ hr, hd]
  exact ⟨rfl, rfl, hinb⟩

theorem pings_append_ping (w : List Frame) (p : Bytes) :
    pings (w ++ [⟨OpPing, p⟩]) = pings w ++ [⟨OpPing, p⟩] := by
  simp [pings]

/-- After a header read that returned, the pass leaves no timer armed and the
local variable `delayTimer` nil. -/
theorem iter_stopped (s : Socket) (timeout dT : Int) (r : Header × Option Err)
    (hT : s.timer = none) (hr : (s.arm timeout dT none).2.NextFrame.1 = some r) :
    (s.ReadDataIter timeout dT none).2.2.timer = none ∧
    (s.ReadDataIter timeout dT none).2.1 = none ∧
    pings (s.ReadDataIter timeout dT none).2.2.UnderlyingConn.wire =
      pings (s.arm timeout dT none).2.NextFrame.2.UnderlyingConn.wire := by
  rw [iter_eq s timeout dT none r hr]
  have hq := dispatch_quiet (s.stopped timeout dT none) r.1 r.2 (stopped_timer s timeout dT hT)
  refine ⟨hq.timer, rfl, ?_⟩
  rw [hq.pings]
  unfold Socket.stopped
  rw [disarm_conn, record_conn]

/-- With a positive interval the timer is live: when the next frame arrives an
interval or more after the pass began, the keepalive ping is on the wire. -/
theorem iter_keepalive (s : Socket) (timeout dT : Int) (a : Int) (f : Frame)
    (rest : List (Int × Frame)) (e : Option (Int × Err)) (hT : s.timer = none)
    (hmu : s.mu = false) (hwe : s.UnderlyingConn.writeErr = none) (hd : dT > 0)
    (hin : s.pending = ⟨(a, f) :: rest, e⟩)
    (hexp : expired (s.deadline timeout) (max s.UnderlyingConn.now a) = false)
    (hlate : s.UnderlyingConn.now + dT ≤ a) :
    pings (s.ReadDataIter timeout dT none).2.2.UnderlyingConn.wire =
      pings s.UnderlyingConn.wire ++ [⟨OpPing, []⟩] := by
  have haw := await_first s.UnderlyingConn.now (s.deadline timeout) a f rest e hexp
  rw [← hin] at haw
  have h1 : (s.arm timeout dT none).2.NextFrame =
      ((s.arm timeout dT none).2.fire (some (max s.UnderlyingConn.now a))).deliver
        (max s.UnderlyingConn.now a) f ⟨rest, e⟩ := by
    rw [NextFrame_eq, arm_awaited, haw]
  obtain ⟨r, hr⟩ := deliver_isSome
    ((s.arm timeout dT none).2.fire (some (max s.UnderlyingConn.now a)))
    (max s.UnderlyingConn.now a) f ⟨rest, e⟩
  rw [← h1] at hr
  rw [(iter_stopped s timeout dT r hT hr).2.2, h1,
    (deliver_frame _ _ _ _).2.2.1, (armed_fire s timeout dT _ hT hmu).2]
  have hle : s.UnderlyingConn.now + dT ≤ max s.UnderlyingConn.now a := le_max_of_le_right hlate
  simp only [hd, hle, hwe, and_self, if_true]
  exact pings_append_ping _ _

theorem expired_some (d t : Int) : expired (some d) t = decide (d ≤ t) := rfl

/-! ## Claims -/

set_option maxRecDepth 100000

/-- C1 (as amended): for every finite sequence of frames delivered by the peer,
each a complete message that is binary with an arbitrary payload or text with
a well-formed UTF-8 payload, as many successive `ReadData` calls on a fresh
Socket, none of which times out before its frame has arrived, return, in
arrival order, exactly the payload bytes of the i-th frame together with a
message kind equal to that frame's opcode and a nil error. A complete text
frame whose payload is not well-formed UTF-8 is not returned: the call that
reads it, after the messages before it have been returned, yields a nil
payload, kind 0 and the decoder's invalid-UTF-8 error. -/
theorem C1_ReadData_returns_messages_in_order (now : Int) (msgs more : List (Int × Frame))
    (ending : Option (Int × Err)) (resync : Bytes → Inbound → Inbound) (request : Request)
    (client : Bool) (pingPeriod : Int) (ts : List Int)
    (hlen : ts.length = msgs.length) (htime : inTime now none ts msgs = true)
    (hmsgs : ∀ x ∈ msgs, x.2.isMessage) :
    ((newSocket (Conn.fresh now (msgs ++ more) ending resync) request client
        pingPeriod).ReadMany ts).1 =
      msgs.map (fun x => Result.ret (some x.2.Payload) x.2.OpCode none) ∧
    (∀ (a : Int) (p : Bytes) (more2 : List (Int × Frame)) (t : Int),
      more = (a, ⟨OpText, p⟩) :: more2 → validUTF8 p = false →
      inTime now none (ts ++ [t]) (msgs ++ [(a, ⟨OpText, p⟩)]) = true →
      ((newSocket (Conn.fresh now (msgs ++ more) ending resync) request client
          pingPeriod).ReadMany (ts ++ [t])).1 =
        msgs.map (fun x => Result.ret (some x.2.Payload) x.2.OpCode none) ++
          [Result.ret none 0 (some Err.ErrInvalidUTF8)]) := by
  refine ⟨ReadMany_messages more ending msgs ts _ hlen rfl rfl htime hmsgs, ?_⟩
  intro a p more2 t hmore hp htime2
  subst hmore
  exact ReadMany_rejects more2 ending a p t hp msgs ts _ hlen rfl rfl rfl htime2 hmsgs

/-- Witness of C1: a text frame "hi" at instant 1, a binary frame `[255, 0]` at
instant 40 and a text frame with the ill-formed payload `0xFF` at instant 41,
keepalive every 15 ticks; calls with the timeouts 5, 50 and 0, none of which
times out. -/
theorem C1_witness :
    ((newSocket (Conn.fresh 0 ([(1, ⟨OpText, [104, 105]⟩), (40, ⟨OpBinary, [255, 0]⟩)] ++
        [(41, ⟨OpText, [0xFF]⟩)]) none (fun _ i => i)) ⟨"/ws"⟩ false 15).ReadMany [5, 50]).1 =
      [Result.ret (some [104, 105]) OpText none, Result.ret (some [255, 0]) OpBinary none] ∧
    ((newSocket (Conn.fresh 0 ([(1, ⟨OpText, [104, 105]⟩), (40, ⟨OpBinary, [255, 0]⟩)] ++
        [(41, ⟨OpText, [0xFF]⟩)]) none (fun _ i => i)) ⟨"/ws"⟩ false 15).ReadMany
          ([5, 50] ++ [0])).1 =
      [Result.ret (some [104, 105]) OpText none, Result.ret (some [255, 0]) OpBinary none] ++
        [Result.ret none 0 (some Err.ErrInvalidUTF8)] := by
  obtain ⟨h1, h2⟩ := C1_ReadData_returns_messages_in_order 0
    [(1, ⟨OpText, [104, 105]⟩), (40, ⟨OpBinary, [255, 0]⟩)] [(41, ⟨OpText, [0xFF]⟩)] none
    (fun _ i => i) ⟨"/ws"⟩ false 15 [5, 50] rfl (by decide) (by
      intro x hx
      simp at hx
      rcases hx with rfl | rfl
      · exact Or.inr ⟨rfl, by decide⟩
      · exact Or.inl rfl)
  exact ⟨h1, h2 41 [0xFF] [] 0 rfl (by decide) (by decide)⟩

/-- Counterexample to C1 as stated: a single complete text frame whose payload
is the byte `0xFF` (not well-formed UTF-8) is not returned; `ReadData` returns a
nil payload, kind 0 and the decoder's UTF-8 error. And a complete binary frame
that arrives at instant 10 is not returned by a call with timeout 5 made at
instant 0: the call returns the deadline error. -/
theorem C1_counterexample :
    ((newSocket (Conn.fresh 0 [(0, ⟨OpText, [0xFF]⟩)] none (fun _ i => i)) ⟨"/ws"⟩ false
        0).ReadMany [0]).1 = [Result.ret none 0 (some Err.ErrInvalidUTF8)] ∧
    ((newSocket (Conn.fresh 0 [(0, ⟨OpText, [0xFF]⟩)] none (fun _ i => i)) ⟨"/ws"⟩ false
        0).ReadMany [0]).1 ≠ [Result.ret (some [0xFF]) OpText none] ∧
    ((newSocket (Conn.fresh 0 [(10, ⟨OpBinary, [1]⟩)] none (fun _ i => i)) ⟨"/ws"⟩ false
        0).ReadMany [5]).1 = [Result.ret none 0 (some Err.ErrDeadlineExceeded)] := by
  decide

/-- C2 (as amended): when the next frame on the stream is a close frame, the
`ReadData` call that reaches it returns a non-nil error with no payload,
whatever the state of the decoder; when the decoder stands between two
messages and the close frame is a valid control frame (at most 125 bytes of
payload), the error is `io.ErrUnexpectedEOF`. The Socket keeps no record of the
close and the call leaves the payload of the close frame unread. After a close
frame without payload, every later `ReadData` call on the same Socket also
returns a non-nil error with no payload when the stream has ended behind the
close frame, while a complete binary or well-formed text message that follows
the close frame and arrives before the deadline is returned by the next
call. -/
theorem C2_close_frame_fails_the_call_that_reaches_it (s : Socket) (a : Int) (p : Bytes)
    (rest : List (Int × Frame)) (e : Option (Int × Err)) (timeout : Int)
    (hnext : s.pending = ⟨(a, ⟨OpClose, p⟩) :: rest, e⟩)
    (hreach : expired (s.deadline timeout) (max s.now a) = false) :
    (∃ err, (s.ReadData timeout).1 = Result.ret none 0 (some err)) ∧
    (s.fragmented = false → p.length ≤ MaxControlFramePayloadSize →
      (s.ReadData timeout).1 = Result.ret none 0 (some Err.ErrUnexpectedEOF) ∧
      (s.ReadData timeout).2.reader.cur = some ⟨OpClose, p, false⟩ ∧
      (p = [] →
        (∀ (te : Int × Err) (ts : List Int), rest = [] → e = some te →
          ∀ r ∈ ((s.ReadData timeout).2.ReadMany ts).1,
            ∃ err, r = Result.ret none 0 (some err)) ∧
        (∀ (a2 : Int) (f : Frame) (rest2 : List (Int × Frame)) (t2 : Int),
          rest = (a2, f) :: rest2 → f.isMessage →
          expired (if t2 > 0 then some (max s.now a + t2) else s.deadline timeout)
            (max (max s.now a) a2) = false →
          ((s.ReadData timeout).2.ReadData t2).1 =
            Result.ret (some f.Payload) f.OpCode none))) := by
  unfold Socket.now at hreach ⊢
  refine ⟨ReadData_close_fails s timeout a p rest e hreach hnext, ?_⟩
  intro hfr hp
  obtain ⟨h1, h2, h3, h4, h5, h6⟩ := ReadData_close s timeout a p rest e hfr hp hreach hnext
  refine ⟨h1, by rw [h2], ?_⟩
  intro hnil
  subst hnil
  have hfr2 : (s.ReadData timeout).2.fragmented = false := by simp [Socket.fragmented, h2]
  have hp2 : (s.ReadData timeout).2.pending = ⟨rest, e⟩ := by simp [Socket.pending, h2, h4]
  refine ⟨?_, ?_⟩
  · intro te ts hrest he
    subst hrest he
    exact ReadMany_ended te ts _ hp2
  · intro a2 f rest2 t2 hrest hf hx
    subst hrest
    exact (ReadData_message _ t2 a2 f rest2 e hfr2
      (by
        rw [Socket.deadline, h6, h3]
        exact hx) hp2 hf).1

/-- Witness of C2: a close frame without payload at instant 1, after which the
peer closes the stream at instant 2: the call fails and so do three later
calls. A close frame without payload followed by the text frame "hi": the
call after the one that failed returns "hi". And a close frame with the status
1000 as its payload: the call fails with `io.ErrUnexpectedEOF` and leaves the
two payload bytes unread under the cursor. -/
theorem C2_witness :
    ((freshSocket [(1, ⟨OpClose, []⟩)] (some (2, Err.EOF)) 15).ReadData 0).1 =
      Result.ret none 0 (some Err.ErrUnexpectedEOF) ∧
    (∀ r ∈ (((freshSocket [(1, ⟨OpClose, []⟩)] (some (2, Err.EOF)) 15).ReadData 0).2.ReadMany
        [0, 7, 0]).1, ∃ err, r = Result.ret none 0 (some err)) ∧
    (((freshSocket [(1, ⟨OpClose, []⟩), (3, ⟨OpText, [104, 105]⟩)] none 15).ReadData
        0).2.ReadData 0).1 = Result.ret (some [104, 105]) OpText none ∧
    ((freshSocket [(1, ⟨OpClose, [3, 232]⟩), (3, ⟨OpText, [104, 105]⟩)] none 15).ReadData
        0).1 = Result.ret none 0 (some Err.ErrUnexpectedEOF) ∧
    ((freshSocket [(1, ⟨OpClose, [3, 232]⟩), (3, ⟨OpText, [104, 105]⟩)] none 15).ReadData
        0).2.reader.cur = some ⟨OpClose, [3, 232], false⟩ := by
  obtain ⟨_, h2⟩ := C2_close_frame_fails_the_call_that_reaches_it
    (freshSocket [(1, ⟨OpClose, []⟩)] (some (2, Err.EOF)) 15) 1 [] [] (some (2, Err.EOF)) 0
    rfl (by decide)
  obtain ⟨h3, _, h4⟩ := h2 rfl (by decide)
  obtain ⟨_, g2⟩ := C2_close_frame_fails_the_call_that_reaches_it
    (freshSocket [(1, ⟨OpClose, []⟩), (3, ⟨OpText, [104, 105]⟩)] none 15) 1 []
    [(3, ⟨OpText, [104, 105]⟩)] none 0 rfl (by decide)
  obtain ⟨_, _, g4⟩ := g2 rfl (by decide)
  obtain ⟨_, k2⟩ := C2_close_frame_fails_the_call_that_reaches_it
    (freshSocket [(1, ⟨OpClose, [3, 232]⟩), (3, ⟨OpText, [104, 105]⟩)] none 15) 1 [3, 232]
    [(3, ⟨OpText, [104, 105]⟩)] none 0 rfl (by decide)
  obtain ⟨k3, k4, _⟩ := k2 rfl (by decide)
  exact ⟨h3, (h4 rfl).1 (2, Err.EOF) [0, 7, 0] rfl rfl,
    (g4 rfl).2 3 ⟨OpText, [104, 105]⟩ [] 0 rfl (Or.inr ⟨rfl, by decide⟩) (by decide), k3, k4⟩

/-- Counterexample to C2 as stated: the peer delivers a close frame without
payload and then the text frame "hi". The first `ReadData` call reaches the
close frame and fails; the second call on the same Socket returns "hi" with
kind text and a nil error. -/
theorem C2_counterexample :
    ((freshSocket [(0, ⟨OpClose, []⟩), (0, ⟨OpText, [104, 105]⟩)] (some (1, Err.EOF))
        0).ReadMany [0, 0]).1 =
      [Result.ret none 0 (some Err.ErrUnexpectedEOF),
        Result.ret (some [104, 105]) OpText none] := by
  decide

/-- C3 (as amended): let one ping frame with at most 125 bytes of payload precede
a complete binary or well-formed text message on the stream, let no read
deadline pass before either frame arrives, and let the call begin with the
decoder between two messages, no timer armed and the mutex free. The `ReadData`
call does not return the ping: it hands it to the control handler, which
writes the pong to the stream directly. When the stream accepts that write (no
transport failure, and the write deadline in force has not passed), exactly
one pong with the ping's payload is written, the loop continues, and the call
returns the payload and kind of the message behind the ping, the pong being on
the wire by then. When the write deadline in force has passed, or the
transport fails, no pong is written and the call returns that error with a nil
payload. The write deadline in force is the one that a keepalive ping has set,
one interval after it fired, if the timer fired while the call was waiting for
the ping; `ReadData` never clears it. -/
theorem C3_ping_is_answered_with_one_pong_then_message_returned (s : Socket) (a1 a2 : Int)
    (p : Bytes) (d : Frame) (rest : List (Int × Frame)) (e : Option (Int × Err))
    (timeout : Int)
    (hidle : s.reader.cur = none) (hT : s.timer = none) (hmu : s.mu = false)
    (hstream : s.UnderlyingConn.inbound = ⟨(a1, ⟨OpPing, p⟩) :: (a2, d) :: rest, e⟩)
    (hp : p.length ≤ MaxControlFramePayloadSize)
    (hexp1 : expired (s.deadline timeout) (max s.now a1) = false)
    (hexp2 : expired (if timeout > 0 then some (max s.now a1 + timeout)
      else s.UnderlyingConn.readDeadline) (max (max s.now a1) a2) = false)
    (hd : d.isMessage) :
    (s.UnderlyingConn.writeErr = none → expired (s.pongDeadline a1) (max s.now a1) = false →
      (s.ReadData timeout).1 = Result.ret (some d.Payload) d.OpCode none ∧
      pongs (s.ReadData timeout).2.UnderlyingConn.wire =
        pongs s.UnderlyingConn.wire ++ [⟨OpPong, p⟩]) ∧
    (expired (s.pongDeadline a1) (max s.now a1) = true →
      (s.ReadData timeout).1 = Result.ret none 0 (some Err.ErrDeadlineExceeded) ∧
      pongs (s.ReadData timeout).2.UnderlyingConn.wire = pongs s.UnderlyingConn.wire) ∧
    (∀ err, s.UnderlyingConn.writeErr = some err →
      expired (s.pongDeadline a1) (max s.now a1) = false →
      (s.ReadData timeout).1 = Result.ret none 0 (some err) ∧
      pongs (s.ReadData timeout).2.UnderlyingConn.wire = pongs s.UnderlyingConn.wire) :=
  ReadData_ping s a1 a2 p d rest e timeout hidle hT hmu hstream hp hexp1 hexp2 hd

/-- Witness of C3: keepalive every 15 ticks. A ping with payload `[1]` at instant
3 and the text frame "hi" at instant 4: the call returns "hi" and the wire
holds the pong `[1]`. The same two frames at the instants 40 and 45: the
keepalive ping of instant 15 has set the write deadline 30, the pong is
refused at instant 40, the call returns the deadline error and no pong is on
the wire. -/
theorem C3_witness :
    ((freshSocket [(3, ⟨OpPing, [1]⟩), (4, ⟨OpText, [104, 105]⟩)] none 15).ReadData 0).1 =
      Result.ret (some [104, 105]) OpText none ∧
    pongs ((freshSocket [(3, ⟨OpPing, [1]⟩), (4, ⟨OpText, [104, 105]⟩)] none 15).ReadData
      0).2.UnderlyingConn.wire = [] ++ [⟨OpPong, [1]⟩] ∧
    ((freshSocket [(40, ⟨OpPing, [1]⟩), (45, ⟨OpText, [104, 105]⟩)] none 15).ReadData 0).1 =
      Result.ret none 0 (some Err.ErrDeadlineExceeded) ∧
    pongs ((freshSocket [(40, ⟨OpPing, [1]⟩), (45, ⟨OpText, [104, 105]⟩)] none 15).ReadData
      0).2.UnderlyingConn.wire = [] := by
  obtain ⟨h1, _, _⟩ := C3_ping_is_answered_with_one_pong_then_message_returned
    (freshSocket [(3, ⟨OpPing, [1]⟩), (4, ⟨OpText, [104, 105]⟩)] none 15) 3 4 [1]
    ⟨OpText, [104, 105]⟩ [] none 0 rfl rfl rfl rfl (by decide) (by decide) (by decide)
    (Or.inr ⟨rfl, by decide⟩)
  obtain ⟨_, h2, _⟩ := C3_ping_is_answered_with_one_pong_then_message_returned
    (freshSocket [(40, ⟨OpPing, [1]⟩), (45, ⟨OpText, [104, 105]⟩)] none 15) 40 45 [1]
    ⟨OpText, [104, 105]⟩ [] none 0 rfl rfl rfl rfl (by decide) (by decide) (by decide)
    (Or.inr ⟨rfl, by decide⟩)
  exact ⟨(h1 rfl (by decide)).1, (h1 rfl (by decide)).2, (h2 (by decide)).1,
    (h2 (by decide)).2⟩

/-- Counterexample to C3 as stated: on a fresh Socket with keepalive every 15
ticks the ping `[1]` arrives at instant 40 and the text frame "hi" at instant
45. The keepalive timer fires at instant 15; its ping sets the write deadline
to instant 30. At instant 40 the control handler's pong is refused by that
deadline: `ReadData` returns the deadline error, the text frame is not
returned, and the wire holds the keepalive ping and no pong. Further, a text
frame with the ill-formed payload `0xFF` behind a ping is not returned, a
ping with 126 bytes of payload is rejected by the header check and not handed
to the control handler, and a call with timeout 5 that has answered a ping of
instant 0 returns the deadline error when the text frame arrives only at
instant 10. -/
theorem C3_counterexample :
    ((freshSocket [(40, ⟨OpPing, [1]⟩), (45, ⟨OpText, [104, 105]⟩)] none 15).ReadData 0).1 =
      Result.ret none 0 (some Err.ErrDeadlineExceeded) ∧
    ((freshSocket [(40, ⟨OpPing, [1]⟩), (45, ⟨OpText, [104, 105]⟩)] none 15).ReadData
      0).2.UnderlyingConn.wire = [⟨OpPing, []⟩] ∧
    ((freshSocket [(40, ⟨OpPing, [1]⟩), (45, ⟨OpText, [104, 105]⟩)] none 15).ReadData
      0).2.UnderlyingConn.writeDeadline = some 30 ∧
    ((freshSocket [(40, ⟨OpPing, [1]⟩), (45, ⟨OpText, [104, 105]⟩)] none 15).ReadData 0).1 ≠
      Result.ret (some [104, 105]) OpText none ∧
    ((freshSocket [(0, ⟨OpPing, [1]⟩), (0, ⟨OpText, [0xFF]⟩)] none 0).ReadData 0).1 =
      Result.ret none 0 (some Err.ErrInvalidUTF8) ∧
    ((freshSocket [(0, ⟨OpPing, List.replicate 126 0⟩), (0, ⟨OpText, [104, 105]⟩)] none
      0).ReadData 0).1 = Result.ret none 0 (some Err.ProtocolError) ∧
    ((freshSocket [(0, ⟨OpPing, [1]⟩), (10, ⟨OpText, [104, 105]⟩)] none 0).ReadData 5).1 =
      Result.ret none 0 (some Err.ErrDeadlineExceeded) ∧
    ((freshSocket [(0, ⟨OpPing, [1]⟩), (10, ⟨OpText, [104, 105]⟩)] none 0).ReadData
      5).2.UnderlyingConn.wire = [⟨OpPong, [1]⟩] := by
  decide

/-- C4: in every pass of the `ReadData` loop, when the frame-header read
reports end-of-stream (`io.EOF`), `ReadData` returns a nil payload, kind 0 and
the non-nil error `io.ErrUnexpectedEOF`, and it returns exactly the same
result when the header read succeeds with a close opcode: a clean close by the
peer and the end of input cannot be told apart by the caller, and neither is a
successful zero-length read. -/
theorem C4_EOF_and_close_return_ErrUnexpectedEOF (s : Socket) (timeout delayTime : Int)
    (delayTimer : Option Timer) (n : Nat) (hdr : Header)
    (h : (s.arm timeout delayTime delayTimer).2.NextFrame.1 = some (hdr, some Err.EOF) ∨
      ((s.arm timeout delayTime delayTimer).2.NextFrame.1 = some (hdr, none) ∧
        hdr.OpCode = OpClose)) :
    (Socket.ReadDataLoop timeout delayTime (n + 1) delayTimer s).1 =
      Result.ret none 0 (some Err.ErrUnexpectedEOF) := by
  rcases h with h | ⟨h, hc⟩
  · rw [Loop_done timeout delayTime n delayTimer s
      (Result.ret none 0 (some Err.ErrUnexpectedEOF))
      (by rw [iter_eq s timeout delayTime delayTimer _ h]; simp [Socket.dispatch])]
  · rw [Loop_done timeout delayTime n delayTimer s
      (Result.ret none 0 (some Err.ErrUnexpectedEOF))
      (by rw [iter_eq s timeout delayTime delayTimer _ h]; simp [Socket.dispatch, hc])]

/-- Witness of C4: a stream that the peer closes at instant 3, and a stream
that carries a close frame with status 1000 at instant 1. -/
theorem C4_witness :
    ((freshSocket [] (some (3, Err.EOF)) 15).ReadData 0).1 =
      Result.ret none 0 (some Err.ErrUnexpectedEOF) ∧
    ((freshSocket [(1, ⟨OpClose, [3, 232]⟩)] none 15).ReadData 0).1 =
      Result.ret none 0 (some Err.ErrUnexpectedEOF) :=
  ⟨C4_EOF_and_close_return_ErrUnexpectedEOF (freshSocket [] (some (3, Err.EOF)) 15) 0 15 none
      0 ⟨0, 0⟩ (Or.inl (by decide)),
    C4_EOF_and_close_return_ErrUnexpectedEOF (freshSocket [(1, ⟨OpClose, [3, 232]⟩)] none 15)
      0 15 none 1 ⟨OpClose, 2⟩ (Or.inr ⟨by decide, rfl⟩)⟩

/-- C5 (as amended): on a stream with an explicit read deadline, let a `ReadData`
call with `timeout > 0` fail because the next frame, a complete text or binary
message, arrives only at or after the deadline. The call returns the deadline
error. Because `ReadData` sets the read deadline only when `timeout > 0`, a
later call with `timeout = 0` (or less) on the same Socket, however long the
caller waits before it, still fails on the expired deadline; a later call with
`timeout > 0` arms a new deadline and, when the frame arrives before that
deadline, returns the frame's payload and kind. -/
theorem C5_expired_deadline_persists_until_rearmed (s : Socket) (a : Int) (f : Frame)
    (rest : List (Int × Frame)) (e : Option (Int × Err)) (t1 : Int)
    (hcur : s.reader.cur = none)
    (hin : s.UnderlyingConn.inbound = ⟨(a, f) :: rest, e⟩)
    (ht1 : t1 > 0) (hlate : s.now + t1 ≤ a) (hf : f.isMessage) :
    (s.ReadData t1).1 = Result.ret none 0 (some Err.ErrDeadlineExceeded) ∧
    (∀ t2 wake : Int, t2 ≤ 0 →
      (((s.ReadData t1).2.wait wake).ReadData t2).1 =
        Result.ret none 0 (some Err.ErrDeadlineExceeded)) ∧
    (∀ t2 wake : Int, t2 > 0 → a < max (s.now + t1) wake + t2 →
      (((s.ReadData t1).2.wait wake).ReadData t2).1 =
        Result.ret (some f.Payload) f.OpCode none) := by
  unfold Socket.now at hlate ⊢
  have hp : s.pending = ⟨(a, f) :: rest, e⟩ := by simp [Socket.pending, hcur, hin]
  have hd : s.deadline t1 = some (s.UnderlyingConn.now + t1) := by simp [Socket.deadline, ht1]
  obtain ⟨h1, h2, h3, h4, _, h6⟩ := ReadData_deadline s t1 a f rest e
    (by rw [hd, expired_some]; simp; right; exact hlate) hp
  rw [hd] at h3 h6
  have hnow : (s.ReadData t1).2.UnderlyingConn.now = s.UnderlyingConn.now + t1 := by
    rw [h6]; simp; omega
  have hp2 : ∀ wake, ((s.ReadData t1).2.wait wake).pending = ⟨(a, f) :: rest, e⟩ := by
    intro wake
    simp [Socket.pending, Socket.wait, Socket.withConn, h2, hcur, h4, hin]
  have hfr2 : ∀ wake, ((s.ReadData t1).2.wait wake).fragmented = false := by
    intro wake
    simp [Socket.fragmented, Socket.wait, Socket.withConn, h2, hcur]
  have hnow2 : ∀ wake, ((s.ReadData t1).2.wait wake).UnderlyingConn.now =
      max (s.UnderlyingConn.now + t1) wake := by
    intro wake
    simp [Socket.wait, Socket.withConn, Socket.now, hnow]
  refine ⟨h1, ?_, ?_⟩
  · intro t2 wake ht2
    have hd2 : ((s.ReadData t1).2.wait wake).deadline t2 = some (s.UnderlyingConn.now + t1) := by
      have : ¬ t2 > 0 := not_lt.mpr ht2
      simp [Socket.deadline, this, Socket.wait, Socket.withConn, h3]
    exact (ReadData_deadline _ t2 a f rest e
      (by rw [hd2, expired_some, hnow2]; simp) (hp2 wake)).1
  · intro t2 wake ht2 harr
    have hd2 : ((s.ReadData t1).2.wait wake).deadline t2 =
        some (max (s.UnderlyingConn.now + t1) wake + t2) := by
      simp [Socket.deadline, ht2, hnow2]
    exact (ReadData_message _ t2 a f rest e (hfr2 wake)
      (by
        rw [hd2, expired_some, hnow2]
        simp only [decide_eq_false_iff_not, not_le]
        exact max_lt (by omega) harr)
      (hp2 wake) hf).1

/-- Witness of C5: the text frame "hi" arrives at instant 10; the first call has
timeout 5, the later calls are made at instant 20. -/
theorem C5_witness :
    ((freshSocket [(10, ⟨OpText, [104, 105]⟩)] none 0).ReadData 5).1 =
      Result.ret none 0 (some Err.ErrDeadlineExceeded) ∧
    ((((freshSocket [(10, ⟨OpText, [104, 105]⟩)] none 0).ReadData 5).2.wait 20).ReadData 0).1 =
      Result.ret none 0 (some Err.ErrDeadlineExceeded) ∧
    ((((freshSocket [(10, ⟨OpText, [104, 105]⟩)] none 0).ReadData 5).2.wait 20).ReadData 3).1 =
      Result.ret (some [104, 105]) OpText none := by
  obtain ⟨h1, h2, h3⟩ := C5_expired_deadline_persists_until_rearmed
    (freshSocket [(10, ⟨OpText, [104, 105]⟩)] none 0) 10 ⟨OpText, [104, 105]⟩ [] none 5
    rfl rfl (by decide) (by decide) (Or.inr ⟨rfl, by decide⟩)
  exact ⟨h1, h2 0 20 (by decide), h3 3 20 (by decide) (by decide)⟩

/-- Counterexample to C5 as stated: the text frame "hi" arrives at instant 10.
`ReadData(5)` at instant 0 fails at the deadline, instant 5. `ReadData(0)` right
after it fails with the deadline error, and so does `ReadData(0)` at instant 20,
when the complete frame has long been available; neither returns "hi". -/
theorem C5_counterexample :
    ((freshSocket [(10, ⟨OpText, [104, 105]⟩)] none 0).ReadData 5).1 =
      Result.ret none 0 (some Err.ErrDeadlineExceeded) ∧
    (((freshSocket [(10, ⟨OpText, [104, 105]⟩)] none 0).ReadData 5).2.ReadData 0).1 =
      Result.ret none 0 (some Err.ErrDeadlineExceeded) ∧
    ((((freshSocket [(10, ⟨OpText, [104, 105]⟩)] none 0).ReadData 5).2.wait 20).ReadData 0).1 =
      Result.ret none 0 (some Err.ErrDeadlineExceeded) ∧
    ((((freshSocket [(10, ⟨OpText, [104, 105]⟩)] none 0).ReadData 5).2.wait 20).ReadData 0).1 ≠
      Result.ret (some [104, 105]) OpText none := by
  decide

/-- C6 (as amended): let the header check of the decoder be on, as `newSocket`
leaves it. (1) A frame with a reserved opcode (`0x3` to `0x7`, `0xb` to `0xf`),
and a continuation frame that arrives while no fragmented message is in
progress, is fatal to the call: the decoder returns its header with a
protocol error and `ReadData` returns that error with a nil payload and kind
0; the frame is neither discarded nor skipped. (2) A header that the decoder
returns without error and whose opcode is neither text, binary nor a control
opcode is the header of a continuation frame inside a fragmented message;
`ReadData` then discards through the decoder and restarts the loop when the
discard returns nil, and returns the error of the discard otherwise. (3) When
that continuation frame is the last of its message, the discard returns nil:
the frame is dropped and the loop goes on with the frame behind it. (4) No
such frame is returned to the caller as a message: every `ReadData` result
without error carries a payload and a message kind of text or binary. -/
theorem C6_frames_without_text_or_binary_bit_are_discarded (s : Socket)
    (timeout delayTime : Int) (delayTimer : Option Timer)
    (hchk : s.reader.SkipHeaderCheck = false) :
    (∀ (a : Int) (f : Frame) (rest : List (Int × Frame)) (e : Option (Int × Err)),
      s.pending = ⟨(a, f) :: rest, e⟩ →
      expired (s.deadline timeout) (max s.now a) = false →
      IsReserved f.op = true ∨ (f.op = OpContinuation ∧ s.fragmented = false) →
      (s.ReadData timeout).1 = Result.ret none 0 (some Err.ProtocolError)) ∧
    (∀ hdr : Header,
      (s.arm timeout delayTime delayTimer).2.NextFrame.1 = some (hdr, none) →
      IsControl hdr.OpCode = false → hdr.OpCode ≠ OpText → hdr.OpCode ≠ OpBinary →
      hdr.OpCode = OpContinuation ∧ s.fragmented = true ∧
      (s.ReadDataIter timeout delayTime delayTimer).2.2 =
        (s.stopped timeout delayTime delayTimer).Discard.2 ∧
      (∀ b, (s.stopped timeout delayTime delayTimer).Discard.1 = Drained.done b none →
        (s.ReadDataIter timeout delayTime delayTimer).1 = Step.next) ∧
      (∀ b err, (s.stopped timeout delayTime delayTimer).Discard.1 = Drained.done b (some err) →
        (s.ReadDataIter timeout delayTime delayTimer).1 =
          Step.done (Result.ret none 0 (some err))) ∧
      ((s.stopped timeout delayTime delayTimer).Discard.1 = Drained.never →
        (s.ReadDataIter timeout delayTime delayTimer).1 = Step.done Result.blocked)) ∧
    (∀ (a : Int) (p : Bytes) (rest : List (Int × Frame)) (e : Option (Int × Err)),
      s.fragmented = true → s.pending = ⟨(a, ⟨OpContinuation, p⟩) :: rest, e⟩ →
      expired (s.deadline timeout) (max s.now a) = false →
      (s.ReadDataIter timeout delayTime delayTimer).1 = Step.next ∧
      (s.ReadDataIter timeout delayTime delayTimer).2.2.reader.cur = none ∧
      (s.ReadDataIter timeout delayTime delayTimer).2.2.UnderlyingConn.inbound = ⟨rest, e⟩) ∧
    (∀ (b : Option Bytes) (k : Nat), (s.ReadData timeout).1 = Result.ret b k none →
      (k = OpText ∨ k = OpBinary) ∧ b ≠ none) := by
  unfold Socket.now
  refine ⟨?_, ?_, ?_, ?_⟩
  · intro a f rest e hin hexp hbad
    apply ReadData_rejected s timeout a f rest e hchk hexp hin
    rcases hbad with h | ⟨h1, h2⟩
    · rw [CheckHeader_reserved f _ h]; simp
    · rw [h2, CheckHeader_stray f h1]; simp
  · intro hdr hread hctl ht hb
    obtain ⟨h1, h2, h3, h4⟩ := iter_discard s timeout delayTime delayTimer hdr hchk hread hctl
      ht hb
    refine ⟨h1, h2, h3, ?_, ?_, ?_⟩
    · intro b hd
      rw [h4, hd]
    · intro b err hd
      rw [h4, hd]
    · intro hd
      rw [h4, hd]
  · intro a p rest e hfrag hin hexp
    exact iter_continuation s timeout delayTime delayTimer a p rest e hfrag hexp hin
  · intro b k h
    exact Loop_kind timeout s.pingPeriod _ none s hchk b k h

/-- Witness of C6. A text message comes in two fragments, "h" at instant 0 and
"i" at instant 10, followed by the text frame "o" at instant 11. `ReadData(5)`
times out inside the message and leaves the decoder inside it. On that Socket
the header check is on and the decoder is inside a fragmented message; the
pass of `ReadData(7)` that reads the continuation frame drops it and continues
with the frame "o" next on the stream, and the call returns "o", a text
message. And a frame with the reserved opcode `0x3` on a fresh Socket ends the
call with the protocol error. -/
theorem C6_witness :
    ((freshSocket [(0, ⟨More + OpText, [104]⟩), (10, ⟨OpContinuation, [105]⟩),
      (11, ⟨OpText, [111]⟩)] none 0).ReadData 5).2.reader.SkipHeaderCheck = false ∧
    ((freshSocket [(0, ⟨More + OpText, [104]⟩), (10, ⟨OpContinuation, [105]⟩),
      (11, ⟨OpText, [111]⟩)] none 0).ReadData 5).2.fragmented = true ∧
    ((((freshSocket [(0, ⟨More + OpText, [104]⟩), (10, ⟨OpContinuation, [105]⟩),
      (11, ⟨OpText, [111]⟩)] none 0).ReadData 5).2.ReadDataIter 7 0 none).1 = Step.next ∧
      (((freshSocket [(0, ⟨More + OpText, [104]⟩), (10, ⟨OpContinuation, [105]⟩),
        (11, ⟨OpText, [111]⟩)] none 0).ReadData 5).2.ReadDataIter 7 0 none).2.2.reader.cur =
        none ∧
      (((freshSocket [(0, ⟨More + OpText, [104]⟩), (10, ⟨OpContinuation, [105]⟩),
        (11, ⟨OpText, [111]⟩)] none 0).ReadData 5).2.ReadDataIter 7 0
          none).2.2.UnderlyingConn.inbound = ⟨[(11, ⟨OpText, [111]⟩)], none⟩) ∧
    (((freshSocket [(0, ⟨More + OpText, [104]⟩), (10, ⟨OpContinuation, [105]⟩),
      (11, ⟨OpText, [111]⟩)] none 0).ReadData 5).2.ReadData 7).1 =
      Result.ret (some [111]) OpText none ∧
    ((OpText = OpText ∨ OpText = OpBinary) ∧ some [111] ≠ (none : Option Bytes)) ∧
    ((freshSocket [(0, ⟨0x3, [1]⟩), (0, ⟨OpText, [104, 105]⟩)] none 0).ReadData 0).1 =
      Result.ret none 0 (some Err.ProtocolError) := by
  have hw : (((freshSocket [(0, ⟨More + OpText, [104]⟩), (10, ⟨OpContinuation, [105]⟩),
      (11, ⟨OpText, [111]⟩)] none 0).ReadData 5).2.ReadData 7).1 =
      Result.ret (some [111]) OpText none := by decide
  exact ⟨by decide, by decide,
    (C6_frames_without_text_or_binary_bit_are_discarded
      ((freshSocket [(0, ⟨More + OpText, [104]⟩), (10, ⟨OpContinuation, [105]⟩),
        (11, ⟨OpText, [111]⟩)] none 0).ReadData 5).2 7 0 none (by decide)).2.2.1 10 [105]
      [(11, ⟨OpText, [111]⟩)] none (by decide) (by decide) (by decide),
    hw,
    (C6_frames_without_text_or_binary_bit_are_discarded
      ((freshSocket [(0, ⟨More + OpText, [104]⟩), (10, ⟨OpContinuation, [105]⟩),
        (11, ⟨OpText, [111]⟩)] none 0).ReadData 5).2 7 0 none (by decide)).2.2.2 _ _ hw,
    (C6_frames_without_text_or_binary_bit_are_discarded
      (freshSocket [(0, ⟨0x3, [1]⟩), (0, ⟨OpText, [104, 105]⟩)] none 0) 0 0 none rfl).1 0
      ⟨0x3, [1]⟩ [(0, ⟨OpText, [104, 105]⟩)] none rfl (by decide) (Or.inl (by decide))⟩

/-- Counterexample to C6 as stated: on a fresh Socket a frame with the reserved
opcode `0x3`, and likewise a continuation frame outside a fragmented message,
is followed by the text frame "hi". `ReadData` does not discard the frame and
go on to "hi": the decoder returns the header with a protocol error and
`ReadData` returns that error. -/
theorem C6_counterexample :
    ((freshSocket [(0, ⟨0x3, [1]⟩), (0, ⟨OpText, [104, 105]⟩)] none 0).ReadData 0).1 =
      Result.ret none 0 (some Err.ProtocolError) ∧
    ((freshSocket [(0, ⟨0x3, [1]⟩), (0, ⟨OpText, [104, 105]⟩)] none 0).ReadData 0).1 ≠
      Result.ret (some [104, 105]) OpText none ∧
    ((freshSocket [(0, ⟨OpContinuation, [1]⟩), (0, ⟨OpText, [104, 105]⟩)] none 0).ReadData
      0).1 = Result.ret none 0 (some Err.ProtocolError) ∧
    ((freshSocket [(0, ⟨OpContinuation, [1]⟩), (0, ⟨OpText, [104, 105]⟩)] none 0).ReadData
      0).1 ≠ Result.ret (some [104, 105]) OpText none := by
  decide

/-- C7: for every body, opcode and timeout, `write` (the primitive behind
`WriteBinary`, `WriteText` and `WriteOp`) on a Socket whose mutex is free
acquires the mutex, sets a write deadline on the stream if and only if
`timeout > 0`, makes exactly one frame write, with the given opcode and body,
and releases the mutex, in this order, whether the frame write succeeds or
fails; the mutex is free afterwards; the result is the error of that frame
write, so it is an error exactly when the frame write failed; the frame is on
the wire exactly when the write succeeded. `WriteBinary` and `WriteText` are
this primitive with the binary and the text opcode. -/
theorem C7_write_locks_emits_one_frame_unlocks (s : Socket) (body : Bytes) (op : Nat)
    (timeout : Int) (hfree : s.mu = false) :
    ∃ s1 : Socket,
      s.write body op timeout =
        some ((WriteMessage
          (if timeout > 0 then s.UnderlyingConn.SetWriteDeadline (s.now + timeout)
            else s.UnderlyingConn) s.state op body).1, s1) ∧
      s1.mu = false ∧
      s1.trace = s.trace ++ [Action.Lock] ++
        (if timeout > 0 then [Action.SetWriteDeadline (s.now + timeout)] else []) ++
        [Action.Write op body, Action.Unlock] ∧
      s1.UnderlyingConn.writeDeadline =
        (if timeout > 0 then some (s.now + timeout) else s.UnderlyingConn.writeDeadline) ∧
      s1.UnderlyingConn.wire =
        (if (WriteMessage
            (if timeout > 0 then s.UnderlyingConn.SetWriteDeadline (s.now + timeout)
              else s.UnderlyingConn) s.state op body).1 = none
          then s.UnderlyingConn.wire ++ [⟨op, body⟩] else s.UnderlyingConn.wire) ∧
      s.WriteBinary body timeout = s.write body OpBinary timeout ∧
      s.WriteText body timeout = s.write body OpText timeout ∧
      s.WriteOp body op timeout = s.write body op timeout := by
  suffices h : ∃ s1 : Socket,
      s.write body op timeout =
        some ((WriteMessage
          (if timeout > 0 then s.UnderlyingConn.SetWriteDeadline (s.now + timeout)
            else s.UnderlyingConn) s.state op body).1, s1) ∧
      s1.mu = false ∧
      s1.trace = s.trace ++ [Action.Lock] ++
        (if timeout > 0 then [Action.SetWriteDeadline (s.now + timeout)] else []) ++
        [Action.Write op body, Action.Unlock] ∧
      s1.UnderlyingConn.writeDeadline =
        (if timeout > 0 then some (s.now + timeout) else s.UnderlyingConn.writeDeadline) ∧
      s1.UnderlyingConn.wire =
        (if (WriteMessage
            (if timeout > 0 then s.UnderlyingConn.SetWriteDeadline (s.now + timeout)
              else s.UnderlyingConn) s.state op body).1 = none
          then s.UnderlyingConn.wire ++ [⟨op, body⟩] else s.UnderlyingConn.wire) by
    obtain ⟨s1, h1, h2, h3, h4, h5⟩ := h
    exact ⟨s1, h1, h2, h3, h4, h5, rfl, rfl, rfl⟩
  by_cases ht : timeout > 0
  · simp only [Socket.write, hfree, ht, Bool.false_eq_true, if_false, if_true]
    refine ⟨_, rfl, ?_, ?_, ?_, ?_⟩
    · simp [Socket.record, Socket.withConn]
    · simp [Socket.record, Socket.withConn, Socket.now]
    · simp only [Socket.record, Socket.withConn, WriteMessage, Conn.Write,
        Conn.SetWriteDeadline]
      split <;> try split
      all_goals simp [Socket.now]
    · simp only [Socket.record, Socket.withConn, WriteMessage, Conn.Write,
        Conn.SetWriteDeadline, Socket.now]
      split <;> try split
      all_goals simp_all
  · simp only [Socket.write, hfree, ht, Bool.false_eq_true, if_false]
    refine ⟨_, rfl, ?_, ?_, ?_, ?_⟩
    · simp [Socket.record, Socket.withConn]
    · simp [Socket.record, Socket.withConn]
    · simp only [Socket.record, Socket.withConn, WriteMessage, Conn.Write]
      split <;> try split
      all_goals simp
    · simp only [Socket.record, Socket.withConn, WriteMessage, Conn.Write]
      split <;> try split
      all_goals simp_all

/-- Witness of C7: `WriteBinary([1, 2], 5)` on a fresh Socket succeeds, leaves
the mutex free, sets the write deadline to instant 5 and puts exactly the
binary frame `[1, 2]` on the wire. -/
theorem C7_witness :
    (freshSocket [] none 0).mu = false ∧
    ∃ s1 : Socket,
      (freshSocket [] none 0).WriteBinary [1, 2] 5 = some (none, s1) ∧ s1.mu = false ∧
      s1.trace = [Action.Lock, Action.SetWriteDeadline 5, Action.Write OpBinary [1, 2],
        Action.Unlock] ∧
      s1.UnderlyingConn.writeDeadline = some 5 ∧
      s1.UnderlyingConn.wire = [⟨OpBinary, [1, 2]⟩] := by
  refine ⟨rfl, ?_⟩
  obtain ⟨s1, h1, h2, h3, h4, h5, h6, _, _⟩ :=
    C7_write_locks_emits_one_frame_unlocks (freshSocket [] none 0) [1, 2] OpBinary 5 rfl
  refine ⟨s1, ?_, h2, ?_, ?_, ?_⟩
  · rw [h6, h1]; rfl
  · rw [h3]; rfl
  · rw [h4]; rfl
  · rw [h5]; rfl

/-- C8: for every request and keepalive interval `p`, the function returned by
`Upgrader(upgrader, p)` returns an error if and only if the HTTP-upgrade
collaborator fails; then the error is the collaborator's error unchanged and
no Socket is returned. Otherwise it returns a Socket whose side is the
accepting (server) side, whose `pingPeriod` is `p`, whose `NetConn()` is the
stream the collaborator produced and whose `Request()` is the original
request. -/
theorem C8_Upgrader_propagates_error_or_builds_server_socket (upgrader : HTTPUpgrader)
    (p : Int) (w : ResponseWriter) (r : Request) :
    ((Upgrader upgrader p w r).2 ≠ none ↔ (upgrader.Upgrade r w).err ≠ none) ∧
    ((upgrader.Upgrade r w).err ≠ none →
      Upgrader upgrader p w r = (none, (upgrader.Upgrade r w).err)) ∧
    ((upgrader.Upgrade r w).err = none →
      ∃ sock : Socket, Upgrader upgrader p w r = (some sock, none) ∧
        sock.state = State.StateServerSide ∧ sock.reader.State = State.StateServerSide ∧
        sock.pingPeriod = p ∧ sock.NetConn = (upgrader.Upgrade r w).conn ∧
        sock.Request = r) := by
  by_cases h : (upgrader.Upgrade r w).err = none
  · refine ⟨?_, ?_, ?_⟩
    · simp [Upgrader, h]
    · intro h2; exact absurd h h2
    · intro _
      exact ⟨newSocket (upgrader.Upgrade r w).conn r false p, by simp [Upgrader, h],
        rfl, rfl, rfl, rfl, rfl⟩
  · refine ⟨?_, ?_, ?_⟩
    · simp [Upgrader, h]
    · intro _; simp [Upgrader, h]
    · intro h2; exact absurd h2 h

/-- Witness of C8: a collaborator that rejects every request with error 400
and one that accepts every request, at a request for `/ws` and interval 15. -/
theorem C8_witness :
    Upgrader ⟨fun _ _ => ⟨Conn.fresh 0 [] none (fun _ i => i), some (Err.other 400)⟩⟩ 15 ⟨1⟩
      ⟨"/ws"⟩ = (none, some (Err.other 400)) ∧
    ∃ sock : Socket,
      Upgrader ⟨fun _ _ => ⟨Conn.fresh 0 [] none (fun _ i => i), none⟩⟩ 15 ⟨1⟩ ⟨"/ws"⟩ =
        (some sock, none) ∧
      sock.state = State.StateServerSide ∧ sock.pingPeriod = 15 ∧
      sock.Request = ⟨"/ws"⟩ := by
  refine ⟨?_, ?_⟩
  · exact (C8_Upgrader_propagates_error_or_builds_server_socket
      ⟨fun _ _ => ⟨Conn.fresh 0 [] none (fun _ i => i), some (Err.other 400)⟩⟩ 15 ⟨1⟩
      ⟨"/ws"⟩).2.1 (by simp)
  · obtain ⟨sock, h1, h2, _, h4, _, h6⟩ :=
      (C8_Upgrader_propagates_error_or_builds_server_socket
        ⟨fun _ _ => ⟨Conn.fresh 0 [] none (fun _ i => i), none⟩⟩ 15 ⟨1⟩ ⟨"/ws"⟩).2.2 rfl
    exact ⟨sock, h1, h2, h4, h6⟩

/-- C10: take a pass of the `ReadData` loop that starts with no keepalive timer
armed. (1) Its actions are, in this order: the read deadline when
`timeout > 0`; the arming of the one-shot timer if and only if the interval
`pingPeriod` is greater than zero; while the header read blocks, nothing but
the writes of a keepalive ping; and, when the header read has returned, on
success and on failure alike, at once the stop of the timer if one was armed,
followed by nothing but writes. When the header read has returned, no timer is
armed at the end of the pass and the local variable `delayTimer` is nil, so
the next pass starts with no timer armed. (2) The actions of a whole
`ReadData` call are those of its passes, each of this form. (3) At every exit
from `ReadData` no timer is armed. (4) With an interval of zero or less
`ReadData` arms no timer and puts no ping on the wire. (5) With a positive
interval the armed timer is live: when the next frame arrives more than an
interval after the pass began (mutex free, no transport failure), the
keepalive ping is on the wire after the pass. -/
theorem C10_keepalive_timer_armed_iff_enabled_and_stopped (s : Socket) (timeout : Int)
    (hT : s.timer = none) :
    (∃ (returned : Bool) (w : List Action),
      (s.ReadDataIter timeout s.pingPeriod none).2.2.trace = s.trace ++ w ∧
      passTrace timeout s.pingPeriod returned w ∧
      (returned = false →
        (s.ReadDataIter timeout s.pingPeriod none).1 = Step.done Result.blocked) ∧
      (returned = true →
        (s.ReadDataIter timeout s.pingPeriod none).2.2.timer = none ∧
        (s.ReadDataIter timeout s.pingPeriod none).2.1 = none)) ∧
    (∃ ws : List (List Action),
      (s.ReadData timeout).2.trace = s.trace ++ ws.flatten ∧
      ∀ w ∈ ws, ∃ returned, passTrace timeout s.pingPeriod returned w) ∧
    ((s.ReadData timeout).1 ≠ Result.blocked → (s.ReadData timeout).2.timer = none) ∧
    (s.pingPeriod ≤ 0 →
      pings (s.ReadData timeout).2.UnderlyingConn.wire = pings s.UnderlyingConn.wire ∧
      ∃ w, (s.ReadData timeout).2.trace = s.trace ++ w ∧ noAfterFunc w) ∧
    (s.pingPeriod > 0 → s.mu = false → s.UnderlyingConn.writeErr = none →
      ∀ (a : Int) (f : Frame) (rest : List (Int × Frame)) (e : Option (Int × Err)),
        s.pending = ⟨(a, f) :: rest, e⟩ →
        expired (s.deadline timeout) (max s.now a) = false → s.now + s.pingPeriod < a →
        pings (s.ReadDataIter timeout s.pingPeriod none).2.2.UnderlyingConn.wire =
          pings s.UnderlyingConn.wire ++ [⟨OpPing, []⟩]) := by
  unfold Socket.now
  refine ⟨?_, ?_, ?_, ?_, ?_⟩
  · obtain ⟨w, hw, hp⟩ := iter_trace s timeout s.pingPeriod none rfl
    refine ⟨_, w, hw, hp, ?_, ?_⟩
    · intro hr
      have hn : (s.arm timeout s.pingPeriod none).2.NextFrame.1 = none := by
        simpa using hr
      unfold Socket.ReadDataIter
      simp [hn]
    · intro hr
      obtain ⟨r, hr2⟩ := Option.isSome_iff_exists.mp hr
      exact ⟨(iter_stopped s timeout s.pingPeriod r hT hr2).1,
        (iter_stopped s timeout s.pingPeriod r hT hr2).2.1⟩
  · exact Loop_trace timeout s.pingPeriod _ none s rfl
  · exact Loop_timer timeout s.pingPeriod _ none s hT rfl
  · intro hd
    exact Loop_quiet timeout s.pingPeriod hd _ none s hT rfl
  · intro hd hmu hwe a f rest e hin hexp hlate
    exact iter_keepalive s timeout s.pingPeriod a f rest e hT hmu hwe hd hin hexp
      (le_of_lt hlate)

/-- Witness of C10: on a fresh Socket with keepalive every 15 ticks the text
frame "hi" arrives at instant 20. The call arms the timer, the timer fires at
instant 15 and writes the keepalive ping with write deadline 30, the header
read returns at instant 20 and the timer is stopped at once; the call leaves
no timer armed and the ping on the wire. -/
theorem C10_witness :
    (freshSocket [(20, ⟨OpText, [104, 105]⟩)] none 15).timer = none ∧
    ((freshSocket [(20, ⟨OpText, [104, 105]⟩)] none 15).ReadData 0).2.trace =
      [Action.AfterFunc 15, Action.Lock, Action.SetWriteDeadline 30, Action.Write OpPing [],
        Action.Unlock, Action.NextFrame, Action.Stop] ∧
    ((freshSocket [(20, ⟨OpText, [104, 105]⟩)] none 15).ReadData 0).2.timer = none ∧
    pings ((freshSocket [(20, ⟨OpText, [104, 105]⟩)] none 15).ReadDataIter 0 15
      none).2.2.UnderlyingConn.wire = [] ++ [⟨OpPing, []⟩] :=
  ⟨rfl, by decide,
    (C10_keepalive_timer_armed_iff_enabled_and_stopped
      (freshSocket [(20, ⟨OpText, [104, 105]⟩)] none 15) 0 rfl).2.2.1 (by decide),
    (C10_keepalive_timer_armed_iff_enabled_and_stopped
      (freshSocket [(20, ⟨OpText, [104, 105]⟩)] none 15) 0 rfl).2.2.2.2 (by decide) rfl rfl 20
      ⟨OpText, [104, 105]⟩ [] none rfl (by decide) (by decide)⟩

end gobwas
